import Mathlib

/-!
# Football league simulator: fixtures, standings and the simulation cursor

A shallow embedding of `services/simulator.go`, `services/predictor.go` and the
championship estimator of `handlers/api.go`.

Conventions of the embedding.

* Go's `int` is `Int`.  The goal counts of a match are arbitrary values of
  `int`, so the sums and differences of goals in a standing wrap around at 64
  bits (`wrapInt64`).  Counters that move by one per call, match IDs and week
  numbers stay far from the bounds of a machine word and are kept exact.  List
  indices and loop counters that the code only ever counts upwards from `0`
  are `Nat`.
* A `float64` is the rational it denotes and every floating-point operation
  is the exact operation followed by the rounding `toFloat64` of IEEE 754.
* A Go run-time panic (index out of range, nil dereference, `make` with a
  negative length) is the value `none` of `Option`.
* The map `map[int]*models.Standing` is an association list of keys and
  records.  Every pointer stored in such a map is created fresh for its key, so
  an assignment through the pointer found under key `k` is `modify k`.
* `rand.NormFloat64` is an external source; the integer it leads to is read
  from a stream of draws that the caller supplies.
-/

namespace LeagueSim

/-! ## Data model -/

/-- Modelled from the spec: the declaration of `models.Team` is not among the
sources. The spec gives a team an integer identity, a display name and a
strength rating; `main.go` builds teams with the fields `ID`, `Name` and
`Strength`. -/
structure Team where
  ID : Int
  Name : String
  Strength : Int
deriving DecidableEq, Inhabited

/-- The record `models.Match`. -/
structure Match where
  ID : Int
  Home : Team
  Away : Team
  HomeGoals : Int
  AwayGoals : Int
  Played : Bool
  Week : Int
deriving DecidableEq

/-- The record `models.Standing`. -/
structure Standing where
  Team : Team
  Played : Int
  Won : Int
  Drawn : Int
  Lost : Int
  GoalsFor : Int
  GoalsAgainst : Int
  GoalDiff : Int
  Points : Int
deriving DecidableEq

/-! ## Fixture generation -/

/-- The statement
`teamList = append([]Team{teamList[0]}, append(teamList[numTeams-1:], teamList[1:numTeams-1]...)...)`:
the first entry stays, the last entry moves to position one and the entries in
between shift one place to the right.  The slice expressions panic when
`1 > numTeams-1` or when `numTeams-1` exceeds the length. -/
def rotate (teamList : List Team) (numTeams : Nat) : Option (List Team) :=
  match teamList[0]? with
  | none => none
  | some first =>
    if 1 ≤ numTeams - 1 ∧ numTeams - 1 ≤ teamList.length then
      some ([first] ++ (teamList.drop (numTeams - 1) ++ (teamList.take (numTeams - 1)).drop 1))
    else none

/-- The inner loop of the first leg, `for i := 0; i < numTeams/2; i++`, with
`n` iterations still to run: `home := teamList[i]`,
`away := teamList[numTeams-1-i]`, the match is appended to `weekMatches` and
`matchID` is incremented. -/
def firstLegWeek (teamList : List Team) (numTeams w : Nat) :
    Nat → Nat → List Match → Int → Option (List Match × Int)
  | 0, _, weekMatches, matchID => some (weekMatches, matchID)
  | n + 1, i, weekMatches, matchID =>
    match teamList[i]?, teamList[numTeams - 1 - i]? with
    | some home, some away =>
      firstLegWeek teamList numTeams w n (i + 1)
        (weekMatches ++ [{ ID := matchID, Home := home, Away := away, HomeGoals := 0,
                           AwayGoals := 0, Played := false, Week := (w : Int) + 1 }])
        (matchID + 1)
    | _, _ => none

/-- The inner loop of the second leg: `home := teamList2[numTeams-1-i]`,
`away := teamList2[i]`, and the week number is `w + numTeams`. -/
def secondLegWeek (teamList2 : List Team) (numTeams w : Nat) :
    Nat → Nat → List Match → Int → Option (List Match × Int)
  | 0, _, weekMatches, matchID => some (weekMatches, matchID)
  | n + 1, i, weekMatches, matchID =>
    match teamList2[numTeams - 1 - i]?, teamList2[i]? with
    | some home, some away =>
      secondLegWeek teamList2 numTeams w n (i + 1)
        (weekMatches ++ [{ ID := matchID, Home := home, Away := away, HomeGoals := 0,
                           AwayGoals := 0, Played := false, Week := (w : Int) + numTeams }])
        (matchID + 1)
    | _, _ => none

/-- The assignment `fixtures[idx] = weekMatches`; it panics when `idx` is out of range. -/
def setWeek (fixtures : List (List Match)) (idx : Nat) (weekMatches : List Match) :
    Option (List (List Match)) :=
  if idx < fixtures.length then some (fixtures.set idx weekMatches) else none

/-- The outer loop of the first leg, `for w := 0; w < numTeams-1; w++`, with `n`
iterations still to run. -/
def firstLeg (numTeams : Nat) :
    Nat → Nat → List Team → List (List Match) → Int → Option (List (List Match) × Int)
  | 0, _, _, fixtures, matchID => some (fixtures, matchID)
  | n + 1, w, teamList, fixtures, matchID =>
    match firstLegWeek teamList numTeams w (numTeams / 2) 0 [] matchID with
    | none => none
    | some (weekMatches, matchID) =>
      match setWeek fixtures w weekMatches with
      | none => none
      | some fixtures =>
        match rotate teamList numTeams with
        | none => none
        | some teamList => firstLeg numTeams n (w + 1) teamList fixtures matchID

/-- The outer loop of the second leg; week `w` is stored at `fixtures[w+numTeams-1]`. -/
def secondLeg (numTeams : Nat) :
    Nat → Nat → List Team → List (List Match) → Int → Option (List (List Match) × Int)
  | 0, _, _, fixtures, matchID => some (fixtures, matchID)
  | n + 1, w, teamList2, fixtures, matchID =>
    match secondLegWeek teamList2 numTeams w (numTeams / 2) 0 [] matchID with
    | none => none
    | some (weekMatches, matchID) =>
      match setWeek fixtures (w + numTeams - 1) weekMatches with
      | none => none
      | some fixtures =>
        match rotate teamList2 numTeams with
        | none => none
        | some teamList2 => secondLeg numTeams n (w + 1) teamList2 fixtures matchID

/-- The function `generateFixtures`.  With no team at all `weeks` is `-2` and
`make([][]models.Match, weeks)` panics. -/
def generateFixtures (teams : List Team) : Option (List (List Match)) :=
  let numTeams := teams.length
  if numTeams = 0 then none
  else
    let weeks := (numTeams - 1) * 2
    let fixtures : List (List Match) := List.replicate weeks []
    match firstLeg numTeams (numTeams - 1) 0 teams fixtures 1 with
    | none => none
    | some (fixtures, matchID) =>
      match secondLeg numTeams (numTeams - 1) 0 teams fixtures matchID with
      | none => none
      | some (fixtures, _) => some fixtures

/-! ## Closed form of the schedule

The functions below describe what the loops of `generateFixtures` compute; the
theorems `rotate_lineup` and `generateFixtures_eq` connect them to the code. -/

/-- The original position of the team that stands at position `p` of `teamList`
after `w` rotations, for a list of `M + 1` teams. -/
def src (M w p : Nat) : Nat :=
  if p = 0 then 0 else if p ≤ w then p + M - w else p - w

/-- The value of `teamList` after `w` rotations. -/
def lineup (teams : List Team) (w : Nat) : List Team :=
  (List.range teams.length).map (fun p => teams.getD (src (teams.length - 1) w p) default)

/-- The match that the first leg creates in week `w` (counted from zero) at
loop index `i`, when `base` is the value of `matchID` on entry to the week. -/
def firstLegMatch (teams : List Team) (w : Nat) (base : Int) (i : Nat) : Match :=
  { ID := base + i
    Home := teams.getD (src (teams.length - 1) w i) default
    Away := teams.getD (src (teams.length - 1) w (teams.length - 1 - i)) default
    HomeGoals := 0, AwayGoals := 0, Played := false, Week := (w : Int) + 1 }

/-- The match that the second leg creates in its week `w` at loop index `i`. -/
def secondLegMatch (teams : List Team) (w : Nat) (base : Int) (i : Nat) : Match :=
  { ID := base + i
    Home := teams.getD (src (teams.length - 1) w (teams.length - 1 - i)) default
    Away := teams.getD (src (teams.length - 1) w i) default
    HomeGoals := 0, AwayGoals := 0, Played := false, Week := (w : Int) + teams.length }

/-- The weeks of the first leg in closed form. -/
def firstLegWeeks (teams : List Team) : List (List Match) :=
  (List.range (teams.length - 1)).map (fun v =>
    (List.range (teams.length / 2)).map
      (firstLegMatch teams v (1 + (v : Int) * ((teams.length / 2 : Nat) : Int))))

/-- The weeks of the second leg in closed form. -/
def secondLegWeeks (teams : List Team) : List (List Match) :=
  (List.range (teams.length - 1)).map (fun v =>
    (List.range (teams.length / 2)).map
      (secondLegMatch teams v
        (1 + ((teams.length - 1 : Nat) : Int) * ((teams.length / 2 : Nat) : Int)
           + (v : Int) * ((teams.length / 2 : Nat) : Int))))

/-- The position, after `w` rotations, of the team whose original position is `a`. -/
def pos (M w a : Nat) : Nat :=
  if a = 0 then 0 else if a + w ≤ M then a + w else a + w - M

/-- The four teams that `main.go` seeds the simulator with. -/
def demoTeams : List Team :=
  [⟨1, "Manchester United", 5⟩, ⟨2, "Manchester City", 7⟩, ⟨3, "Chelsea", 6⟩, ⟨4, "Liverpool", 8⟩]

/-- The ordered pair of sides of a match. -/
def sides (m : Match) : Team × Team := (m.Home, m.Away)

/-- The pair of sides, in first-leg orientation, met at week `x.1` and loop index `x.2`. -/
def slotSides (teams : List Team) (x : Nat × Nat) : Team × Team :=
  (teams.getD (src (teams.length - 1) x.1 x.2) default,
   teams.getD (src (teams.length - 1) x.1 (teams.length - 1 - x.2)) default)

/-- The index set of a leg: all weeks and all loop indices. -/
def slots (teams : List Team) : List (Nat × Nat) :=
  List.product (List.range (teams.length - 1)) (List.range (teams.length / 2))

/-! ## Standings -/

/-- The map `map[int]*models.Standing`: keys with the record each key points to. -/
abbrev StandingsMap := List (Int × Standing)

/-- The map read `standings[id]`; `none` is the nil pointer of a missing key. -/
def StandingsMap.get : StandingsMap → Int → Option Standing
  | [], _ => none
  | (k, s) :: rest, id => if k = id then some s else StandingsMap.get rest id

/-- An assignment through the pointer stored under `id`: the record under that
key is replaced by `f` of it, every other record is left alone. -/
def StandingsMap.modify (standings : StandingsMap) (id : Int) (f : Standing → Standing) :
    StandingsMap :=
  standings.map (fun e => (e.1, if e.1 = id then f e.2 else e.2))

/-- The map write `standings[id] = &st`: the key is overwritten when present and
added otherwise. -/
def StandingsMap.insert : StandingsMap → Int → Standing → StandingsMap
  | [], id, st => [(id, st)]
  | (k, s) :: rest, id, st =>
    if k = id then (k, st) :: rest else (k, s) :: StandingsMap.insert rest id st

/-- The values of Go's `int` on the 64-bit platforms the server is built for. -/
def IsInt64 (x : Int) : Prop :=
  -9223372036854775808 ≤ x ∧ x ≤ 9223372036854775807

/-- The value that Go's `int` arithmetic stores for the exact result `x`: the
integer congruent to `x` modulo `2 ^ 64` in the range of `int`. -/
def wrapInt64 (x : Int) : Int :=
  (x + 9223372036854775808) % 18446744073709551616 - 9223372036854775808

/-- The assignments of `updateStandings`, in source order, once both pointers
are known to be non-nil.  When the home and the away key coincide both names
denote the same record, which the keyed `modify` reproduces.  The goal counts of
a match are arbitrary values of `int`, so the sums and the difference of goals
wrap around as Go computes them.  The counters `Played`, `Won`, `Drawn` and
`Lost` move by one per call and `Points` is at most three times a counter plus a
counter: they are kept exact. -/
def applyMatch (standings : StandingsMap) (m : Match) : StandingsMap :=
  let home := m.Home.ID
  let away := m.Away.ID
  let s := standings.modify home (fun x => { x with Played := x.Played + 1 })
  let s := s.modify away (fun x => { x with Played := x.Played + 1 })
  let s := s.modify home (fun x => { x with GoalsFor := wrapInt64 (x.GoalsFor + m.HomeGoals) })
  let s := s.modify home (fun x => { x with GoalsAgainst := wrapInt64 (x.GoalsAgainst + m.AwayGoals) })
  let s := s.modify away (fun x => { x with GoalsFor := wrapInt64 (x.GoalsFor + m.AwayGoals) })
  let s := s.modify away (fun x => { x with GoalsAgainst := wrapInt64 (x.GoalsAgainst + m.HomeGoals) })
  let s :=
    if m.HomeGoals > m.AwayGoals then
      (s.modify home (fun x => { x with Won := x.Won + 1 })).modify away
        (fun x => { x with Lost := x.Lost + 1 })
    else if m.HomeGoals < m.AwayGoals then
      (s.modify home (fun x => { x with Lost := x.Lost + 1 })).modify away
        (fun x => { x with Won := x.Won + 1 })
    else
      (s.modify home (fun x => { x with Drawn := x.Drawn + 1 })).modify away
        (fun x => { x with Drawn := x.Drawn + 1 })
  let s := s.modify home (fun x => { x with GoalDiff := wrapInt64 (x.GoalsFor - x.GoalsAgainst) })
  let s := s.modify away (fun x => { x with GoalDiff := wrapInt64 (x.GoalsFor - x.GoalsAgainst) })
  let s := s.modify home (fun x => { x with Points := x.Won * 3 + x.Drawn })
  s.modify away (fun x => { x with Points := x.Won * 3 + x.Drawn })

/-- The function `updateStandings`: `homeStanding := standings[match.Home.ID]`,
`awayStanding := standings[match.Away.ID]`, then the assignments of
`applyMatch`.  A missing key yields a nil pointer and the assignments through
it panic. -/
def updateStandings (standings : StandingsMap) (m : Match) : Option StandingsMap :=
  match standings.get m.Home.ID, standings.get m.Away.ID with
  | some _, some _ => some (applyMatch standings m)
  | _, _ => none

/-- The assignments of `reverseStandings`, in source order, with the same
wrap-around of the goal counters as in `applyMatch`. -/
def unapplyMatch (standings : StandingsMap) (m : Match) : StandingsMap :=
  let home := m.Home.ID
  let away := m.Away.ID
  let s := standings.modify home (fun x => { x with Played := x.Played - 1 })
  let s := s.modify away (fun x => { x with Played := x.Played - 1 })
  let s := s.modify home (fun x => { x with GoalsFor := wrapInt64 (x.GoalsFor - m.HomeGoals) })
  let s := s.modify home (fun x => { x with GoalsAgainst := wrapInt64 (x.GoalsAgainst - m.AwayGoals) })
  let s := s.modify away (fun x => { x with GoalsFor := wrapInt64 (x.GoalsFor - m.AwayGoals) })
  let s := s.modify away (fun x => { x with GoalsAgainst := wrapInt64 (x.GoalsAgainst - m.HomeGoals) })
  let s :=
    if m.HomeGoals > m.AwayGoals then
      (s.modify home (fun x => { x with Won := x.Won - 1 })).modify away
        (fun x => { x with Lost := x.Lost - 1 })
    else if m.HomeGoals < m.AwayGoals then
      (s.modify home (fun x => { x with Lost := x.Lost - 1 })).modify away
        (fun x => { x with Won := x.Won - 1 })
    else
      (s.modify home (fun x => { x with Drawn := x.Drawn - 1 })).modify away
        (fun x => { x with Drawn := x.Drawn - 1 })
  let s := s.modify home (fun x => { x with GoalDiff := wrapInt64 (x.GoalsFor - x.GoalsAgainst) })
  let s := s.modify away (fun x => { x with GoalDiff := wrapInt64 (x.GoalsFor - x.GoalsAgainst) })
  let s := s.modify home (fun x => { x with Points := x.Won * 3 + x.Drawn })
  s.modify away (fun x => { x with Points := x.Won * 3 + x.Drawn })

/-- The function `reverseStandings`: the same two map reads, then the
assignments of `unapplyMatch`. -/
def reverseStandings (standings : StandingsMap) (m : Match) : Option StandingsMap :=
  match standings.get m.Home.ID, standings.get m.Away.ID with
  | some _, some _ => some (unapplyMatch standings m)
  | _, _ => none

/-- The invariant the claim calls well-formed: the two derived fields agree with
the counters they are derived from, and the three goal counters hold values of
Go's `int`. -/
def Standing.WellFormed (s : Standing) : Prop :=
  (s.GoalDiff = s.GoalsFor - s.GoalsAgainst ∧ s.Points = 3 * s.Won + s.Drawn) ∧
    IsInt64 s.GoalsFor ∧ IsInt64 s.GoalsAgainst ∧ IsInt64 s.GoalDiff

/-- A standing with every counter zero, as `&models.Standing{Team: team}` builds it. -/
def newStanding (team : Team) : Standing :=
  { Team := team, Played := 0, Won := 0, Drawn := 0, Lost := 0, GoalsFor := 0,
    GoalsAgainst := 0, GoalDiff := 0, Points := 0 }

/-- A table for the four teams of `main.go` after one result, used in examples. -/
def demoTable : StandingsMap :=
  [(1, { newStanding ⟨1, "Manchester United", 5⟩ with
          Played := 1, Won := 1, GoalsFor := 2, GoalsAgainst := 1, GoalDiff := 1, Points := 3 }),
   (2, newStanding ⟨2, "Manchester City", 7⟩),
   (3, newStanding ⟨3, "Chelsea", 6⟩),
   (4, { newStanding ⟨4, "Liverpool", 8⟩ with
          Played := 1, Lost := 1, GoalsFor := 1, GoalsAgainst := 2, GoalDiff := -1 })]

/-- A played match between two teams of `demoTable`. -/
def demoMatch : Match :=
  { ID := 3, Home := ⟨1, "Manchester United", 5⟩, Away := ⟨3, "Chelsea", 6⟩,
    HomeGoals := 0, AwayGoals := 2, Played := true, Week := 2 }

/-! ## The simulator -/

/-- The record `SimulatorImpl`.  The field `matches` of the source is called
`fixtures` here, `matches` being a reserved word. -/
structure SimulatorImpl where
  teams : List Team
  fixtures : List (List Match)
  standings : StandingsMap
  currentWeek : Nat
deriving DecidableEq

/-- The loop of `NewSimulator`: `standings[team.ID] = &models.Standing{Team: team}`
for every team in order. -/
def initStandings : List Team → StandingsMap → StandingsMap
  | [], standings => standings
  | team :: rest, standings => initStandings rest (standings.insert team.ID (newStanding team))

/-- The function `NewSimulator`; it panics when `generateFixtures` does. -/
def NewSimulator (teams : List Team) : Option SimulatorImpl :=
  let standings := initStandings teams []
  match generateFixtures teams with
  | none => none
  | some fixtures =>
    some { teams := teams, standings := standings, fixtures := fixtures, currentWeek := 0 }

/-- The stream that stands for the random source: entry `n` is the value of
`int(base + noise + 1.5)` in the `n`-th call of `randomGoals` still to come. -/
abbrev Draws := Nat → Int

/-- The function `randomGoals`, given the value `draw` of `int(base + noise + 1.5)`:
the result is capped at five and not bounded from below. -/
def randomGoals (draw : Int) : Int :=
  if draw > 5 then 5 else draw

/-- The function `simulateMatch`: the home goals are drawn first, then the away
goals; the rest of the stream is returned with them. -/
def simulateMatch (draws : Draws) : Int × Int × Draws :=
  (randomGoals (draws 0), randomGoals (draws 1), fun n => draws (n + 2))

/-- The loop `for i := range weekMatches` of `SimulateWeek` over the matches
still to visit; `done` holds the matches already visited. -/
def simulateWeekLoop :
    List Match → List Match → StandingsMap → Bool → Draws →
      Option (List Match × StandingsMap × Bool × Draws)
  | [], done, standings, allPlayed, draws => some (done, standings, allPlayed, draws)
  | m :: rest, done, standings, allPlayed, draws =>
    if !m.Played then
      let (homeGoals, awayGoals, draws) := simulateMatch draws
      let m := { m with HomeGoals := homeGoals, AwayGoals := awayGoals, Played := true }
      match updateStandings standings m with
      | none => none
      | some standings => simulateWeekLoop rest (done ++ [m]) standings false draws
    else simulateWeekLoop rest (done ++ [m]) standings allPlayed draws

/-- The method `SimulateWeek`: the returned flag, the state afterwards and the
unused draws. -/
def SimulateWeek (s : SimulatorImpl) (draws : Draws) : Option (Bool × SimulatorImpl × Draws) :=
  if s.currentWeek ≥ s.fixtures.length then some (false, s, draws)
  else
    match s.fixtures[s.currentWeek]? with
    | none => none
    | some weekMatches =>
      match simulateWeekLoop weekMatches [] s.standings true draws with
      | none => none
      | some (weekMatches, standings, allPlayed, draws) =>
        some (!allPlayed,
          { s with fixtures := s.fixtures.set s.currentWeek weekMatches, standings := standings,
                   currentWeek := s.currentWeek + 1 },
          draws)

/-- How a run of the loop of `SimulateAll` ends. -/
inductive LoopResult where
  | returned (s : SimulatorImpl) (calls : Nat)
  | panicked
  | outOfFuel
deriving DecidableEq

/-- The loop `for s.SimulateWeek() {}` of `SimulateAll`, run for at most `fuel`
calls of `SimulateWeek`; `calls` counts the calls made so far. -/
def SimulateAllLoop : Nat → SimulatorImpl → Draws → Nat → LoopResult
  | 0, _, _, _ => LoopResult.outOfFuel
  | fuel + 1, s, draws, calls =>
    match SimulateWeek s draws with
    | none => LoopResult.panicked
    | some (true, s, draws) => SimulateAllLoop fuel s draws (calls + 1)
    | some (false, s, _) => LoopResult.returned s (calls + 1)

/-- The method `SimulateAll`.  The loop is given one call more than there are
weeks, which is always enough: every call that returns true advances the cursor. -/
def SimulateAll (s : SimulatorImpl) (draws : Draws) : LoopResult :=
  SimulateAllLoop (s.fixtures.length + 1) s draws 0

/-- The error value of `EditMatchResult`. -/
inductive EditError where
  | notFound (matchID : Int)
deriving DecidableEq

/-- The inner search loop of `EditMatchResult` over one week: the first match
with the given ID gets the new goals and `Played = true`; the result is the
week afterwards and the match as it was before. -/
def editWeek : List Match → Int → Int → Int → Option (List Match × Match)
  | [], _, _, _ => none
  | m :: rest, matchID, homeGoals, awayGoals =>
    if m.ID = matchID then
      some ({ m with HomeGoals := homeGoals, AwayGoals := awayGoals, Played := true } :: rest, m)
    else
      match editWeek rest matchID homeGoals awayGoals with
      | none => none
      | some (rest, old) => some (m :: rest, old)

/-- The outer search loop of `EditMatchResult` over the weeks. -/
def editWeeks : List (List Match) → Int → Int → Int → Option (List (List Match) × Match)
  | [], _, _, _ => none
  | week :: rest, matchID, homeGoals, awayGoals =>
    match editWeek week matchID homeGoals awayGoals with
    | some (week, old) => some (week :: rest, old)
    | none =>
      match editWeeks rest matchID homeGoals awayGoals with
      | none => none
      | some (rest, old) => some (week :: rest, old)

/-- The method `EditMatchResult`: the error value with the state afterwards.
The old contribution is reversed when `oldHomeGoals != 0 || oldAwayGoals != 0`. -/
def EditMatchResult (s : SimulatorImpl) (matchID homeGoals awayGoals : Int) :
    Option (Option EditError × SimulatorImpl) :=
  match editWeeks s.fixtures matchID homeGoals awayGoals with
  | none => some (some (EditError.notFound matchID), s)
  | some (fixtures, old) =>
    let reversed :=
      if old.HomeGoals ≠ 0 ∨ old.AwayGoals ≠ 0 then
        reverseStandings s.standings
          { ID := old.ID, Home := old.Home, Away := old.Away, HomeGoals := old.HomeGoals,
            AwayGoals := old.AwayGoals, Week := old.Week, Played := true }
      else some s.standings
    match reversed with
    | none => none
    | some standings =>
      match updateStandings standings
          { old with HomeGoals := homeGoals, AwayGoals := awayGoals, Played := true } with
      | none => none
      | some standings => some (none, { s with fixtures := fixtures, standings := standings })

/-- The assignments that set the eight counters of a standing to zero. -/
def clearStanding (st : Standing) : Standing :=
  { st with Played := 0, Won := 0, Drawn := 0, Lost := 0, GoalsFor := 0, GoalsAgainst := 0,
            GoalDiff := 0, Points := 0 }

/-- The loop `for _, standing := range s.standings` that zeroes every record. -/
def clearStandings (standings : StandingsMap) : StandingsMap :=
  standings.map (fun e => (e.1, clearStanding e.2))

/-- The inner loop of `RecalculateStandings` over one week. -/
def recalcWeek : List Match → StandingsMap → Option StandingsMap
  | [], standings => some standings
  | m :: rest, standings =>
    if m.Played then
      match updateStandings standings m with
      | none => none
      | some standings => recalcWeek rest standings
    else recalcWeek rest standings

/-- The outer loop of `RecalculateStandings` over the weeks. -/
def recalcWeeks : List (List Match) → StandingsMap → Option StandingsMap
  | [], standings => some standings
  | week :: rest, standings =>
    match recalcWeek week standings with
    | none => none
    | some standings => recalcWeeks rest standings

/-- The method `RecalculateStandings`. -/
def RecalculateStandings (s : SimulatorImpl) : Option SimulatorImpl :=
  match recalcWeeks s.fixtures (clearStandings s.standings) with
  | none => none
  | some standings => some { s with standings := standings }

/-- The assignments of `Reset` to one match. -/
def clearMatch (m : Match) : Match :=
  { m with HomeGoals := 0, AwayGoals := 0, Played := false }

/-- The method `Reset`. -/
def Reset (s : SimulatorImpl) : SimulatorImpl :=
  { s with fixtures := s.fixtures.map (fun week => week.map clearMatch),
           standings := clearStandings s.standings,
           currentWeek := 0 }

/-- The states that the methods of the simulator lead to from `s0`. -/
inductive Reachable (s0 : SimulatorImpl) : SimulatorImpl → Prop where
  | init : Reachable s0 s0
  | simulateWeek {s s' : SimulatorImpl} {draws draws' : Draws} {played : Bool} :
      Reachable s0 s → SimulateWeek s draws = some (played, s', draws') → Reachable s0 s'
  | simulateAll {s s' : SimulatorImpl} {draws : Draws} {calls : Nat} :
      Reachable s0 s → SimulateAll s draws = LoopResult.returned s' calls → Reachable s0 s'
  | editMatchResult {s s' : SimulatorImpl} {matchID homeGoals awayGoals : Int}
      {err : Option EditError} :
      Reachable s0 s → EditMatchResult s matchID homeGoals awayGoals = some (err, s') →
      Reachable s0 s'
  | recalculateStandings {s s' : SimulatorImpl} :
      Reachable s0 s → RecalculateStandings s = some s' → Reachable s0 s'
  | reset {s : SimulatorImpl} : Reachable s0 s → Reachable s0 (Reset s)

/-- The identifying fields of a match, which no method assigns to. -/
def Match.key (m : Match) : Int × Team × Team × Int := (m.ID, m.Home, m.Away, m.Week)

/-- The state that `NewSimulator` constructs for the four teams of `main.go`. -/
def demoStart : SimulatorImpl :=
  match NewSimulator demoTeams with
  | some s => s
  | none => { teams := [], fixtures := [], standings := [], currentWeek := 0 }

/-- The state `demoStart` after `EditMatchResult(1, 2, 1)`. -/
def demoEdited : SimulatorImpl :=
  match EditMatchResult demoStart 1 2 1 with
  | some (_, s) => s
  | none => demoStart

/-- The state `demoStart` after `EditMatchResult(1, 0, 0)`: match 1 is played and goalless. -/
def demoGoalless : SimulatorImpl :=
  match EditMatchResult demoStart 1 0 0 with
  | some (_, s) => s
  | none => demoStart

/-- The state `demoGoalless` after `EditMatchResult(1, 1, 0)`. -/
def demoReedited : SimulatorImpl :=
  match EditMatchResult demoGoalless 1 1 0 with
  | some (_, s) => s
  | none => demoGoalless

/-- The state `demoStart` after both matches of the first week were entered by hand. -/
def demoWeekOneEntered : SimulatorImpl :=
  match EditMatchResult demoStart 1 1 0 with
  | some (_, s) =>
    match EditMatchResult s 2 1 0 with
    | some (_, s) => s
    | none => s
  | none => demoStart

/-- The number of calls of `SimulateWeek` a finished run of `SimulateAll` made. -/
def LoopResult.calls : LoopResult → Option Nat
  | LoopResult.returned _ calls => some calls
  | _ => none

/-- The state a finished run of `SimulateAll` leaves. -/
def LoopResult.state : LoopResult → Option SimulatorImpl
  | LoopResult.returned s _ => some s
  | _ => none

/-- Every team of every scheduled match has a record in the table. -/
def TeamsPresent (s : SimulatorImpl) : Prop :=
  ∀ week ∈ s.fixtures, ∀ m ∈ week,
    (s.standings.get m.Home.ID).isSome = true ∧ (s.standings.get m.Away.ID).isSome = true

/-- The comparison that `GetStandings` hands to `sort.Slice`: points, then goal
difference, then goals scored, each descending. -/
def standingLess (a b : Standing) : Bool :=
  if a.Points ≠ b.Points then decide (a.Points > b.Points)
  else if a.GoalDiff ≠ b.GoalDiff then decide (a.GoalDiff > b.GoalDiff)
  else decide (a.GoalsFor > b.GoalsFor)

/-- The inner loop of the insertion sort that `sort.Slice` runs on slices of at
most twelve elements, `for j := i; j > a && less(data[j], data[j-1]); j--` with
a swap in the body: the new element moves left past every neighbour it is less
than.  The sorted prefix is held nearest element first. -/
def sinkLeft (less : Standing → Standing → Bool) (x : Standing) : List Standing → List Standing
  | [] => [x]
  | y :: ys => if less x y then y :: sinkLeft less x ys else x :: y :: ys

/-- The outer loop of that insertion sort; `sortedRev` is the sorted prefix,
nearest element first, and the second list holds the elements still to insert. -/
def insertionLoop (less : Standing → Standing → Bool) : List Standing → List Standing → List Standing
  | sortedRev, [] => sortedRev.reverse
  | sortedRev, x :: rest => insertionLoop less (sinkLeft less x sortedRev) rest

/-- The library call `sort.Slice(standings, less)`, modelled by the insertion
sort the library uses for short slices. -/
def sortSlice (less : Standing → Standing → Bool) (data : List Standing) : List Standing :=
  insertionLoop less [] data

/-- The method `GetStandings`: the records of the map, in the order the
iteration delivers them, sorted with `standingLess`. -/
def GetStandings (s : SimulatorImpl) : List Standing :=
  sortSlice standingLess (s.standings.map (fun e => e.2))

/-- The order the claim asks of two neighbours `a`, `b` of the returned list. -/
def RankedBefore (a b : Standing) : Prop :=
  a.Points > b.Points ∨ (a.Points = b.Points ∧ a.GoalDiff > b.GoalDiff) ∨
    (a.Points = b.Points ∧ a.GoalDiff = b.GoalDiff ∧ a.GoalsFor ≥ b.GoalsFor)

/-- Following the spec's words for `RecalculateAll`: `updateStandings` applied to
the given matches one after the other. -/
def replay : List Match → StandingsMap → Option StandingsMap
  | [], standings => some standings
  | m :: rest, standings =>
    match updateStandings standings m with
    | none => none
    | some standings => replay rest standings

/-- The matches of the schedule with `Played = true`, in schedule order. -/
def playedMatches (s : SimulatorImpl) : List Match :=
  s.fixtures.flatten.filter (fun m => m.Played)

/-- Team `k` is the home or the away side of the match. -/
def takesPart (k : Int) (m : Match) : Bool :=
  decide (m.Home.ID = k ∨ m.Away.ID = k)

/-- Team `k` scored more goals than its opponent in the match. -/
def wins (k : Int) (m : Match) : Bool :=
  decide ((m.Home.ID = k ∧ m.HomeGoals > m.AwayGoals) ∨
    (m.Away.ID = k ∧ m.AwayGoals > m.HomeGoals))

/-- Team `k` took part in the match and both sides scored equally. -/
def drawsMatch (k : Int) (m : Match) : Bool :=
  decide ((m.Home.ID = k ∨ m.Away.ID = k) ∧ m.HomeGoals = m.AwayGoals)

/-- Team `k` scored fewer goals than its opponent in the match. -/
def loses (k : Int) (m : Match) : Bool :=
  decide ((m.Home.ID = k ∧ m.HomeGoals < m.AwayGoals) ∨
    (m.Away.ID = k ∧ m.AwayGoals < m.HomeGoals))

/-- The goals team `k` scored in the match, zero when it took no part. -/
def scored (k : Int) (m : Match) : Int :=
  if m.Home.ID = k then m.HomeGoals else if m.Away.ID = k then m.AwayGoals else 0

/-- The goals team `k` conceded in the match, zero when it took no part. -/
def conceded (k : Int) (m : Match) : Int :=
  if m.Home.ID = k then m.AwayGoals else if m.Away.ID = k then m.HomeGoals else 0

/-- The record `x` is the record of team `k` over exactly the matches `ms`: the
counters count the matches, the goal counters are the sums of the goals as Go's
`int` stores them. -/
def Tally (ms : List Match) (k : Int) (team : Team) (x : Standing) : Prop :=
  x.Team = team ∧
  x.Played = (ms.countP (takesPart k) : Nat) ∧
  x.Won = (ms.countP (wins k) : Nat) ∧
  x.Drawn = (ms.countP (drawsMatch k) : Nat) ∧
  x.Lost = (ms.countP (loses k) : Nat) ∧
  x.GoalsFor = wrapInt64 (ms.map (scored k)).sum ∧
  x.GoalsAgainst = wrapInt64 (ms.map (conceded k)).sum ∧
  x.GoalDiff = wrapInt64 (x.GoalsFor - x.GoalsAgainst) ∧
  x.Points = 3 * x.Won + x.Drawn

/-! ## Floating point

A finite `float64` is the rational number it denotes.  Every operation of the
code on such numbers is the exact operation followed by `toFloat64`, the
rounding of IEEE 754 binary64 (nearest value, ties to the even significand,
subnormal numbers included).  Overflow to an infinity is not modelled: it
needs a magnitude of `2 ^ 1024`, and the numbers formed here from values of
`int` stay below `2 ^ 64`. -/

/-- The power `2 ^ e` for an integer exponent. -/
def pow2 (e : Int) : ℚ :=
  if 0 ≤ e then ((2 ^ e.toNat : Nat) : ℚ) else 1 / ((2 ^ (-e).toNat : Nat) : ℚ)

/-- The loop behind `bitLength`: one step per binary digit. -/
def bitLengthLoop : Nat → Nat → Nat
  | 0, _ => 0
  | fuel + 1, n => if n = 0 then 0 else bitLengthLoop fuel (n / 2) + 1

/-- The number of binary digits of `n`. -/
def bitLength (n : Nat) : Nat := bitLengthLoop n n

/-- The binary exponent of a rational `x ≠ 0`: the integer `e` with
`2 ^ e ≤ |x| < 2 ^ (e + 1)`.  The difference of the bit lengths of numerator and
denominator is `e` or `e + 1`. -/
def binaryExponent (x : ℚ) : Int :=
  let e0 : Int := (bitLength x.num.natAbs : Int) - (bitLength x.den : Int)
  if pow2 e0 ≤ |x| then e0 else e0 - 1

/-- Rounding to the nearest integer, a tie to the even neighbour. -/
def roundHalfEven (x : ℚ) : Int :=
  let f := ⌊x⌋
  if x - f < 1 / 2 then f
  else if x - f > 1 / 2 then f + 1
  else if f % 2 = 0 then f else f + 1

/-- The `float64` nearest to `x`: with 53 significant binary digits the spacing
of the values around `x` is `2 ^ (e - 52)`, where `e` is the binary exponent of
`x`, not below `-1022`; `x` is rounded to a multiple of that spacing. -/
def toFloat64 (x : ℚ) : ℚ :=
  if x = 0 then 0
  else
    let e := max (binaryExponent x) (-1022)
    let ulp := pow2 (e - 52)
    (roundHalfEven (x / ulp) : ℚ) * ulp

/-! ## Prediction

The points per game and their difference are `float64` values, computed as the
code computes them.  The raw scores and the normalisation of
`calculateChampionshipProbabilities` are computed in exact rationals. -/

/-- The points per game the projection reads off a record:
`float64(Points) / float64(Played)` when `Played > 0` and `0.0` otherwise. -/
def pointsPerGame (st : Standing) : ℚ :=
  if st.Played > 0 then toFloat64 (toFloat64 (st.Points : ℚ) / toFloat64 (st.Played : ℚ))
  else 0

/-- One iteration of the projection loop for an unplayed match, as written in
`PredictFinalStandings` and again in `calculateChampionshipProbabilities`.  Both
records are read before any is written; a missing key is a nil pointer and the
first read through it panics. -/
def projectMatch (predicted : StandingsMap) (m : Match) : Option StandingsMap :=
  let home := m.Home.ID
  let away := m.Away.ID
  match predicted.get home, predicted.get away with
  | some homeStanding, some awayStanding =>
    let formDifference := toFloat64 (pointsPerGame homeStanding - pointsPerGame awayStanding)
    let s :=
      if formDifference > 1 / 2 then
        ((predicted.modify home (fun x => { x with Won := x.Won + 1 })).modify home
          (fun x => { x with Points := x.Points + 3 })).modify away
          (fun x => { x with Lost := x.Lost + 1 })
      else if formDifference < -(1 / 2) then
        ((predicted.modify away (fun x => { x with Won := x.Won + 1 })).modify away
          (fun x => { x with Points := x.Points + 3 })).modify home
          (fun x => { x with Lost := x.Lost + 1 })
      else
        (((predicted.modify home (fun x => { x with Drawn := x.Drawn + 1 })).modify home
          (fun x => { x with Points := x.Points + 1 })).modify away
          (fun x => { x with Drawn := x.Drawn + 1 })).modify away
          (fun x => { x with Points := x.Points + 1 })
    let s := s.modify home (fun x => { x with Played := x.Played + 1 })
    some (s.modify away (fun x => { x with Played := x.Played + 1 }))
  | _, _ => none

/-- The projection loop over the given matches. -/
def projectMatches : List Match → StandingsMap → Option StandingsMap
  | [], predicted => some predicted
  | m :: rest, predicted =>
    if !m.Played then
      match projectMatch predicted m with
      | none => none
      | some predicted => projectMatches rest predicted
    else projectMatches rest predicted

/-- The method `PredictFinalStandings`: the projection loop run on a copy of the table. -/
def PredictFinalStandings (currentMatches : List Match) (standings : StandingsMap) :
    Option StandingsMap :=
  projectMatches currentMatches standings

/-- The loop that finds `maxPoints`, started from the value `maxPoints` holds so far. -/
def maxPointsLoop : StandingsMap → Int → Int
  | [], maxPoints => maxPoints
  | e :: rest, maxPoints =>
    if e.2.Points > maxPoints then maxPointsLoop rest e.2.Points else maxPointsLoop rest maxPoints

/-- The loop that finds `week`, the largest `Played` of the current table. -/
def weekLoop : StandingsMap → Int → Int
  | [], week => week
  | e :: rest, week =>
    if e.2.Played > week then weekLoop rest e.2.Played else weekLoop rest week

/-- The `switch` of `calculateChampionshipProbabilities`: the raw score of a team
that is `pointsDiff` points behind the leader. -/
def rawScore (week pointsDiff : Int) : ℚ :=
  if week ≥ 6 then
    if pointsDiff = 0 then 100 else 0
  else if week ≥ 5 then
    if pointsDiff = 0 then 50 else if pointsDiff ≤ 3 then 30 else 0
  else if week ≥ 4 then
    if pointsDiff = 0 then 50 else if pointsDiff ≤ 3 then 30
    else if pointsDiff ≤ 6 then 15 else 0
  else
    if pointsDiff = 0 then 50 else if pointsDiff ≤ 3 then 30
    else if pointsDiff ≤ 6 then 15 else if pointsDiff ≤ 9 then 4 else 1

/-- The library function `math.Round`: the nearest integer, halves away from zero. -/
def goRound (x : ℚ) : Int :=
  if 0 ≤ x then ⌊x + 1 / 2⌋ else -⌊-x + 1 / 2⌋

/-- The raw scores with the team names, in the order of the projected table. -/
def rawProbabilities (allMatches : List Match) (standings : StandingsMap) :
    Option (List (String × ℚ)) :=
  match projectMatches allMatches standings with
  | none => none
  | some predicted =>
    let maxPoints := maxPointsLoop predicted 0
    let week := weekLoop standings 0
    some (predicted.map (fun e => (e.2.Team.Name, rawScore week (maxPoints - e.2.Points))))

/-- What `SimulateWeek` does to one match of the current week: a played match
stays as it is, an unplayed match gets two goal counts of at most five and
`Played = true`. -/
def Simulated (m m' : Match) : Prop :=
  if m.Played = true then m' = m
  else ∃ homeGoals awayGoals : Int, homeGoals ≤ 5 ∧ awayGoals ≤ 5 ∧
    m' = { m with HomeGoals := homeGoals, AwayGoals := awayGoals, Played := true }

/-- The matches of the week afterwards that stand where an unplayed match stood before. -/
def newlyPlayed (week week' : List Match) : List Match :=
  ((week.zip week').filter (fun p => !p.1.Played)).map (fun p => p.2)

/-- The state `demoStart` after `SimulateAll` with every draw equal to one. -/
def demoFinished : SimulatorImpl :=
  match SimulateAll demoStart (fun _ => 1) with
  | LoopResult.returned s _ => s
  | _ => demoStart

/-- The match at loop index `i` of week index `w` of the whole schedule, both
legs together, for a list of `teams`. -/
def scheduleMatch (teams : List Team) (w i : Nat) : Match :=
  if w < teams.length - 1 then
    firstLegMatch teams w (1 + (w : Int) * ((teams.length / 2 : Nat) : Int)) i
  else
    secondLegMatch teams (w - (teams.length - 1))
      (1 + ((teams.length - 1 : Nat) : Int) * ((teams.length / 2 : Nat) : Int)
         + ((w - (teams.length - 1) : Nat) : Int) * ((teams.length / 2 : Nat) : Int)) i

/-- The three relations the data model asks of a standing, the goal difference
as Go's `int` stores it, and the three goal counters values of `int`. -/
def Standing.Consistent (x : Standing) : Prop :=
  x.Played = x.Won + x.Drawn + x.Lost ∧
    x.GoalDiff = wrapInt64 (x.GoalsFor - x.GoalsAgainst) ∧
    x.Points = 3 * x.Won + x.Drawn ∧
    IsInt64 x.GoalsFor ∧ IsInt64 x.GoalsAgainst ∧ IsInt64 x.GoalDiff

/-- Every record of the table satisfies the three relations. -/
def TableConsistent (T : StandingsMap) : Prop :=
  ∀ e ∈ T, e.2.Consistent

/-! ## The goal count as a function of strength and noise -/

/-- The integer part of a number: the fraction is discarded, so the value moves
toward zero. -/
def truncToInt (x : ℚ) : Int :=
  if 0 ≤ x then ⌊x⌋ else ⌈x⌉

/-- The conversion `int(x)` of a `float64`: the integer part when it is a value
of `int`.  For other values the result depends on the implementation; that is
the value `none`. -/
def floatToInt (x : ℚ) : Option Int :=
  if -9223372036854775808 ≤ truncToInt x ∧ truncToInt x ≤ 9223372036854775807 then
    some (truncToInt x)
  else none

/-- The sum `base + noise + 1.5` of `randomGoals`, where `base` is
`float64(strength) / 5` and `noise` is the `float64` value of
`rand.NormFloat64() * 0.5`; the conversion, the quotient and the two sums are
rounded one after the other. -/
def goalsSum (strength : Int) (noise : ℚ) : ℚ :=
  toFloat64 (toFloat64 (toFloat64 (toFloat64 (strength : ℚ) / 5) + noise) + 3 / 2)

/-- The function `randomGoals` with the noise as an input: `goals` is
`int(base + noise + 1.5)` and the result is capped at five. -/
def randomGoalsFrom (strength : Int) (noise : ℚ) : Option Int :=
  (floatToInt (goalsSum strength noise)).map randomGoals

/-- The goal count as the specification words it: the exact sum rounded to the
nearest integer, capped at five. -/
def roundedGoals (strength : Int) (noise : ℚ) : Int :=
  min 5 (goRound ((strength : ℚ) / 5 + noise + 3 / 2))

/-! ## The banding table of the specification -/

/-- The banding table as the specification prints it, for `d ≥ 0`: each column
is the band of point differences between the previous column and its own bound. -/
def bandingTable (w d : Int) : ℚ :=
  if w ≥ 6 then
    if d = 0 then 100 else 0
  else if w = 5 then
    if d = 0 then 50 else if 1 ≤ d ∧ d ≤ 3 then 30 else 0
  else if w = 4 then
    if d = 0 then 50 else if 1 ≤ d ∧ d ≤ 3 then 30 else if 4 ≤ d ∧ d ≤ 6 then 15 else 0
  else
    if d = 0 then 50 else if 1 ≤ d ∧ d ≤ 3 then 30 else if 4 ≤ d ∧ d ≤ 6 then 15
    else if 7 ≤ d ∧ d ≤ 9 then 4 else 1

/-! ## The projected result of a single match -/

/-- The three results the projection loop can record for a match. -/
inductive Verdict
  | homeWin
  | awayWin
  | draw
deriving DecidableEq

/-- The comparison of `formDifference` with `0.5` and `-0.5` in the projection loop. -/
def verdict (homeStanding awayStanding : Standing) : Verdict :=
  let formDifference := toFloat64 (pointsPerGame homeStanding - pointsPerGame awayStanding)
  if formDifference > 1 / 2 then Verdict.homeWin
  else if formDifference < -(1 / 2) then Verdict.awayWin
  else Verdict.draw

/-- The result that the records of a table yield for a match; `none` when one of
the two teams has no record, where the loop panics. -/
def verdictIn (T : StandingsMap) (m : Match) : Option Verdict :=
  match T.get m.Home.ID, T.get m.Away.ID with
  | some homeStanding, some awayStanding => some (verdict homeStanding awayStanding)
  | _, _ => none

/-- The writes of one iteration of the projection loop, given the result of the
comparison. -/
def recordVerdict (predicted : StandingsMap) (m : Match) (v : Verdict) : StandingsMap :=
  let home := m.Home.ID
  let away := m.Away.ID
  let s :=
    match v with
    | Verdict.homeWin =>
      ((predicted.modify home (fun x => { x with Won := x.Won + 1 })).modify home
        (fun x => { x with Points := x.Points + 3 })).modify away
        (fun x => { x with Lost := x.Lost + 1 })
    | Verdict.awayWin =>
      ((predicted.modify away (fun x => { x with Won := x.Won + 1 })).modify away
        (fun x => { x with Points := x.Points + 3 })).modify home
        (fun x => { x with Lost := x.Lost + 1 })
    | Verdict.draw =>
      (((predicted.modify home (fun x => { x with Drawn := x.Drawn + 1 })).modify home
        (fun x => { x with Points := x.Points + 1 })).modify away
        (fun x => { x with Drawn := x.Drawn + 1 })).modify away
        (fun x => { x with Points := x.Points + 1 })
  let s := s.modify home (fun x => { x with Played := x.Played + 1 })
  s.modify away (fun x => { x with Played := x.Played + 1 })

/-- The projection as the specification words it: the result of every unplayed
match is read off the records of the `input` table, and written to `predicted`. -/
def projectFromInput (input : StandingsMap) : List Match → StandingsMap → Option StandingsMap
  | [], predicted => some predicted
  | m :: rest, predicted =>
    if !m.Played then
      match verdictIn input m with
      | none => none
      | some v => projectFromInput input rest (recordVerdict predicted m v)
    else projectFromInput input rest predicted

/-- The state `demoStart` after `EditMatchResult(1, 1, 1)` and
`EditMatchResult(2, 1, 0)`: in week 1 teams 1 and 4 drew and team 2 beat team 3. -/
def demoDrawAndWin : SimulatorImpl :=
  match EditMatchResult demoStart 1 1 1 with
  | some (_, s) =>
    match EditMatchResult s 2 1 0 with
    | some (_, s) => s
    | none => s
  | none => demoStart

/-- Match 6 of the schedule of `demoStart`, unplayed: team 3 at home to team 4 in week 3. -/
def demoMatchSix : Match :=
  { ID := 6, Home := ⟨3, "Chelsea", 6⟩, Away := ⟨4, "Liverpool", 8⟩, HomeGoals := 0,
    AwayGoals := 0, Played := false, Week := 3 }

/-- The predicted table when the projection over `demoDrawAndWin` reaches match 6. -/
def demoPredictedAtSix : StandingsMap :=
  match PredictFinalStandings (demoDrawAndWin.fixtures.flatten.take 5)
      demoDrawAndWin.standings with
  | some T => T
  | none => []

/-- Match 1 of the schedule of `demoStart` as `demoEdited` holds it: played, 2-1. -/
def demoEditedOne : Match :=
  { ID := 1, Home := ⟨1, "Manchester United", 5⟩, Away := ⟨4, "Liverpool", 8⟩, HomeGoals := 2,
    AwayGoals := 1, Played := true, Week := 1 }

/-- Match 2 of the schedule of `demoStart`, unplayed: team 2 at home to team 3 in week 1. -/
def demoMatchTwo : Match :=
  { ID := 2, Home := ⟨2, "Manchester City", 7⟩, Away := ⟨3, "Chelsea", 6⟩, HomeGoals := 0,
    AwayGoals := 0, Played := false, Week := 1 }

/-- The state `demoStart` after `EditMatchResult(1, 9223372036854775807, -1)`:
the home side of match 1 is credited with the largest value of `int`. -/
def demoHugeScore : SimulatorImpl :=
  match EditMatchResult demoStart 1 9223372036854775807 (-1) with
  | some (_, s) => s
  | none => demoStart

/-- The state `demoStart` after `EditMatchResult(1, 9223372036854775807, 0)`. -/
def demoHugeHome : SimulatorImpl :=
  match EditMatchResult demoStart 1 9223372036854775807 0 with
  | some (_, s) => s
  | none => demoStart

/-- The state `demoHugeHome` after `EditMatchResult(3, 1, 0)`: team 1 is the home
side of match 1 and of match 3. -/
def demoHugeSum : SimulatorImpl :=
  match EditMatchResult demoHugeHome 3 1 0 with
  | some (_, s) => s
  | none => demoHugeHome

/-! ## Theorems -/

theorem lineup_length (teams : List Team) (w : Nat) : (lineup teams w).length = teams.length := by
  simp [lineup]

theorem lineup_getElem? (teams : List Team) (w p : Nat) (hp : p < teams.length) :
    (lineup teams w)[p]? = some (teams.getD (src (teams.length - 1) w p) default) := by
  simp [lineup, List.getElem?_map, List.getElem?_range hp]

theorem lineup_zero (teams : List Team) : lineup teams 0 = teams := by
  apply List.ext_getElem?
  intro n
  by_cases hn : n < teams.length
  · rw [lineup_getElem? teams 0 n hn]
    have : src (teams.length - 1) 0 n = n := by
      unfold src; split_ifs <;> omega
    rw [this, List.getD_eq_getElem?_getD, List.getElem?_eq_getElem hn]; rfl
  · have h1 : teams.length ≤ n := by omega
    rw [List.getElem?_eq_none h1, List.getElem?_eq_none (by rw [lineup_length]; exact h1)]

theorem rotate_getElem? (l : List Team) (N : Nat) (hl : l.length = N) (hN : 2 ≤ N) :
    ∃ r, rotate l N = some r ∧ r.length = N ∧
      ∀ n, r[n]? = if n = 0 then l[0]? else if n = 1 then l[N - 1]?
                   else if n < N then l[n - 1]? else none := by
  unfold rotate
  have h0 : 0 < l.length := by omega
  rw [List.getElem?_eq_getElem h0]
  simp only []
  rw [if_pos (by omega)]
  refine ⟨_, rfl, ?_, ?_⟩
  · simp; omega
  · intro n
    rcases n with _ | n
    · simp
    · rcases n with _ | n
      · have : (List.drop (N - 1) l).length = 1 := by simp; omega
        simp only [List.singleton_append, List.getElem?_cons_succ]
        rw [List.getElem?_append_left (by omega)]
        simp [List.getElem?_drop]
      · have : (List.drop (N - 1) l).length = 1 := by simp; omega
        simp only [List.singleton_append, List.getElem?_cons_succ]
        rw [List.getElem?_append_right (by omega)]
        simp only [this, List.getElem?_drop, List.getElem?_take]
        have e1 : 1 + (n + 1 - 1) = n + 1 := by omega
        have e2 : n + 1 + 1 - 1 = n + 1 := by omega
        have c1 : ¬ (n + 1 + 1 = 0) := by omega
        have c2 : ¬ (n + 1 + 1 = 1) := by omega
        rw [e1, e2, if_neg c1, if_neg c2]
        by_cases h : n + 1 + 1 < N
        · have h2 : n + 1 < N - 1 := by omega
          rw [if_pos h, if_pos h2]
        · have h2 : ¬ (n + 1 < N - 1) := by omega
          rw [if_neg h, if_neg h2]

theorem src_last (M w : Nat) (hM : 1 ≤ M) (hw : w < M) : src M w M = src M (w + 1) 1 := by
  unfold src; split_ifs <;> first | omega | contradiction

theorem src_shift (M w n : Nat) : src M w (n + 1) = src M (w + 1) (n + 2) := by
  unfold src; split_ifs <;> omega

theorem rotate_lineup (teams : List Team) (w : Nat) (hN : 2 ≤ teams.length)
    (hw : w < teams.length - 1) :
    rotate (lineup teams w) teams.length = some (lineup teams (w + 1)) := by
  obtain ⟨r, hr, hlen, hget⟩ := rotate_getElem? (lineup teams w) teams.length
    (lineup_length teams w) hN
  rw [hr]
  congr 1
  apply List.ext_getElem?
  intro n
  rw [hget n]
  by_cases hn : n < teams.length
  · rw [lineup_getElem? teams (w + 1) n hn]
    rcases n with _ | n
    · rw [if_pos rfl, lineup_getElem? teams w 0 (by omega)]; rfl
    · rcases n with _ | n
      · have c1 : ¬ (0 + 1 = 0) := by omega
        rw [if_neg c1, if_pos rfl, lineup_getElem? teams w (teams.length - 1) (by omega)]
        congr 2
        exact src_last _ _ (by omega) hw
      · have c1 : ¬ (n + 1 + 1 = 0) := by omega
        have c2 : ¬ (n + 1 + 1 = 1) := by omega
        rw [if_neg c1, if_neg c2, if_pos hn, lineup_getElem? teams w (n + 1 + 1 - 1) (by omega)]
        congr 2
        exact src_shift _ _ _
  · have c1 : ¬ (n = 0) := by omega
    have c2 : ¬ (n = 1) := by omega
    have h3 : (lineup teams (w + 1)).length ≤ n := by rw [lineup_length]; omega
    rw [List.getElem?_eq_none h3, if_neg c1, if_neg c2, if_neg hn]

theorem firstLegWeek_eq (teams : List Team) (w : Nat) (base : Int) :
    ∀ (n i : Nat) (acc : List Match), i + n ≤ teams.length / 2 →
      firstLegWeek (lineup teams w) teams.length w n i acc (base + i) =
        some (acc ++ (List.range' i n).map (firstLegMatch teams w base), base + i + n) := by
  intro n
  induction n with
  | zero => intro i acc _; simp [firstLegWeek]
  | succ n ih =>
    intro i acc h
    have h1 : i < teams.length := by omega
    have h2 : teams.length - 1 - i < teams.length := by omega
    rw [firstLegWeek, lineup_getElem? teams w i h1, lineup_getElem? teams w _ h2]
    simp only []
    have e : base + (i : Int) + 1 = base + ((i + 1 : Nat) : Int) := by push_cast; ring
    rw [e, ih (i + 1) _ (by omega)]
    simp only [List.range'_succ, List.map_cons, List.append_assoc, List.singleton_append,
      firstLegMatch]
    congr 2
    push_cast; ring

theorem secondLegWeek_eq (teams : List Team) (w : Nat) (base : Int) :
    ∀ (n i : Nat) (acc : List Match), i + n ≤ teams.length / 2 →
      secondLegWeek (lineup teams w) teams.length w n i acc (base + i) =
        some (acc ++ (List.range' i n).map (secondLegMatch teams w base), base + i + n) := by
  intro n
  induction n with
  | zero => intro i acc _; simp [secondLegWeek]
  | succ n ih =>
    intro i acc h
    have h1 : i < teams.length := by omega
    have h2 : teams.length - 1 - i < teams.length := by omega
    rw [secondLegWeek, lineup_getElem? teams w i h1, lineup_getElem? teams w _ h2]
    simp only []
    have e : base + (i : Int) + 1 = base + ((i + 1 : Nat) : Int) := by push_cast; ring
    rw [e, ih (i + 1) _ (by omega)]
    simp only [List.range'_succ, List.map_cons, List.append_assoc, List.singleton_append,
      secondLegMatch]
    congr 2
    push_cast; ring

theorem setWeek_middle (A C : List (List Match)) (x y : List Match) (B : List (List Match)) :
    setWeek (A ++ (x :: B) ++ C) A.length y = some ((A ++ [y]) ++ B ++ C) := by
  unfold setWeek
  rw [if_pos (by simp)]
  congr 1
  rw [List.append_assoc, List.set_append_right _ _ (le_refl _)]
  simp

theorem firstLeg_eq (teams : List Team) (hN : 2 ≤ teams.length) (b : Int) :
    ∀ (n w : Nat) (A B C : List (List Match)), w + n ≤ teams.length - 1 →
      A.length = w → B.length = n →
      firstLeg teams.length n w (lineup teams w) (A ++ B ++ C)
          (b + (w : Int) * ((teams.length / 2 : Nat) : Int)) =
        some (A ++ (List.range' w n).map (fun v =>
                (List.range (teams.length / 2)).map
                  (firstLegMatch teams v (b + (v : Int) * ((teams.length / 2 : Nat) : Int)))) ++ C,
              b + ((w + n : Nat) : Int) * ((teams.length / 2 : Nat) : Int)) := by
  intro n
  induction n with
  | zero =>
    intro w A B C _ _ hB
    have : B = [] := List.length_eq_zero.mp hB
    simp [firstLeg, this]
  | succ n ih =>
    intro w A B C h hA hB
    obtain ⟨x, B, rfl⟩ : ∃ x B', B = x :: B' := by
      cases B with
      | nil => simp at hB
      | cons x B' => exact ⟨x, B', rfl⟩
    have hw := firstLegWeek_eq teams w (b + (w : Int) * ((teams.length / 2 : Nat) : Int))
      (teams.length / 2) 0 [] (by omega)
    simp only [Nat.cast_zero, add_zero, List.nil_append] at hw
    rw [firstLeg, hw]
    simp only []
    rw [← hA, setWeek_middle]
    simp only []
    rw [hA, rotate_lineup teams w hN (by omega)]
    simp only []
    have e : b + (w : Int) * ((teams.length / 2 : Nat) : Int) + ((teams.length / 2 : Nat) : Int)
        = b + ((w + 1 : Nat) : Int) * ((teams.length / 2 : Nat) : Int) := by push_cast; ring
    rw [e, ih (w + 1) (A ++ [_]) B C (by omega) (by simp [hA]) (by simpa using hB)]
    simp only [List.range'_succ, List.map_cons, List.append_assoc, List.singleton_append,
      List.range_eq_range']
    congr 2
    push_cast; ring

theorem secondLeg_eq (teams : List Team) (hN : 2 ≤ teams.length) (b : Int) :
    ∀ (n w : Nat) (A B C : List (List Match)), w + n ≤ teams.length - 1 →
      A.length = w + teams.length - 1 → B.length = n →
      secondLeg teams.length n w (lineup teams w) (A ++ B ++ C)
          (b + (w : Int) * ((teams.length / 2 : Nat) : Int)) =
        some (A ++ (List.range' w n).map (fun v =>
                (List.range (teams.length / 2)).map
                  (secondLegMatch teams v (b + (v : Int) * ((teams.length / 2 : Nat) : Int)))) ++ C,
              b + ((w + n : Nat) : Int) * ((teams.length / 2 : Nat) : Int)) := by
  intro n
  induction n with
  | zero =>
    intro w A B C _ _ hB
    have : B = [] := List.length_eq_zero.mp hB
    simp [secondLeg, this]
  | succ n ih =>
    intro w A B C h hA hB
    obtain ⟨x, B, rfl⟩ : ∃ x B', B = x :: B' := by
      cases B with
      | nil => simp at hB
      | cons x B' => exact ⟨x, B', rfl⟩
    have hw := secondLegWeek_eq teams w (b + (w : Int) * ((teams.length / 2 : Nat) : Int))
      (teams.length / 2) 0 [] (by omega)
    simp only [Nat.cast_zero, add_zero, List.nil_append] at hw
    rw [secondLeg, hw]
    simp only []
    rw [← hA, setWeek_middle]
    simp only []
    rw [rotate_lineup teams w hN (by omega)]
    simp only []
    have e : b + (w : Int) * ((teams.length / 2 : Nat) : Int) + ((teams.length / 2 : Nat) : Int)
        = b + ((w + 1 : Nat) : Int) * ((teams.length / 2 : Nat) : Int) := by push_cast; ring
    rw [e, ih (w + 1) (A ++ [_]) B C (by omega) (by simp [hA]; omega) (by simpa using hB)]
    simp only [List.range'_succ, List.map_cons, List.append_assoc, List.singleton_append,
      List.range_eq_range']
    congr 2
    push_cast; ring

theorem generateFixtures_eq (teams : List Team) (hN : 2 ≤ teams.length) :
    generateFixtures teams = some (firstLegWeeks teams ++ secondLegWeeks teams) := by
  unfold generateFixtures
  simp only []
  rw [if_neg (by omega)]
  have h1 := firstLeg_eq teams hN 1 (teams.length - 1) 0 []
    (List.replicate (teams.length - 1) []) (List.replicate (teams.length - 1) [])
    (by omega) rfl (by simp)
  have hrep : List.replicate ((teams.length - 1) * 2) ([] : List Match) =
      [] ++ List.replicate (teams.length - 1) [] ++ List.replicate (teams.length - 1) [] := by
    rw [List.nil_append, List.append_replicate_replicate]; congr 1; omega
  rw [lineup_zero] at h1
  simp only [Nat.cast_zero, zero_mul, add_zero, List.nil_append, zero_add] at h1
  simp only [List.nil_append] at hrep
  rw [hrep, h1]
  simp only []
  have h2 := secondLeg_eq teams hN
    (1 + ((teams.length - 1 : Nat) : Int) * ((teams.length / 2 : Nat) : Int))
    (teams.length - 1) 0 (firstLegWeeks teams)
    (List.replicate (teams.length - 1) []) [] (by omega)
    (by simp [firstLegWeeks]) (by simp)
  rw [lineup_zero] at h2
  simp only [Nat.cast_zero, zero_mul, add_zero, List.append_nil, zero_add] at h2
  simp only [firstLegWeeks, secondLegWeeks, List.range_eq_range'] at h2 ⊢
  rw [h2]

theorem src_eq_iff (M w p a : Nat) (hw : w < M) (hp : p ≤ M) (ha : a ≤ M) :
    src M w p = a ↔ p = pos M w a := by
  unfold src pos; split_ifs <;> omega

theorem src_le (M w p : Nat) (hw : w < M) (hp : p ≤ M) : src M w p ≤ M := by
  unfold src; split_ifs <;> omega

theorem pos_le (M w a : Nat) (hw : w < M) (ha : a ≤ M) : pos M w a ≤ M := by
  unfold pos; split_ifs <;> omega

theorem countP_range_unique (k : Nat) (P : Nat → Bool) (i0 : Nat) (h0 : i0 < k)
    (h : ∀ i, i < k → (P i = true ↔ i = i0)) : (List.range k).countP P = 1 := by
  have h1 : (List.range k).countP P = (List.range k).countP (fun x => x == i0) := by
    apply List.countP_congr
    intro x hx
    rw [h x (List.mem_range.mp hx)]
    simp
  rw [h1, ← List.count_eq_countP]
  exact List.count_eq_one_of_mem (List.nodup_range k) (List.mem_range.mpr h0)

theorem getD_eq_iff (teams : List Team) (hnd : teams.Nodup) (x a : Nat)
    (hx : x < teams.length) (ha : a < teams.length) :
    teams.getD x default = teams.getD a default ↔ x = a := by
  rw [List.getD_eq_getElem teams default hx, List.getD_eq_getElem teams default ha]
  exact hnd.getElem_inj_iff

/-- In a week whose lineup is rotated `v` times, exactly one loop index pairs
the team at original position `a`. -/
theorem week_slot_unique (teams : List Team) (hnd : teams.Nodup)
    (heven : teams.length % 2 = 0) (hN : 2 ≤ teams.length) (v a : Nat)
    (hv : v < teams.length - 1) (ha : a < teams.length) :
    (List.range (teams.length / 2)).countP (fun i =>
        decide (teams.getD (src (teams.length - 1) v i) default = teams.getD a default ∨
          teams.getD (src (teams.length - 1) v (teams.length - 1 - i)) default
            = teams.getD a default)) = 1 := by
  have hp := pos_le (teams.length - 1) v a hv (by omega)
  apply countP_range_unique _ _
    (if pos (teams.length - 1) v a < teams.length / 2 then pos (teams.length - 1) v a
     else teams.length - 1 - pos (teams.length - 1) v a)
  · split_ifs <;> omega
  · intro i hi
    have s1 := src_le (teams.length - 1) v i hv (by omega)
    have s2 := src_le (teams.length - 1) v (teams.length - 1 - i) hv (by omega)
    rw [decide_eq_true_iff, getD_eq_iff teams hnd _ _ (by omega) ha,
      getD_eq_iff teams hnd _ _ (by omega) ha,
      src_eq_iff _ _ _ _ hv (by omega) (by omega), src_eq_iff _ _ _ _ hv (by omega) (by omega)]
    split_ifs <;> omega

theorem firstWeek_count (teams : List Team) (hnd : teams.Nodup)
    (heven : teams.length % 2 = 0) (hN : 2 ≤ teams.length) (v : Nat) (base : Int)
    (hv : v < teams.length - 1) (t : Team) (ht : t ∈ teams) :
    ((List.range (teams.length / 2)).map (firstLegMatch teams v base)).countP
      (fun m => decide (m.Home = t ∨ m.Away = t)) = 1 := by
  obtain ⟨a, ha, rfl⟩ := List.mem_iff_getElem.mp ht
  rw [List.countP_map, ← List.getD_eq_getElem teams default ha]
  exact week_slot_unique teams hnd heven hN v a hv ha

theorem secondWeek_count (teams : List Team) (hnd : teams.Nodup)
    (heven : teams.length % 2 = 0) (hN : 2 ≤ teams.length) (v : Nat) (base : Int)
    (hv : v < teams.length - 1) (t : Team) (ht : t ∈ teams) :
    ((List.range (teams.length / 2)).map (secondLegMatch teams v base)).countP
      (fun m => decide (m.Home = t ∨ m.Away = t)) = 1 := by
  obtain ⟨a, ha, rfl⟩ := List.mem_iff_getElem.mp ht
  rw [List.countP_map, ← List.getD_eq_getElem teams default ha,
    ← week_slot_unique teams hnd heven hN v a hv ha]
  apply List.countP_congr
  intro i _
  simp only [Function.comp, secondLegMatch, decide_eq_true_iff]
  exact Or.comm

/-- C1: for an even number `N ≥ 2` of pairwise distinct teams `generateFixtures`
returns `2 (N - 1)` weeks, every week holds `N / 2` matches, and in every week
each team is the home or the away side of exactly one match. -/
theorem generateFixtures_shape (teams : List Team) (hnd : teams.Nodup)
    (heven : teams.length % 2 = 0) (hN : 2 ≤ teams.length) :
    ∃ fixtures, generateFixtures teams = some fixtures ∧
      fixtures.length = 2 * (teams.length - 1) ∧
      ∀ week ∈ fixtures, week.length = teams.length / 2 ∧
        ∀ t ∈ teams, week.countP (fun m => decide (m.Home = t ∨ m.Away = t)) = 1 := by
  refine ⟨_, generateFixtures_eq teams hN, ?_, ?_⟩
  · simp [firstLegWeeks, secondLegWeeks]; omega
  · intro week hweek
    rcases List.mem_append.mp hweek with h | h
    · obtain ⟨v, hv, rfl⟩ := List.mem_map.mp h
      refine ⟨by simp, fun t ht => ?_⟩
      exact firstWeek_count teams hnd heven hN v _ (List.mem_range.mp hv) t ht
    · obtain ⟨v, hv, rfl⟩ := List.mem_map.mp h
      refine ⟨by simp, fun t ht => ?_⟩
      exact secondWeek_count teams hnd heven hN v _ (List.mem_range.mp hv) t ht

theorem generateFixtures_shape_witness :
    ∃ fixtures, generateFixtures demoTeams = some fixtures ∧
      fixtures.length = 2 * (demoTeams.length - 1) ∧
      ∀ week ∈ fixtures, week.length = demoTeams.length / 2 ∧
        ∀ t ∈ demoTeams, week.countP (fun m => decide (m.Home = t ∨ m.Away = t)) = 1 :=
  generateFixtures_shape demoTeams (by decide) (by decide) (by decide)

theorem src_cases (M w p : Nat) (hw : w < M) :
    (p = 0 ∧ src M w p = 0) ∨ (0 < p ∧ p ≤ w ∧ src M w p + w = p + M) ∨
      (w < p ∧ src M w p + w = p) := by
  unfold src; split_ifs <;> omega

theorem src_pair_core (M k v v' i i' j j' : Nat) (hM : M + 1 = 2 * k) (hv : v < M)
    (hv' : v' < M) (hi : i < k) (hi' : i' < k) (hj : i + j = M) (hj' : i' + j' = M)
    (h1 : src M v i = src M v' i') (h2 : src M v j = src M v' j') :
    v = v' ∧ i = i' := by
  have a1 := src_cases M v i hv
  have a2 := src_cases M v' i' hv'
  have a3 := src_cases M v j hv
  have a4 := src_cases M v' j' hv'
  omega

theorem src_cross_core (M k v v' i i' j j' : Nat) (hM : M + 1 = 2 * k) (hv : v < M)
    (hv' : v' < M) (hi : i < k) (hi' : i' < k) (hj : i + j = M) (hj' : i' + j' = M)
    (h1 : src M v i = src M v' j') (h2 : src M v j = src M v' i') :
    False := by
  have a1 := src_cases M v i hv
  have a2 := src_cases M v' i' hv'
  have a3 := src_cases M v j hv
  have a4 := src_cases M v' j' hv'
  omega

/-- Two slots of a leg that pair the same teams in the same orientation are the same slot. -/
theorem src_pair_inj (k v v' i i' : Nat) (hv : v < 2 * k - 1) (hv' : v' < 2 * k - 1)
    (hi : i < k) (hi' : i' < k)
    (h1 : src (2 * k - 1) v i = src (2 * k - 1) v' i')
    (h2 : src (2 * k - 1) v (2 * k - 1 - i) = src (2 * k - 1) v' (2 * k - 1 - i')) :
    v = v' ∧ i = i' :=
  src_pair_core (2 * k - 1) k v v' i i' (2 * k - 1 - i) (2 * k - 1 - i') (by omega) hv hv'
    hi hi' (by omega) (by omega) h1 h2

/-- No two slots of a leg pair the same teams in opposite orientations. -/
theorem src_pair_cross (k v v' i i' : Nat) (hv : v < 2 * k - 1) (hv' : v' < 2 * k - 1)
    (hi : i < k) (hi' : i' < k)
    (h1 : src (2 * k - 1) v i = src (2 * k - 1) v' (2 * k - 1 - i'))
    (h2 : src (2 * k - 1) v (2 * k - 1 - i) = src (2 * k - 1) v' i') :
    False :=
  src_cross_core (2 * k - 1) k v v' i i' (2 * k - 1 - i) (2 * k - 1 - i') (by omega) hv hv'
    hi hi' (by omega) (by omega) h1 h2

theorem flatten_weeks_eq (M k : Nat) (f : Nat → Nat → Match) :
    ((List.range M).map (fun v => (List.range k).map (f v))).flatten =
      (List.product (List.range M) (List.range k)).map (fun x => f x.1 x.2) := by
  simp only [List.product, List.flatMap, List.map_flatten, List.map_map]
  congr 1
  apply List.map_congr_left
  intro v _
  simp [Function.comp, List.map_map]

theorem mem_slots (teams : List Team) (x : Nat × Nat) :
    x ∈ slots teams ↔ x.1 < teams.length - 1 ∧ x.2 < teams.length / 2 := by
  obtain ⟨v, i⟩ := x
  simp [slots, List.pair_mem_product]

theorem firstLeg_sides (teams : List Team) :
    (firstLegWeeks teams).flatten.map sides = (slots teams).map (slotSides teams) := by
  unfold firstLegWeeks slots
  rw [flatten_weeks_eq, List.map_map]
  rfl

theorem secondLeg_sides (teams : List Team) :
    (secondLegWeeks teams).flatten.map sides =
      (slots teams).map (fun x => Prod.swap (slotSides teams x)) := by
  unfold secondLegWeeks slots
  rw [flatten_weeks_eq, List.map_map]
  rfl

theorem slot_inj (teams : List Team) (hnd : teams.Nodup) (heven : teams.length % 2 = 0)
    (x y : Nat × Nat) (hx : x ∈ slots teams) (hy : y ∈ slots teams)
    (h : slotSides teams x = slotSides teams y) : x = y := by
  obtain ⟨v, i⟩ := x
  obtain ⟨v', i'⟩ := y
  rw [mem_slots] at hx hy
  simp only at hx hy
  obtain ⟨k, hk⟩ : ∃ k, teams.length = 2 * k := ⟨teams.length / 2, by omega⟩
  have hk2 : teams.length / 2 = k := by omega
  rw [hk2] at hx hy
  simp only [slotSides, Prod.mk.injEq] at h
  have b1 := src_le (teams.length - 1) v i hx.1 (by omega)
  have b2 := src_le (teams.length - 1) v (teams.length - 1 - i) hx.1 (by omega)
  have b3 := src_le (teams.length - 1) v' i' hy.1 (by omega)
  have b4 := src_le (teams.length - 1) v' (teams.length - 1 - i') hy.1 (by omega)
  rw [getD_eq_iff teams hnd _ _ (by omega) (by omega),
    getD_eq_iff teams hnd _ _ (by omega) (by omega)] at h
  rw [hk] at h hx hy
  obtain ⟨e1, e2⟩ := src_pair_inj k v v' i i' hx.1 hy.1 hx.2 hy.2 h.1 h.2
  rw [e1, e2]

theorem slot_cross (teams : List Team) (hnd : teams.Nodup) (heven : teams.length % 2 = 0)
    (x y : Nat × Nat) (hx : x ∈ slots teams) (hy : y ∈ slots teams)
    (h : slotSides teams x = Prod.swap (slotSides teams y)) : False := by
  obtain ⟨v, i⟩ := x
  obtain ⟨v', i'⟩ := y
  rw [mem_slots] at hx hy
  simp only at hx hy
  obtain ⟨k, hk⟩ : ∃ k, teams.length = 2 * k := ⟨teams.length / 2, by omega⟩
  have hk2 : teams.length / 2 = k := by omega
  rw [hk2] at hx hy
  simp only [slotSides, Prod.swap, Prod.mk.injEq] at h
  have b1 := src_le (teams.length - 1) v i hx.1 (by omega)
  have b2 := src_le (teams.length - 1) v (teams.length - 1 - i) hx.1 (by omega)
  have b3 := src_le (teams.length - 1) v' i' hy.1 (by omega)
  have b4 := src_le (teams.length - 1) v' (teams.length - 1 - i') hy.1 (by omega)
  rw [getD_eq_iff teams hnd _ _ (by omega) (by omega),
    getD_eq_iff teams hnd _ _ (by omega) (by omega)] at h
  rw [hk] at h hx hy
  exact src_pair_cross k v v' i i' hx.1 hy.1 hx.2 hy.2 h.1 h.2

theorem slots_nodup (teams : List Team) : (slots teams).Nodup :=
  List.Nodup.product (List.nodup_range _) (List.nodup_range _)

theorem schedule_sides_nodup (teams : List Team) (hnd : teams.Nodup)
    (heven : teams.length % 2 = 0) :
    ((firstLegWeeks teams ++ secondLegWeeks teams).flatten.map sides).Nodup := by
  rw [List.flatten_append, List.map_append, firstLeg_sides, secondLeg_sides, List.nodup_append]
  refine ⟨?_, ?_, ?_⟩
  · exact List.Nodup.map_on (fun x hx y hy h => slot_inj teams hnd heven x y hx hy h)
      (slots_nodup teams)
  · refine List.Nodup.map_on (fun x hx y hy h => ?_) (slots_nodup teams)
    exact slot_inj teams hnd heven x y hx hy (Prod.swap_injective h)
  · intro p hp1 hp2
    obtain ⟨x, hx, rfl⟩ := List.mem_map.mp hp1
    obtain ⟨y, hy, hxy⟩ := List.mem_map.mp hp2
    exact slot_cross teams hnd heven x y hx hy hxy.symm

theorem src_inj (M w p q : Nat) (hw : w < M) (hp : p ≤ M) (hq : q ≤ M)
    (h : src M w p = src M w q) : p = q := by
  unfold src at h; split_ifs at h <;> omega

theorem getD_mem (teams : List Team) (a : Nat) (ha : a < teams.length) :
    teams.getD a default ∈ teams := by
  rw [List.getD_eq_getElem teams default ha]
  exact List.getElem_mem ha

theorem slotSides_offDiag (teams : List Team) (hnd : teams.Nodup)
    (heven : teams.length % 2 = 0) (x : Nat × Nat) (hx : x ∈ slots teams) :
    (slotSides teams x).1 ∈ teams ∧ (slotSides teams x).2 ∈ teams ∧
      (slotSides teams x).1 ≠ (slotSides teams x).2 := by
  obtain ⟨v, i⟩ := x
  rw [mem_slots] at hx
  simp only at hx
  have b1 := src_le (teams.length - 1) v i hx.1 (by omega)
  have b2 := src_le (teams.length - 1) v (teams.length - 1 - i) hx.1 (by omega)
  simp only [slotSides]
  refine ⟨getD_mem teams _ (by omega), getD_mem teams _ (by omega), ?_⟩
  rw [Ne, getD_eq_iff teams hnd _ _ (by omega) (by omega)]
  intro h
  have := src_inj _ _ _ _ hx.1 (by omega) (by omega) h
  omega

theorem schedule_sides_length (teams : List Team) (heven : teams.length % 2 = 0)
    (hN : 2 ≤ teams.length) :
    ((firstLegWeeks teams ++ secondLegWeeks teams).flatten.map sides).length =
      teams.length * teams.length - teams.length := by
  rw [List.flatten_append, List.map_append, firstLeg_sides, secondLeg_sides]
  have hs : (slots teams).length = (teams.length - 1) * (teams.length / 2) := by
    unfold slots
    rw [← List.length_range (teams.length - 1), ← List.length_range (teams.length / 2)]
    simpa using List.length_product (List.range (teams.length - 1)) (List.range (teams.length / 2))
  simp only [List.length_append, List.length_map, hs]
  obtain ⟨j, hj⟩ : ∃ j, teams.length = 2 * j + 2 := ⟨teams.length / 2 - 1, by omega⟩
  have h2 : teams.length / 2 = j + 1 := by omega
  have h3 : teams.length - 1 = 2 * j + 1 := by omega
  rw [h2, h3, hj]
  have : (2 * j + 1) * (j + 1) + (2 * j + 1) * (j + 1) + (2 * j + 2)
      = (2 * j + 2) * (2 * j + 2) := by ring
  omega

theorem schedule_sides_mem (teams : List Team) (hnd : teams.Nodup)
    (heven : teams.length % 2 = 0) (hN : 2 ≤ teams.length) (A B : Team)
    (hA : A ∈ teams) (hB : B ∈ teams) (hAB : A ≠ B) :
    (A, B) ∈ (firstLegWeeks teams ++ secondLegWeeks teams).flatten.map sides := by
  have hsub : ((firstLegWeeks teams ++ secondLegWeeks teams).flatten.map sides).toFinset ⊆
      teams.toFinset.offDiag := by
    intro p hp
    rw [List.mem_toFinset, List.flatten_append, List.map_append, firstLeg_sides,
      secondLeg_sides, List.mem_append] at hp
    rw [Finset.mem_offDiag, List.mem_toFinset, List.mem_toFinset]
    rcases hp with hp | hp
    · obtain ⟨x, hx, rfl⟩ := List.mem_map.mp hp
      exact slotSides_offDiag teams hnd heven x hx
    · obtain ⟨x, hx, rfl⟩ := List.mem_map.mp hp
      obtain ⟨h1, h2, h3⟩ := slotSides_offDiag teams hnd heven x hx
      exact ⟨h2, h1, fun h => h3 h.symm⟩
  have hcard : teams.toFinset.offDiag.card ≤
      ((firstLegWeeks teams ++ secondLegWeeks teams).flatten.map sides).toFinset.card := by
    rw [List.toFinset_card_of_nodup (schedule_sides_nodup teams hnd heven),
      schedule_sides_length teams heven hN, Finset.offDiag_card,
      List.toFinset_card_of_nodup hnd]
  have heq := Finset.eq_of_subset_of_card_le hsub hcard
  have hmem : (A, B) ∈ teams.toFinset.offDiag := by
    rw [Finset.mem_offDiag, List.mem_toFinset, List.mem_toFinset]
    exact ⟨hA, hB, hAB⟩
  rw [← heq, List.mem_toFinset] at hmem
  exact hmem

/-- C2: for an even number `N ≥ 2` of pairwise distinct teams and every ordered
pair `(A, B)` of distinct teams, the schedule that `generateFixtures` returns
holds exactly one match with `Home = A` and `Away = B`. -/
theorem generateFixtures_each_pair_once (teams : List Team) (hnd : teams.Nodup)
    (heven : teams.length % 2 = 0) (hN : 2 ≤ teams.length) (A B : Team)
    (hA : A ∈ teams) (hB : B ∈ teams) (hAB : A ≠ B) :
    ∃ fixtures, generateFixtures teams = some fixtures ∧
      fixtures.flatten.countP (fun m => decide (m.Home = A ∧ m.Away = B)) = 1 := by
  refine ⟨_, generateFixtures_eq teams hN, ?_⟩
  have h1 := List.count_eq_one_of_mem (schedule_sides_nodup teams hnd heven)
    (schedule_sides_mem teams hnd heven hN A B hA hB hAB)
  unfold List.count at h1
  rw [List.countP_map] at h1
  rw [← h1]
  apply List.countP_congr
  intro m _
  show decide (m.Home = A ∧ m.Away = B) = true ↔ decide (sides m = (A, B)) = true
  simp only [decide_eq_true_iff, sides, Prod.mk.injEq]

theorem generateFixtures_each_pair_once_witness :
    ∃ fixtures, generateFixtures demoTeams = some fixtures ∧
      fixtures.flatten.countP (fun m => decide
        (m.Home = ⟨4, "Liverpool", 8⟩ ∧ m.Away = ⟨2, "Manchester City", 7⟩)) = 1 :=
  generateFixtures_each_pair_once demoTeams (by decide) (by decide) (by decide)
    ⟨4, "Liverpool", 8⟩ ⟨2, "Manchester City", 7⟩ (by decide) (by decide) (by decide)

theorem get_modify (standings : StandingsMap) (id : Int) (f : Standing → Standing) (k : Int) :
    (standings.modify id f).get k =
      if k = id then (standings.get k).map f else standings.get k := by
  induction standings with
  | nil => simp [StandingsMap.modify, StandingsMap.get]
  | cons e rest ih =>
    obtain ⟨k', s⟩ := e
    simp only [StandingsMap.modify, List.map_cons] at ih ⊢
    simp only [StandingsMap.get, ih]
    by_cases h1 : k' = k
    · subst h1
      by_cases h2 : k' = id
      · simp [h2]
      · simp [h2]
    · simp [h1]

theorem get_modify_isSome (standings : StandingsMap) (id : Int) (f : Standing → Standing)
    (k : Int) : ((standings.modify id f).get k).isSome = (standings.get k).isSome := by
  rw [get_modify]; split_ifs <;> simp

theorem get_applyMatch_isSome (standings : StandingsMap) (m : Match) (k : Int) :
    ((applyMatch standings m).get k).isSome = (standings.get k).isSome := by
  unfold applyMatch
  simp only []
  split_ifs <;> simp only [get_modify_isSome]

theorem get_unapplyMatch_isSome (standings : StandingsMap) (m : Match) (k : Int) :
    ((unapplyMatch standings m).get k).isSome = (standings.get k).isSome := by
  unfold unapplyMatch
  simp only []
  split_ifs <;> simp only [get_modify_isSome]

theorem updateStandings_eq_some (standings : StandingsMap) (m : Match)
    (hh : (standings.get m.Home.ID).isSome = true) (ha : (standings.get m.Away.ID).isSome = true) :
    updateStandings standings m = some (applyMatch standings m) := by
  unfold updateStandings
  obtain ⟨x, hx⟩ := Option.isSome_iff_exists.mp hh
  obtain ⟨y, hy⟩ := Option.isSome_iff_exists.mp ha
  rw [hx, hy]

theorem reverseStandings_eq_some (standings : StandingsMap) (m : Match)
    (hh : (standings.get m.Home.ID).isSome = true) (ha : (standings.get m.Away.ID).isSome = true) :
    reverseStandings standings m = some (unapplyMatch standings m) := by
  unfold reverseStandings
  obtain ⟨x, hx⟩ := Option.isSome_iff_exists.mp hh
  obtain ⟨y, hy⟩ := Option.isSome_iff_exists.mp ha
  rw [hx, hy]

theorem get_unapply_apply (standings : StandingsMap) (m : Match) (k : Int)
    (hwf : ∀ x, standings.get k = some x → (k = m.Home.ID ∨ k = m.Away.ID) → x.WellFormed) :
    (unapplyMatch (applyMatch standings m) m).get k = standings.get k := by
  cases hx : standings.get k with
  | none =>
    have h := get_unapplyMatch_isSome (applyMatch standings m) m k
    rw [get_applyMatch_isSome, hx] at h
    simpa using h
  | some x =>
    have hw := hwf x hx
    unfold Standing.WellFormed IsInt64 at hw
    unfold unapplyMatch applyMatch
    obtain ⟨t, p, w, d, l, gf, ga, gd, pts⟩ := x
    simp only at hw
    rcases lt_trichotomy m.HomeGoals m.AwayGoals with hlt | heq | hgt
    · have hn : ¬ (m.HomeGoals > m.AwayGoals) := by omega
      simp only [hn, hlt, if_true, if_false, get_modify, hx]
      by_cases h1 : k = m.Home.ID
      · by_cases h2 : k = m.Away.ID
        · simp only [eq_true h1, eq_true h2, if_true, Option.map_some', Option.some.injEq,
            Standing.mk.injEq, wrapInt64, true_and, true_or, forall_const] at hw ⊢
          omega
        · simp only [eq_true h1, eq_false h2, if_true, if_false, Option.map_some',
            Option.some.injEq, Standing.mk.injEq, wrapInt64, true_and, true_or, forall_const] at hw ⊢
          omega
      · by_cases h2 : k = m.Away.ID
        · simp only [eq_false h1, eq_true h2, if_true, if_false, Option.map_some',
            Option.some.injEq, Standing.mk.injEq, wrapInt64, true_and, or_true, forall_const] at hw ⊢
          omega
        · simp only [eq_false h1, eq_false h2, if_false]
    · have hn : ¬ (m.HomeGoals > m.AwayGoals) := by omega
      have hn2 : ¬ (m.HomeGoals < m.AwayGoals) := by omega
      simp only [hn, hn2, if_false, get_modify, hx]
      by_cases h1 : k = m.Home.ID
      · by_cases h2 : k = m.Away.ID
        · simp only [eq_true h1, eq_true h2, if_true, Option.map_some', Option.some.injEq,
            Standing.mk.injEq, wrapInt64, true_and, true_or, forall_const] at hw ⊢
          omega
        · simp only [eq_true h1, eq_false h2, if_true, if_false, Option.map_some',
            Option.some.injEq, Standing.mk.injEq, wrapInt64, true_and, true_or, forall_const] at hw ⊢
          omega
      · by_cases h2 : k = m.Away.ID
        · simp only [eq_false h1, eq_true h2, if_true, if_false, Option.map_some',
            Option.some.injEq, Standing.mk.injEq, wrapInt64, true_and, or_true, forall_const] at hw ⊢
          omega
        · simp only [eq_false h1, eq_false h2, if_false]
    · have hn2 : ¬ (m.HomeGoals < m.AwayGoals) := by omega
      simp only [hgt, hn2, if_true, if_false, get_modify, hx]
      by_cases h1 : k = m.Home.ID
      · by_cases h2 : k = m.Away.ID
        · simp only [eq_true h1, eq_true h2, if_true, Option.map_some', Option.some.injEq,
            Standing.mk.injEq, wrapInt64, true_and, true_or, forall_const] at hw ⊢
          omega
        · simp only [eq_true h1, eq_false h2, if_true, if_false, Option.map_some',
            Option.some.injEq, Standing.mk.injEq, wrapInt64, true_and, true_or, forall_const] at hw ⊢
          omega
      · by_cases h2 : k = m.Away.ID
        · simp only [eq_false h1, eq_true h2, if_true, if_false, Option.map_some',
            Option.some.injEq, Standing.mk.injEq, wrapInt64, true_and, or_true, forall_const] at hw ⊢
          omega
        · simp only [eq_false h1, eq_false h2, if_false]

/-- C3: when the table holds well-formed records for the home and the away team
of a match (their goal counters values of `int`), `updateStandings` followed by
`reverseStandings` of the same match succeeds and every key of the table, the
two teams and all others, reads the record it read before, equal in every
field; the sums of goals wrap around on the way and come back. -/
theorem reverse_update_roundtrip (standings : StandingsMap) (m : Match) (sh sa : Standing)
    (hh : standings.get m.Home.ID = some sh) (ha : standings.get m.Away.ID = some sa)
    (wh : sh.WellFormed) (wa : sa.WellFormed) :
    ∃ s1 s2, updateStandings standings m = some s1 ∧ reverseStandings s1 m = some s2 ∧
      ∀ k, s2.get k = standings.get k := by
  refine ⟨applyMatch standings m, unapplyMatch (applyMatch standings m) m, ?_, ?_, ?_⟩
  · exact updateStandings_eq_some standings m (by rw [hh]; rfl) (by rw [ha]; rfl)
  · apply reverseStandings_eq_some
    · rw [get_applyMatch_isSome, hh]; rfl
    · rw [get_applyMatch_isSome, ha]; rfl
  · intro k
    apply get_unapply_apply
    intro x hx hk
    rcases hk with hk | hk
    · rw [hk, hh] at hx
      exact (Option.some.inj hx) ▸ wh
    · rw [hk, ha] at hx
      exact (Option.some.inj hx) ▸ wa

theorem reverse_update_roundtrip_witness :
    ∃ s1 s2, updateStandings demoTable demoMatch = some s1 ∧
      reverseStandings s1 demoMatch = some s2 ∧ ∀ k, s2.get k = demoTable.get k :=
  reverse_update_roundtrip demoTable demoMatch
    { newStanding ⟨1, "Manchester United", 5⟩ with
        Played := 1, Won := 1, GoalsFor := 2, GoalsAgainst := 1, GoalDiff := 1, Points := 3 }
    (newStanding ⟨3, "Chelsea", 6⟩) (by decide) (by decide)
    (by unfold Standing.WellFormed IsInt64; decide)
    (by unfold Standing.WellFormed IsInt64; decide)

theorem clear_modify (T : StandingsMap) (k : Int) (f : Standing → Standing)
    (hf : ∀ x, clearStanding (f x) = clearStanding x) :
    clearStandings (T.modify k f) = clearStandings T := by
  unfold clearStandings StandingsMap.modify
  rw [List.map_map]
  apply List.map_congr_left
  intro e _
  simp only [Function.comp]
  split_ifs
  · rw [hf]
  · rfl

theorem clear_applyMatch (T : StandingsMap) (m : Match) :
    clearStandings (applyMatch T m) = clearStandings T := by
  unfold applyMatch
  simp only []
  split_ifs <;>
    ((repeat (rw [clear_modify]; swap; exact fun _ => rfl)); exact clear_modify _ _ _ (fun _ => rfl))

theorem clear_unapplyMatch (T : StandingsMap) (m : Match) :
    clearStandings (unapplyMatch T m) = clearStandings T := by
  unfold unapplyMatch
  simp only []
  split_ifs <;>
    ((repeat (rw [clear_modify]; swap; exact fun _ => rfl)); exact clear_modify _ _ _ (fun _ => rfl))

theorem clear_updateStandings (T T' : StandingsMap) (m : Match)
    (h : updateStandings T m = some T') : clearStandings T' = clearStandings T := by
  unfold updateStandings at h
  split at h
  · rw [← Option.some.inj h]; exact clear_applyMatch T m
  · exact absurd h (by simp)

theorem clear_reverseStandings (T T' : StandingsMap) (m : Match)
    (h : reverseStandings T m = some T') : clearStandings T' = clearStandings T := by
  unfold reverseStandings at h
  split at h
  · rw [← Option.some.inj h]; exact clear_unapplyMatch T m
  · exact absurd h (by simp)

theorem clear_clear (T : StandingsMap) : clearStandings (clearStandings T) = clearStandings T := by
  unfold clearStandings
  rw [List.map_map]
  rfl

theorem simulateWeekLoop_clear :
    ∀ (rest done : List Match) (T : StandingsMap) (allPlayed : Bool) (draws : Draws)
      (week : List Match) (T' : StandingsMap) (allPlayed' : Bool) (draws' : Draws),
      simulateWeekLoop rest done T allPlayed draws = some (week, T', allPlayed', draws') →
      week.map clearMatch = (done ++ rest).map clearMatch ∧
        clearStandings T' = clearStandings T := by
  intro rest
  induction rest with
  | nil =>
    intro done T allPlayed draws week T' allPlayed' draws' h
    simp only [simulateWeekLoop, Option.some.injEq, Prod.mk.injEq] at h
    obtain ⟨h1, h2, _, _⟩ := h
    subst h1; subst h2
    simp
  | cons m rest ih =>
    intro done T allPlayed draws week T' allPlayed' draws' h
    rw [simulateWeekLoop] at h
    split_ifs at h with hp
    · simp only [simulateMatch] at h
      split at h
      · exact absurd h (by simp)
      · rename_i T1 hT1
        obtain ⟨h1, h2⟩ := ih _ _ _ _ _ _ _ _ h
        refine ⟨?_, ?_⟩
        · rw [h1]; simp [clearMatch]
        · rw [h2]; exact clear_updateStandings _ _ _ hT1
    · obtain ⟨h1, h2⟩ := ih _ _ _ _ _ _ _ _ h
      exact ⟨by rw [h1]; simp, h2⟩

theorem map_set_of_eq {α β : Type} (f : α → β) (l : List α) (i : Nat) (x y : α)
    (hx : l[i]? = some x) (hxy : f y = f x) : (l.set i y).map f = l.map f := by
  apply List.ext_getElem?
  intro n
  rw [List.getElem?_map, List.getElem?_map, List.getElem?_set]
  split_ifs with h1 h2
  · subst h1; rw [hx]; simp [hxy]
  · subst h1
    have := List.getElem?_eq_none (Nat.le_of_not_lt h2)
    rw [this] at hx
    exact absurd hx (by simp)
  · rfl

theorem SimulateWeek_reset (s s' : SimulatorImpl) (draws draws' : Draws) (played : Bool)
    (h : SimulateWeek s draws = some (played, s', draws')) : Reset s' = Reset s := by
  unfold SimulateWeek at h
  split_ifs at h with hc
  · simp only [Option.some.injEq, Prod.mk.injEq] at h
    rw [← h.2.1]
  · split at h
    · exact absurd h (by simp)
    · rename_i week hweek
      split at h
      · exact absurd h (by simp)
      · rename_i week' T' allPlayed' d' hloop
        simp only [Option.some.injEq, Prod.mk.injEq] at h
        obtain ⟨h1, h2⟩ := simulateWeekLoop_clear _ _ _ _ _ _ _ _ _ hloop
        rw [← h.2.1]
        simp only [Reset, h2]
        congr 1
        exact map_set_of_eq _ _ _ _ _ hweek (by simpa using h1)

theorem SimulateAllLoop_reset :
    ∀ (fuel : Nat) (s s' : SimulatorImpl) (draws : Draws) (calls calls' : Nat),
      SimulateAllLoop fuel s draws calls = LoopResult.returned s' calls' →
      Reset s' = Reset s := by
  intro fuel
  induction fuel with
  | zero => intro s s' draws calls calls' h; simp [SimulateAllLoop] at h
  | succ fuel ih =>
    intro s s' draws calls calls' h
    rw [SimulateAllLoop] at h
    split at h
    · exact absurd h (by simp)
    · rename_i s1 d1 hw
      rw [ih _ _ _ _ _ h, SimulateWeek_reset _ _ _ _ _ hw]
    · rename_i s1 d1 hw
      simp only [LoopResult.returned.injEq] at h
      rw [← h.1, SimulateWeek_reset _ _ _ _ _ hw]

theorem editWeek_clear :
    ∀ (week week' : List Match) (matchID homeGoals awayGoals : Int) (old : Match),
      editWeek week matchID homeGoals awayGoals = some (week', old) →
      week'.map clearMatch = week.map clearMatch := by
  intro week
  induction week with
  | nil => intro week' matchID homeGoals awayGoals old h; simp [editWeek] at h
  | cons m rest ih =>
    intro week' matchID homeGoals awayGoals old h
    rw [editWeek] at h
    split_ifs at h with hid
    · simp only [Option.some.injEq, Prod.mk.injEq] at h
      rw [← h.1]; simp [clearMatch]
    · split at h
      · exact absurd h (by simp)
      · rename_i rest' old' hrest
        simp only [Option.some.injEq, Prod.mk.injEq] at h
        rw [← h.1, List.map_cons, List.map_cons, ih _ _ _ _ _ hrest]

theorem editWeeks_clear :
    ∀ (weeks weeks' : List (List Match)) (matchID homeGoals awayGoals : Int) (old : Match),
      editWeeks weeks matchID homeGoals awayGoals = some (weeks', old) →
      weeks'.map (fun week => week.map clearMatch) =
        weeks.map (fun week => week.map clearMatch) := by
  intro weeks
  induction weeks with
  | nil => intro weeks' matchID homeGoals awayGoals old h; simp [editWeeks] at h
  | cons week rest ih =>
    intro weeks' matchID homeGoals awayGoals old h
    rw [editWeeks] at h
    split at h
    · rename_i week' old' hweek
      simp only [Option.some.injEq, Prod.mk.injEq] at h
      rw [← h.1, List.map_cons, List.map_cons, editWeek_clear _ _ _ _ _ _ hweek]
    · split at h
      · exact absurd h (by simp)
      · rename_i rest' old' hrest
        simp only [Option.some.injEq, Prod.mk.injEq] at h
        rw [← h.1, List.map_cons, List.map_cons, ih _ _ _ _ _ hrest]

theorem EditMatchResult_reset (s s' : SimulatorImpl) (matchID homeGoals awayGoals : Int)
    (err : Option EditError)
    (h : EditMatchResult s matchID homeGoals awayGoals = some (err, s')) :
    Reset s' = Reset s := by
  unfold EditMatchResult at h
  split at h
  · simp only [Option.some.injEq, Prod.mk.injEq] at h
    rw [← h.2]
  · rename_i fixtures old hedit
    simp only at h
    split at h
    · exact absurd h (by simp)
    · rename_i T1 hT1
      split at h
      · exact absurd h (by simp)
      · rename_i T2 hT2
        simp only [Option.some.injEq, Prod.mk.injEq] at h
        rw [← h.2]
        have e1 : clearStandings T1 = clearStandings s.standings := by
          split_ifs at hT1
          · exact clear_reverseStandings _ _ _ hT1
          · rw [← Option.some.inj hT1]
        simp only [Reset, clear_updateStandings _ _ _ hT2, e1,
          editWeeks_clear _ _ _ _ _ _ hedit]

theorem recalcWeek_clear :
    ∀ (week : List Match) (T T' : StandingsMap), recalcWeek week T = some T' →
      clearStandings T' = clearStandings T := by
  intro week
  induction week with
  | nil => intro T T' h; simp only [recalcWeek, Option.some.injEq] at h; rw [h]
  | cons m rest ih =>
    intro T T' h
    rw [recalcWeek] at h
    split_ifs at h
    · split at h
      · exact absurd h (by simp)
      · rename_i T1 hT1
        rw [ih _ _ h, clear_updateStandings _ _ _ hT1]
    · exact ih _ _ h

theorem recalcWeeks_clear :
    ∀ (weeks : List (List Match)) (T T' : StandingsMap), recalcWeeks weeks T = some T' →
      clearStandings T' = clearStandings T := by
  intro weeks
  induction weeks with
  | nil => intro T T' h; simp only [recalcWeeks, Option.some.injEq] at h; rw [h]
  | cons week rest ih =>
    intro T T' h
    rw [recalcWeeks] at h
    split at h
    · exact absurd h (by simp)
    · rename_i T1 hT1
      rw [ih _ _ h, recalcWeek_clear _ _ _ hT1]

theorem RecalculateStandings_reset (s s' : SimulatorImpl)
    (h : RecalculateStandings s = some s') : Reset s' = Reset s := by
  unfold RecalculateStandings at h
  split at h
  · exact absurd h (by simp)
  · rename_i T hT
    rw [← Option.some.inj h]
    simp only [Reset, recalcWeeks_clear _ _ _ hT, clear_clear]

theorem clearMatch_clearMatch (m : Match) : clearMatch (clearMatch m) = clearMatch m := rfl

theorem Reset_reset (s : SimulatorImpl) : Reset (Reset s) = Reset s := by
  simp only [Reset, clear_clear, List.map_map]
  congr 1
  apply List.map_congr_left
  intro week _
  simp only [Function.comp, List.map_map]
  apply List.map_congr_left
  intro m _
  rfl

/-- Every method leaves the state that `Reset` leads to unchanged. -/
theorem Reachable_reset (s0 s : SimulatorImpl) (h : Reachable s0 s) : Reset s = Reset s0 := by
  induction h with
  | init => rfl
  | simulateWeek _ hstep ih => rw [SimulateWeek_reset _ _ _ _ _ hstep, ih]
  | simulateAll _ hstep ih => rw [SimulateAllLoop_reset _ _ _ _ _ _ hstep, ih]
  | editMatchResult _ hstep ih => rw [EditMatchResult_reset _ _ _ _ _ _ hstep, ih]
  | recalculateStandings _ hstep ih => rw [RecalculateStandings_reset _ _ hstep, ih]
  | reset _ ih => rw [Reset_reset, ih]

theorem insert_cleared (T : StandingsMap) (k : Int) (team : Team)
    (h : clearStandings T = T) :
    clearStandings (T.insert k (newStanding team)) = T.insert k (newStanding team) := by
  induction T with
  | nil => rfl
  | cons e rest ih =>
    obtain ⟨k', st⟩ := e
    simp only [clearStandings, List.map_cons, List.cons.injEq, Prod.mk.injEq, true_and] at h
    simp only [StandingsMap.insert]
    split_ifs
    · simp only [clearStandings, List.map_cons, List.cons.injEq, Prod.mk.injEq, true_and]
      exact ⟨rfl, h.2⟩
    · simp only [clearStandings, List.map_cons, List.cons.injEq, Prod.mk.injEq, true_and]
      exact ⟨h.1, ih h.2⟩

theorem initStandings_cleared :
    ∀ (teams : List Team) (T : StandingsMap), clearStandings T = T →
      clearStandings (initStandings teams T) = initStandings teams T := by
  intro teams
  induction teams with
  | nil => intro T h; exact h
  | cons team rest ih => intro T h; exact ih _ (insert_cleared T team.ID team h)

theorem generateFixtures_single (teams : List Team) (h : teams.length = 1) :
    generateFixtures teams = some [] := by
  unfold generateFixtures
  simp [h, firstLeg, secondLeg]

theorem generateFixtures_cleared (teams : List Team) (fixtures : List (List Match))
    (h : generateFixtures teams = some fixtures) :
    fixtures.map (fun week => week.map clearMatch) = fixtures := by
  by_cases h0 : teams.length = 0
  · simp [generateFixtures, h0] at h
  · by_cases h1 : teams.length = 1
    · rw [generateFixtures_single teams h1] at h
      rw [← Option.some.inj h]; rfl
    · rw [generateFixtures_eq teams (by omega)] at h
      rw [← Option.some.inj h]
      simp only [firstLegWeeks, secondLegWeeks, List.map_append, List.map_map]
      congr 1 <;>
      · apply List.map_congr_left
        intro v _
        simp only [Function.comp, List.map_map]
        apply List.map_congr_left
        intro i _
        rfl

theorem NewSimulator_reset (teams : List Team) (s0 : SimulatorImpl)
    (h : NewSimulator teams = some s0) : Reset s0 = s0 := by
  unfold NewSimulator at h
  simp only at h
  split at h
  · exact absurd h (by simp)
  · rename_i fixtures hfix
    rw [← Option.some.inj h]
    simp only [Reset, generateFixtures_cleared teams fixtures hfix,
      initStandings_cleared teams [] rfl]

/-- C10: in every state reachable from the state that `NewSimulator teams`
constructs, `Reset` leads back to exactly that state: every match is unplayed
with both goal counts zero and its ID, sides and week as before, every standing
has its eight counters zero and its team as before, and the cursor is zero. -/
theorem Reset_restores_initial (teams : List Team) (s0 s : SimulatorImpl)
    (h0 : NewSimulator teams = some s0) (hr : Reachable s0 s) :
    Reset s = s0 ∧ (Reset s).currentWeek = 0 ∧
      (∀ week ∈ (Reset s).fixtures, ∀ m ∈ week,
        m.Played = false ∧ m.HomeGoals = 0 ∧ m.AwayGoals = 0) ∧
      (Reset s).fixtures.map (fun week => week.map Match.key) =
        s.fixtures.map (fun week => week.map Match.key) ∧
      (∀ e ∈ (Reset s).standings,
        e.2.Played = 0 ∧ e.2.Won = 0 ∧ e.2.Drawn = 0 ∧ e.2.Lost = 0 ∧ e.2.GoalsFor = 0 ∧
          e.2.GoalsAgainst = 0 ∧ e.2.GoalDiff = 0 ∧ e.2.Points = 0) ∧
      (Reset s).standings.map (fun e => (e.1, e.2.Team)) =
        s.standings.map (fun e => (e.1, e.2.Team)) := by
  refine ⟨?_, rfl, ?_, ?_, ?_, ?_⟩
  · rw [Reachable_reset s0 s hr, NewSimulator_reset teams s0 h0]
  · intro week hweek m hm
    simp only [Reset, List.mem_map] at hweek
    obtain ⟨w, _, rfl⟩ := hweek
    obtain ⟨m', _, rfl⟩ := List.mem_map.mp hm
    exact ⟨rfl, rfl, rfl⟩
  · simp only [Reset, List.map_map]
    apply List.map_congr_left
    intro week _
    simp only [Function.comp, List.map_map]
    apply List.map_congr_left
    intro m _
    rfl
  · intro e he
    simp only [Reset, clearStandings, List.mem_map] at he
    obtain ⟨e', _, rfl⟩ := he
    exact ⟨rfl, rfl, rfl, rfl, rfl, rfl, rfl, rfl⟩
  · simp only [Reset, clearStandings, List.map_map]
    apply List.map_congr_left
    intro e _
    rfl

theorem Reset_restores_initial_witness :
    NewSimulator demoTeams = some demoStart ∧ Reset demoEdited = demoStart ∧
      demoEdited ≠ demoStart :=
  ⟨by decide,
   (Reset_restores_initial demoTeams demoStart demoEdited (by decide)
      (Reachable.editMatchResult Reachable.init
        (by decide : EditMatchResult demoStart 1 2 1 = some (none, demoEdited)))).1,
   by decide⟩

/-- C4, the code at the failing input: match 1 is given the result 0-0 and then
the result 1-0.  The second edit finds both old goal counts zero and reverses
nothing, so the home team stands at two games played, while
`RecalculateStandings` counts one. -/
theorem edit_goalless_match_counts_twice :
    NewSimulator demoTeams = some demoStart ∧
      EditMatchResult demoStart 1 0 0 = some (none, demoGoalless) ∧
      EditMatchResult demoGoalless 1 1 0 = some (none, demoReedited) ∧
      Reachable demoStart demoReedited ∧
      (demoReedited.standings.get 1).map (fun st => st.Played) = some 2 ∧
      ((RecalculateStandings demoReedited).bind (fun s => s.standings.get 1)).map
        (fun st => st.Played) = some 1 ∧
      (RecalculateStandings demoReedited).map (fun s => decide (s.standings = demoReedited.standings))
        = some false := by
  refine ⟨by decide, by decide, by decide, ?_, by decide, by decide, by decide⟩
  exact Reachable.editMatchResult
    (Reachable.editMatchResult Reachable.init
      (by decide : EditMatchResult demoStart 1 0 0 = some (none, demoGoalless)))
    (by decide : EditMatchResult demoGoalless 1 1 0 = some (none, demoReedited))

/-- C6, the code at the failing input: after both matches of week one were
entered with `EditMatchResult`, the first call of `SimulateWeek` inside
`SimulateAll` finds nothing to play, advances the cursor to 1 and returns
false, so `SimulateAll` returns after one call with the cursor at 1 of 6 weeks,
whatever the random draws. -/
theorem SimulateAll_stops_after_entered_week (draws : Draws) :
    Reachable demoStart demoWeekOneEntered ∧
      SimulateAll demoWeekOneEntered draws =
        LoopResult.returned { demoWeekOneEntered with currentWeek := 1 } 1 ∧
      demoWeekOneEntered.fixtures.length = 6 := by
  refine ⟨?_, ?_, by decide⟩
  · exact Reachable.editMatchResult
      (Reachable.editMatchResult Reachable.init
        (by decide : EditMatchResult demoStart 1 1 0 = some (none,
          match EditMatchResult demoStart 1 1 0 with
          | some (_, s) => s
          | none => demoStart)))
      (by decide : EditMatchResult (match EditMatchResult demoStart 1 1 0 with
          | some (_, s) => s
          | none => demoStart) 2 1 0 = some (none, demoWeekOneEntered))
  · rfl

/-- C7 as stated fails on the freshly built league of `main.go`: the cursor is 0,
there are 6 weeks, and `SimulateAll` returns after 7 calls of `SimulateWeek`,
six that play a week and a last one that reports that nothing is left. -/
theorem SimulateAll_calls_exceed_weeks :
    demoStart.currentWeek ≤ demoStart.fixtures.length ∧
      demoStart.fixtures.length = 6 ∧
      (SimulateAll demoStart (fun _ => 1)).calls = some 7 ∧
      ¬ ∃ s' n, SimulateAll demoStart (fun _ => 1) = LoopResult.returned s' n ∧
          n ≤ demoStart.fixtures.length := by
  have hc : (SimulateAll demoStart (fun _ => 1)).calls = some 7 := by decide
  refine ⟨by decide, by decide, hc, ?_⟩
  rintro ⟨s', n, h, hn⟩
  rw [h] at hc
  simp only [LoopResult.calls, Option.some.injEq] at hc
  subst hc
  revert hn
  decide

theorem simulateWeekLoop_some :
    ∀ (rest done : List Match) (T : StandingsMap) (allPlayed : Bool) (draws : Draws),
      (∀ m ∈ rest, (T.get m.Home.ID).isSome = true ∧ (T.get m.Away.ID).isSome = true) →
      ∃ r, simulateWeekLoop rest done T allPlayed draws = some r := by
  intro rest
  induction rest with
  | nil => intro done T allPlayed draws _; exact ⟨_, rfl⟩
  | cons m rest ih =>
    intro done T allPlayed draws h
    rw [simulateWeekLoop]
    have hm := h m (List.mem_cons_self _ _)
    split_ifs
    · simp only [simulateMatch]
      have hu := updateStandings_eq_some T
        { m with HomeGoals := randomGoals (draws 0), AwayGoals := randomGoals (draws 1),
                 Played := true } hm.1 hm.2
      rw [hu]
      simp only []
      apply ih
      intro m' hm'
      rw [get_applyMatch_isSome, get_applyMatch_isSome]
      exact h m' (List.mem_cons_of_mem _ hm')
    · exact ih _ _ _ _ (fun m' hm' => h m' (List.mem_cons_of_mem _ hm'))

theorem get_clearStandings (T : StandingsMap) (k : Int) :
    (clearStandings T).get k = (T.get k).map clearStanding := by
  induction T with
  | nil => rfl
  | cons e rest ih =>
    obtain ⟨k', st⟩ := e
    simp only [clearStandings, List.map_cons, StandingsMap.get] at ih ⊢
    split_ifs
    · rfl
    · exact ih

theorem TeamsPresent_of_reset (s s' : SimulatorImpl) (h : Reset s' = Reset s)
    (hp : TeamsPresent s) : TeamsPresent s' := by
  have hf : s'.fixtures.map (fun week => week.map clearMatch) =
      s.fixtures.map (fun week => week.map clearMatch) := by
    have := congrArg SimulatorImpl.fixtures h
    simpa [Reset] using this
  have hs : clearStandings s'.standings = clearStandings s.standings := by
    have := congrArg SimulatorImpl.standings h
    simpa [Reset] using this
  have hget : ∀ k, (s'.standings.get k).isSome = (s.standings.get k).isSome := by
    intro k
    have := congrArg (fun T => (StandingsMap.get T k).isSome) hs
    simpa [get_clearStandings] using this
  intro week' hweek' m' hm'
  have h1 : week'.map clearMatch ∈ s'.fixtures.map (fun week => week.map clearMatch) :=
    List.mem_map.mpr ⟨week', hweek', rfl⟩
  rw [hf] at h1
  obtain ⟨week, hweek, hwk⟩ := List.mem_map.mp h1
  have h2 : clearMatch m' ∈ week.map clearMatch := by
    rw [hwk]; exact List.mem_map.mpr ⟨m', hm', rfl⟩
  obtain ⟨m, hm, hmm⟩ := List.mem_map.mp h2
  have e1 : m'.Home = m.Home := (congrArg Match.Home hmm).symm
  have e2 : m'.Away = m.Away := (congrArg Match.Away hmm).symm
  rw [e1, e2, hget, hget]
  exact hp week hweek m hm

theorem SimulateWeek_some (s : SimulatorImpl) (draws : Draws) (hp : TeamsPresent s) :
    ∃ played s' draws', SimulateWeek s draws = some (played, s', draws') ∧
      s'.fixtures.length = s.fixtures.length ∧
      (played = true → s.currentWeek < s.fixtures.length) ∧
      (s.currentWeek < s.fixtures.length → s'.currentWeek = s.currentWeek + 1) ∧
      (¬ s.currentWeek < s.fixtures.length → s'.currentWeek = s.currentWeek) := by
  unfold SimulateWeek
  by_cases hc : s.currentWeek ≥ s.fixtures.length
  · rw [if_pos hc]
    exact ⟨false, s, draws, rfl, rfl, by simp, fun h => absurd h (by omega), fun _ => rfl⟩
  · rw [if_neg hc]
    have hlt : s.currentWeek < s.fixtures.length := by omega
    rw [List.getElem?_eq_getElem hlt]
    simp only []
    obtain ⟨r, hr⟩ := simulateWeekLoop_some (s.fixtures[s.currentWeek]) [] s.standings true draws
      (hp _ (List.getElem_mem hlt))
    obtain ⟨week, T, allPlayed, d⟩ := r
    rw [hr]
    exact ⟨!allPlayed, _, d, rfl, by simp, fun _ => hlt, fun _ => rfl,
      fun h => absurd hlt h⟩

theorem SimulateAllLoop_returns :
    ∀ (fuel : Nat) (s : SimulatorImpl) (draws : Draws) (calls : Nat), TeamsPresent s →
      s.fixtures.length - s.currentWeek + 1 ≤ fuel →
      ∃ s' n, SimulateAllLoop fuel s draws calls = LoopResult.returned s' (calls + n) ∧
        1 ≤ n ∧ n ≤ s.fixtures.length - s.currentWeek + 1 ∧
        ∀ fuel', s.fixtures.length - s.currentWeek + 1 ≤ fuel' →
          SimulateAllLoop fuel' s draws calls = LoopResult.returned s' (calls + n) := by
  intro fuel
  induction fuel with
  | zero => intro s draws calls _ h; omega
  | succ fuel ih =>
    intro s draws calls hp hfuel
    obtain ⟨played, s1, d1, hw, hlen, hplayed, hcur, hcur'⟩ := SimulateWeek_some s draws hp
    have hp1 : TeamsPresent s1 :=
      TeamsPresent_of_reset s s1 (SimulateWeek_reset _ _ _ _ _ hw) hp
    cases played with
    | false =>
      refine ⟨s1, 1, ?_, le_refl _, by omega, ?_⟩
      · rw [SimulateAllLoop, hw]
      · intro fuel' hfuel'
        obtain ⟨f, rfl⟩ : ∃ f, fuel' = f + 1 := ⟨fuel' - 1, by omega⟩
        rw [SimulateAllLoop, hw]
    | true =>
      have hlt := hplayed rfl
      have hc1 := hcur hlt
      obtain ⟨s', n, hrun, hn1, hn2, hany⟩ := ih s1 d1 (calls + 1) hp1 (by omega)
      refine ⟨s', n + 1, ?_, by omega, by omega, ?_⟩
      · rw [SimulateAllLoop, hw]
        simp only []
        rw [hrun]
        congr 1
        omega
      · intro fuel' hfuel'
        obtain ⟨f, rfl⟩ : ∃ f, fuel' = f + 1 := ⟨fuel' - 1, by omega⟩
        rw [SimulateAllLoop, hw]
        simp only []
        rw [hany f (by omega)]
        congr 1
        omega

/-- C7, amended: from every state whose table holds the teams of the schedule,
`SimulateAll` returns, after at least one and at most
`totalWeeks - cursor + 1` calls of `SimulateWeek`, hence at most
`totalWeeks + 1`; every larger supply of fuel gives the same result. -/
theorem SimulateAll_terminates (s : SimulatorImpl) (draws : Draws) (hp : TeamsPresent s) :
    ∃ s' n, SimulateAll s draws = LoopResult.returned s' n ∧
      1 ≤ n ∧ n ≤ s.fixtures.length - s.currentWeek + 1 ∧ n ≤ s.fixtures.length + 1 ∧
      ∀ fuel, s.fixtures.length - s.currentWeek + 1 ≤ fuel →
        SimulateAllLoop fuel s draws 0 = LoopResult.returned s' n := by
  obtain ⟨s', n, hrun, hn1, hn2, hany⟩ :=
    SimulateAllLoop_returns (s.fixtures.length + 1) s draws 0 hp (by omega)
  rw [Nat.zero_add] at hrun
  refine ⟨s', n, hrun, hn1, hn2, by omega, ?_⟩
  intro fuel hfuel
  have := hany fuel hfuel
  rwa [Nat.zero_add] at this

theorem SimulateAll_terminates_witness :
    TeamsPresent demoStart ∧
      ∃ s' n, SimulateAll demoStart (fun _ => 1) = LoopResult.returned s' n ∧
        1 ≤ n ∧ n ≤ demoStart.fixtures.length - demoStart.currentWeek + 1 ∧
        n ≤ demoStart.fixtures.length + 1 ∧
        ∀ fuel, demoStart.fixtures.length - demoStart.currentWeek + 1 ≤ fuel →
          SimulateAllLoop fuel demoStart (fun _ => 1) 0 = LoopResult.returned s' n :=
  ⟨by unfold TeamsPresent; decide,
   SimulateAll_terminates demoStart (fun _ => 1) (by unfold TeamsPresent; decide)⟩

theorem get_insert_isSome (T : StandingsMap) (k : Int) (st : Standing) (k' : Int) :
    ((T.insert k st).get k').isSome = (decide (k' = k) || (T.get k').isSome) := by
  induction T with
  | nil =>
    simp only [StandingsMap.insert, StandingsMap.get]
    by_cases h : k = k'
    · simp [h]
    · have h' : ¬ k' = k := fun e => h e.symm
      simp [h, h']
  | cons e rest ih =>
    obtain ⟨k0, s0⟩ := e
    simp only [StandingsMap.insert]
    by_cases h0 : k0 = k
    · rw [if_pos h0]
      simp only [StandingsMap.get]
      by_cases h1 : k0 = k'
      · simp [h1]
      · have h2 : ¬ k' = k := fun e => h1 (h0.trans e.symm)
        simp [h1, h2]
    · rw [if_neg h0]
      simp only [StandingsMap.get]
      by_cases h1 : k0 = k'
      · simp [h1]
      · simp [h1, ih]

theorem initStandings_present :
    ∀ (teams : List Team) (T : StandingsMap) (k : Int),
      ((∃ t ∈ teams, t.ID = k) ∨ (T.get k).isSome = true) →
      ((initStandings teams T).get k).isSome = true := by
  intro teams
  induction teams with
  | nil =>
    intro T k h
    rcases h with ⟨t, ht, _⟩ | h
    · simp at ht
    · exact h
  | cons team rest ih =>
    intro T k h
    apply ih
    rcases h with ⟨t, ht, hk⟩ | h
    · rcases List.mem_cons.mp ht with rfl | ht'
      · right; rw [get_insert_isSome]; simp [hk]
      · left; exact ⟨t, ht', hk⟩
    · right; rw [get_insert_isSome, h]; simp

theorem generateFixtures_sides_mem (teams : List Team) (fixtures : List (List Match))
    (h : generateFixtures teams = some fixtures) :
    ∀ week ∈ fixtures, ∀ m ∈ week, m.Home ∈ teams ∧ m.Away ∈ teams := by
  by_cases h0 : teams.length = 0
  · simp [generateFixtures, h0] at h
  · by_cases h1 : teams.length = 1
    · rw [generateFixtures_single teams h1] at h
      rw [← Option.some.inj h]
      intro week hweek
      simp at hweek
    · rw [generateFixtures_eq teams (by omega)] at h
      rw [← Option.some.inj h]
      intro week hweek m hm
      rcases List.mem_append.mp hweek with hw | hw
      · obtain ⟨v, hv, rfl⟩ := List.mem_map.mp hw
        obtain ⟨i, hi, rfl⟩ := List.mem_map.mp hm
        have hv' := List.mem_range.mp hv
        have hi' := List.mem_range.mp hi
        have b1 := src_le (teams.length - 1) v i hv' (by omega)
        have b2 := src_le (teams.length - 1) v (teams.length - 1 - i) hv' (by omega)
        exact ⟨getD_mem teams _ (by omega), getD_mem teams _ (by omega)⟩
      · obtain ⟨v, hv, rfl⟩ := List.mem_map.mp hw
        obtain ⟨i, hi, rfl⟩ := List.mem_map.mp hm
        have hv' := List.mem_range.mp hv
        have hi' := List.mem_range.mp hi
        have b1 := src_le (teams.length - 1) v i hv' (by omega)
        have b2 := src_le (teams.length - 1) v (teams.length - 1 - i) hv' (by omega)
        exact ⟨getD_mem teams _ (by omega), getD_mem teams _ (by omega)⟩

theorem NewSimulator_present (teams : List Team) (s0 : SimulatorImpl)
    (h : NewSimulator teams = some s0) : TeamsPresent s0 := by
  unfold NewSimulator at h
  simp only at h
  split at h
  · exact absurd h (by simp)
  · rename_i fixtures hfix
    rw [← Option.some.inj h]
    intro week hweek m hm
    obtain ⟨h1, h2⟩ := generateFixtures_sides_mem teams fixtures hfix week hweek m hm
    exact ⟨initStandings_present teams [] _ (Or.inl ⟨_, h1, rfl⟩),
      initStandings_present teams [] _ (Or.inl ⟨_, h2, rfl⟩)⟩

/-- In every state reachable from a state that `NewSimulator` constructs the
table holds a record for every team of the schedule. -/
theorem Reachable_present (teams : List Team) (s0 s : SimulatorImpl)
    (h0 : NewSimulator teams = some s0) (hr : Reachable s0 s) : TeamsPresent s :=
  TeamsPresent_of_reset s0 s (Reachable_reset s0 s hr) (NewSimulator_present teams s0 h0)

theorem standingLess_asymm (a b : Standing) (h : standingLess a b = true) :
    standingLess b a = false := by
  unfold standingLess at h ⊢
  split_ifs at h ⊢ <;> simp_all <;> omega

theorem rankedBefore_of_not_less (a b : Standing) (h : standingLess b a = false) :
    RankedBefore a b := by
  unfold standingLess at h
  unfold RankedBefore
  split_ifs at h <;> simp_all <;> omega

theorem sinkLeft_chain (x : Standing) :
    ∀ (l : List Standing), List.Chain' (fun u v => standingLess u v = false) l →
      List.Chain' (fun u v => standingLess u v = false) (sinkLeft standingLess x l) := by
  intro l
  induction l with
  | nil => intro _; simp [sinkLeft]
  | cons y ys ih =>
    intro h
    rw [sinkLeft]
    split_ifs with hxy
    · have hys := ih (List.Chain'.tail h)
      cases ys with
      | nil =>
        simp only [sinkLeft, List.chain'_cons, List.chain'_singleton, and_true]
        exact standingLess_asymm x y hxy
      | cons z zs =>
        rw [sinkLeft] at hys ⊢
        have hyz : standingLess y z = false := (List.chain'_cons.mp h).1
        split_ifs at hys ⊢ with hxz
        · exact List.chain'_cons.mpr ⟨hyz, hys⟩
        · exact List.chain'_cons.mpr ⟨standingLess_asymm x y hxy, hys⟩
    · exact List.chain'_cons.mpr ⟨by simpa using hxy, h⟩

theorem insertionLoop_chain :
    ∀ (rest sortedRev : List Standing),
      List.Chain' (fun u v => standingLess u v = false) sortedRev →
      List.Chain' (fun a b => standingLess b a = false)
        (insertionLoop standingLess sortedRev rest) := by
  intro rest
  induction rest with
  | nil =>
    intro sortedRev h
    rw [insertionLoop, List.chain'_reverse]
    exact h
  | cons x rest ih =>
    intro sortedRev h
    rw [insertionLoop]
    exact ih _ (sinkLeft_chain x sortedRev h)

theorem sinkLeft_perm (less : Standing → Standing → Bool) (x : Standing) :
    ∀ (l : List Standing), (sinkLeft less x l).Perm (x :: l) := by
  intro l
  induction l with
  | nil => exact List.Perm.refl _
  | cons y ys ih =>
    rw [sinkLeft]
    split_ifs
    · exact ((List.Perm.cons y ih).trans (List.Perm.swap x y ys))
    · exact List.Perm.refl _

theorem insertionLoop_perm (less : Standing → Standing → Bool) :
    ∀ (rest sortedRev : List Standing),
      (insertionLoop less sortedRev rest).Perm (sortedRev ++ rest) := by
  intro rest
  induction rest with
  | nil => intro sortedRev; simp [insertionLoop]
  | cons x rest ih =>
    intro sortedRev
    rw [insertionLoop]
    refine (ih _).trans ?_
    refine (List.Perm.append_right rest (sinkLeft_perm less x sortedRev)).trans ?_
    simpa using (@List.perm_middle _ x sortedRev rest).symm

/-- The list `GetStandings` returns holds exactly the records of the map. -/
theorem GetStandings_perm (s : SimulatorImpl) :
    (GetStandings s).Perm (s.standings.map (fun e => e.2)) := by
  simpa [GetStandings, sortSlice] using insertionLoop_perm standingLess
    (s.standings.map (fun e => e.2)) []

/-- C8: in the list `GetStandings` returns, every neighbour `a` directly before
`b` has more points, or the same points and a larger goal difference, or the
same points and goal difference and at least as many goals scored. -/
theorem GetStandings_sorted (s : SimulatorImpl) :
    List.Chain' RankedBefore (GetStandings s) := by
  have h := insertionLoop_chain (s.standings.map (fun e => e.2)) [] List.chain'_nil
  exact List.Chain'.imp (fun a b hab => rankedBefore_of_not_less a b hab) h

theorem replay_append : ∀ (a b : List Match) (T : StandingsMap),
    replay (a ++ b) T = (replay a T).bind (replay b) := by
  intro a
  induction a with
  | nil => intro b T; rfl
  | cons m rest ih =>
    intro b T
    simp only [List.cons_append, replay]
    cases updateStandings T m with
    | none => rfl
    | some T1 => exact ih b T1

theorem recalcWeek_eq_replay : ∀ (week : List Match) (T : StandingsMap),
    recalcWeek week T = replay (week.filter (fun m => m.Played)) T := by
  intro week
  induction week with
  | nil => intro T; rfl
  | cons m rest ih =>
    intro T
    rw [recalcWeek]
    by_cases hp : m.Played = true
    · rw [if_pos hp, List.filter_cons_of_pos (by simpa using hp), replay]
      cases updateStandings T m with
      | none => rfl
      | some T1 => exact ih T1
    · rw [if_neg hp, List.filter_cons_of_neg (by simpa using hp)]
      exact ih T

theorem recalcWeeks_eq_replay : ∀ (weeks : List (List Match)) (T : StandingsMap),
    recalcWeeks weeks T = replay (weeks.flatten.filter (fun m => m.Played)) T := by
  intro weeks
  induction weeks with
  | nil => intro T; rfl
  | cons week rest ih =>
    intro T
    rw [recalcWeeks, List.flatten_cons, List.filter_append, replay_append, recalcWeek_eq_replay]
    cases replay (week.filter (fun m => m.Played)) T with
    | none => rfl
    | some T1 => exact ih T1

theorem wrapInt64_zero : wrapInt64 0 = 0 := by decide

theorem tally_clear (k : Int) (st : Standing) : Tally [] k st.Team (clearStanding st) := by
  unfold Tally clearStanding
  simp [wrapInt64_zero]

theorem tally_applyMatch (T : StandingsMap) (m : Match) (pre : List Match) (k : Int)
    (team : Team) (x : Standing) (hne : m.Home.ID ≠ m.Away.ID) (hx : T.get k = some x)
    (ht : Tally pre k team x) :
    ∃ x', (applyMatch T m).get k = some x' ∧ Tally (pre ++ [m]) k team x' := by
  obtain ⟨t, p, w, d, l, gf, ga, gd, pts⟩ := x
  unfold Tally at ht ⊢
  simp only at ht
  obtain ⟨ht0, ht1, ht2, ht3, ht4, ht5, ht6, ht7, ht8⟩ := ht
  subst ht5 ht6
  unfold applyMatch
  by_cases h1 : m.Home.ID = k
  · have h2 : ¬ m.Away.ID = k := fun h => hne (h1.trans h.symm)
    have h1' : k = m.Home.ID := h1.symm
    have h2' : ¬ k = m.Away.ID := fun h => h2 h.symm
    rcases lt_trichotomy m.HomeGoals m.AwayGoals with hlt | heq | hgt
    · have c1 : m.HomeGoals < m.AwayGoals := hlt
      have c2 : ¬ m.AwayGoals < m.HomeGoals := by omega
      have c3 : ¬ m.HomeGoals = m.AwayGoals := by omega
      have hn : ¬ (m.HomeGoals > m.AwayGoals) := c2
      simp only [hn, hlt, if_true, if_false, get_modify, hx, eq_true h1', eq_false h2',
        Option.map_some']
      refine ⟨_, rfl, ?_⟩
      simp only
      refine ⟨ht0, ?_, ?_, ?_, ?_, ?_, ?_, ?_, ?_⟩ <;>
        first
          | omega
          | (simp [List.countP_append, takesPart, wins, drawsMatch, loses, scored, conceded,
              h1, h2, c1, c2, c3] <;> omega)
          | (simp [List.countP_append, takesPart, wins, drawsMatch, loses, scored, conceded,
              h1, h2, c1, c2, c3, wrapInt64]; omega)
    · have c1 : ¬ m.HomeGoals < m.AwayGoals := by omega
      have c2 : ¬ m.AwayGoals < m.HomeGoals := by omega
      have c3 : m.HomeGoals = m.AwayGoals := heq
      have hn : ¬ (m.HomeGoals > m.AwayGoals) := c2
      simp only [hn, c1, if_true, if_false, get_modify, hx, eq_true h1', eq_false h2',
        Option.map_some']
      refine ⟨_, rfl, ?_⟩
      simp only
      refine ⟨ht0, ?_, ?_, ?_, ?_, ?_, ?_, ?_, ?_⟩ <;>
        first
          | omega
          | (simp [List.countP_append, takesPart, wins, drawsMatch, loses, scored, conceded,
              h1, h2, c1, c2, c3] <;> omega)
          | (simp [List.countP_append, takesPart, wins, drawsMatch, loses, scored, conceded,
              h1, h2, c1, c2, c3, wrapInt64]; omega)
    · have c1 : ¬ m.HomeGoals < m.AwayGoals := by omega
      have c2 : m.AwayGoals < m.HomeGoals := hgt
      have c3 : ¬ m.HomeGoals = m.AwayGoals := by omega
      have hn : m.HomeGoals > m.AwayGoals := c2
      simp only [hn, if_true, if_false, get_modify, hx, eq_true h1', eq_false h2',
        Option.map_some']
      refine ⟨_, rfl, ?_⟩
      simp only
      refine ⟨ht0, ?_, ?_, ?_, ?_, ?_, ?_, ?_, ?_⟩ <;>
        first
          | omega
          | (simp [List.countP_append, takesPart, wins, drawsMatch, loses, scored, conceded,
              h1, h2, c1, c2, c3] <;> omega)
          | (simp [List.countP_append, takesPart, wins, drawsMatch, loses, scored, conceded,
              h1, h2, c1, c2, c3, wrapInt64]; omega)
  · have h1' : ¬ k = m.Home.ID := fun h => h1 h.symm
    by_cases h2 : m.Away.ID = k
    · have h2' : k = m.Away.ID := h2.symm
      rcases lt_trichotomy m.HomeGoals m.AwayGoals with hlt | heq | hgt
      · have c1 : m.HomeGoals < m.AwayGoals := hlt
        have c2 : ¬ m.AwayGoals < m.HomeGoals := by omega
        have c3 : ¬ m.HomeGoals = m.AwayGoals := by omega
        have hn : ¬ (m.HomeGoals > m.AwayGoals) := c2
        simp only [hn, hlt, if_true, if_false, get_modify, hx, eq_false h1', eq_true h2',
          Option.map_some']
        refine ⟨_, rfl, ?_⟩
        simp only
        refine ⟨ht0, ?_, ?_, ?_, ?_, ?_, ?_, ?_, ?_⟩ <;>
          first
            | omega
            | (simp [List.countP_append, takesPart, wins, drawsMatch, loses, scored, conceded,
                h1, h2, c1, c2, c3] <;> omega)
            | (simp [List.countP_append, takesPart, wins, drawsMatch, loses, scored, conceded,
                h1, h2, c1, c2, c3, wrapInt64]; omega)
      · have c1 : ¬ m.HomeGoals < m.AwayGoals := by omega
        have c2 : ¬ m.AwayGoals < m.HomeGoals := by omega
        have c3 : m.HomeGoals = m.AwayGoals := heq
        have hn : ¬ (m.HomeGoals > m.AwayGoals) := c2
        simp only [hn, c1, if_true, if_false, get_modify, hx, eq_false h1', eq_true h2',
          Option.map_some']
        refine ⟨_, rfl, ?_⟩
        simp only
        refine ⟨ht0, ?_, ?_, ?_, ?_, ?_, ?_, ?_, ?_⟩ <;>
          first
            | omega
            | (simp [List.countP_append, takesPart, wins, drawsMatch, loses, scored, conceded,
                h1, h2, c1, c2, c3] <;> omega)
            | (simp [List.countP_append, takesPart, wins, drawsMatch, loses, scored, conceded,
                h1, h2, c1, c2, c3, wrapInt64]; omega)
      · have c1 : ¬ m.HomeGoals < m.AwayGoals := by omega
        have c2 : m.AwayGoals < m.HomeGoals := hgt
        have c3 : ¬ m.HomeGoals = m.AwayGoals := by omega
        have hn : m.HomeGoals > m.AwayGoals := c2
        simp only [hn, if_true, if_false, get_modify, hx, eq_false h1', eq_true h2',
          Option.map_some']
        refine ⟨_, rfl, ?_⟩
        simp only
        refine ⟨ht0, ?_, ?_, ?_, ?_, ?_, ?_, ?_, ?_⟩ <;>
          first
            | omega
            | (simp [List.countP_append, takesPart, wins, drawsMatch, loses, scored, conceded,
                h1, h2, c1, c2, c3] <;> omega)
            | (simp [List.countP_append, takesPart, wins, drawsMatch, loses, scored, conceded,
                h1, h2, c1, c2, c3, wrapInt64]; omega)
    · have h2' : ¬ k = m.Away.ID := fun h => h2 h.symm
      rcases lt_trichotomy m.HomeGoals m.AwayGoals with hlt | heq | hgt
      · have c1 : m.HomeGoals < m.AwayGoals := hlt
        have c2 : ¬ m.AwayGoals < m.HomeGoals := by omega
        have c3 : ¬ m.HomeGoals = m.AwayGoals := by omega
        have hn : ¬ (m.HomeGoals > m.AwayGoals) := c2
        simp only [hn, hlt, if_true, if_false, get_modify, hx, eq_false h1', eq_false h2',
          Option.map_some']
        refine ⟨_, rfl, ?_⟩
        simp only
        refine ⟨ht0, ?_, ?_, ?_, ?_, ?_, ?_, ?_, ?_⟩ <;>
          first
            | omega
            | (simp [List.countP_append, takesPart, wins, drawsMatch, loses, scored, conceded,
                h1, h2, c1, c2, c3] <;> omega)
      · have c1 : ¬ m.HomeGoals < m.AwayGoals := by omega
        have c2 : ¬ m.AwayGoals < m.HomeGoals := by omega
        have c3 : m.HomeGoals = m.AwayGoals := heq
        have hn : ¬ (m.HomeGoals > m.AwayGoals) := c2
        simp only [hn, c1, if_true, if_false, get_modify, hx, eq_false h1', eq_false h2',
          Option.map_some']
        refine ⟨_, rfl, ?_⟩
        simp only
        refine ⟨ht0, ?_, ?_, ?_, ?_, ?_, ?_, ?_, ?_⟩ <;>
          first
            | omega
            | (simp [List.countP_append, takesPart, wins, drawsMatch, loses, scored, conceded,
                h1, h2, c1, c2, c3] <;> omega)
      · have c1 : ¬ m.HomeGoals < m.AwayGoals := by omega
        have c2 : m.AwayGoals < m.HomeGoals := hgt
        have c3 : ¬ m.HomeGoals = m.AwayGoals := by omega
        have hn : m.HomeGoals > m.AwayGoals := c2
        simp only [hn, if_true, if_false, get_modify, hx, eq_false h1', eq_false h2',
          Option.map_some']
        refine ⟨_, rfl, ?_⟩
        simp only
        refine ⟨ht0, ?_, ?_, ?_, ?_, ?_, ?_, ?_, ?_⟩ <;>
          first
            | omega
            | (simp [List.countP_append, takesPart, wins, drawsMatch, loses, scored, conceded,
                h1, h2, c1, c2, c3] <;> omega)

theorem replay_tally :
    ∀ (ms pre : List Match) (T : StandingsMap),
      (∀ m ∈ ms, (T.get m.Home.ID).isSome = true ∧ (T.get m.Away.ID).isSome = true ∧
        m.Home.ID ≠ m.Away.ID) →
      ∃ T', replay ms T = some T' ∧
        ∀ (k : Int) (team : Team) (x : Standing), T.get k = some x → Tally pre k team x →
          ∃ x', T'.get k = some x' ∧ Tally (pre ++ ms) k team x' := by
  intro ms
  induction ms with
  | nil =>
    intro pre T _
    refine ⟨T, rfl, ?_⟩
    intro k team x hx ht
    exact ⟨x, hx, by simpa using ht⟩
  | cons m rest ih =>
    intro pre T h
    obtain ⟨hm1, hm2, hm3⟩ := h m (List.mem_cons_self _ _)
    rw [replay, updateStandings_eq_some T m hm1 hm2]
    simp only []
    obtain ⟨T', hT', hrest⟩ := ih (pre ++ [m]) (applyMatch T m) (by
      intro m' hm'
      obtain ⟨a1, a2, a3⟩ := h m' (List.mem_cons_of_mem _ hm')
      rw [get_applyMatch_isSome, get_applyMatch_isSome]
      exact ⟨a1, a2, a3⟩)
    refine ⟨T', hT', ?_⟩
    intro k team x hx ht
    obtain ⟨x1, hx1, ht1⟩ := tally_applyMatch T m pre k team x hm3 hx ht
    obtain ⟨x', hx', ht'⟩ := hrest k team x1 hx1 ht1
    exact ⟨x', hx', by simpa using ht'⟩

theorem wrapInt64_of_isInt64 (x : Int) (h : IsInt64 x) : wrapInt64 x = x := by
  unfold IsInt64 at h
  unfold wrapInt64
  omega

theorem wrapInt64_isInt64 (x : Int) : IsInt64 (wrapInt64 x) := by
  unfold IsInt64 wrapInt64
  omega

/-- C5, the claim fails: in `demoHugeSum` team 1 has scored 9223372036854775807
goals in match 1 and one goal in match 3, in sum `2 ^ 63`, and
`RecalculateStandings` leaves its `GoalsFor` at `-2 ^ 63`: the sum wraps around
in Go's `int`. -/
theorem recalculated_goals_wrap :
    Reachable demoStart demoHugeSum ∧
      (playedMatches demoHugeSum).map
          (fun m => (m.ID, m.Home.ID, m.Away.ID, m.HomeGoals, m.AwayGoals)) =
        [(1, 1, 4, 9223372036854775807, 0), (3, 1, 3, 1, 0)] ∧
      ((playedMatches demoHugeSum).map (scored 1)).sum = 9223372036854775808 ∧
      ((RecalculateStandings demoHugeSum).bind (fun s => s.standings.get 1)).map
          (fun st => st.GoalsFor) = some (-9223372036854775808) := by
  refine ⟨?_, by decide, by decide, by decide⟩
  exact Reachable.editMatchResult
    (Reachable.editMatchResult Reachable.init
      (by decide : EditMatchResult demoStart 1 9223372036854775807 0 =
        some (none, demoHugeHome)))
    (by decide : EditMatchResult demoHugeHome 3 1 0 = some (none, demoHugeSum))

/-- C5, amended: whatever the table held before, `RecalculateStandings` leaves
the table that `updateStandings` builds from all-zero records over exactly the
played matches in schedule order.  When the table holds the two distinct teams
of every played match, the call succeeds and every team's record counts the
played matches it takes part in: games, wins, draws and losses by goal
comparison.  `GoalsFor` and `GoalsAgainst` are the sums of the goals it scored
and conceded in them as Go's `int` stores them, reduced modulo `2 ^ 64` into the
range of `int`; they are the exact sums whenever those are values of `int`. -/
theorem RecalculateStandings_replays (s : SimulatorImpl)
    (hp : ∀ m ∈ playedMatches s, (s.standings.get m.Home.ID).isSome = true ∧
      (s.standings.get m.Away.ID).isSome = true ∧ m.Home.ID ≠ m.Away.ID) :
    RecalculateStandings s =
        (replay (playedMatches s) (clearStandings s.standings)).map
          (fun T => { s with standings := T }) ∧
      ∃ s', RecalculateStandings s = some s' ∧ s'.fixtures = s.fixtures ∧
        s'.currentWeek = s.currentWeek ∧
        ∀ (k : Int) (st : Standing), s.standings.get k = some st →
          ∃ st', s'.standings.get k = some st' ∧ Tally (playedMatches s) k st.Team st' ∧
            st'.GoalsFor = wrapInt64 ((playedMatches s).map (scored k)).sum ∧
            st'.GoalsAgainst = wrapInt64 ((playedMatches s).map (conceded k)).sum ∧
            (IsInt64 ((playedMatches s).map (scored k)).sum →
              st'.GoalsFor = ((playedMatches s).map (scored k)).sum) ∧
            (IsInt64 ((playedMatches s).map (conceded k)).sum →
              st'.GoalsAgainst = ((playedMatches s).map (conceded k)).sum) := by
  have h1 : RecalculateStandings s =
      (replay (playedMatches s) (clearStandings s.standings)).map
        (fun T => { s with standings := T }) := by
    unfold RecalculateStandings playedMatches
    rw [recalcWeeks_eq_replay]
    cases replay (s.fixtures.flatten.filter (fun m => m.Played)) (clearStandings s.standings) with
    | none => rfl
    | some T => rfl
  refine ⟨h1, ?_⟩
  obtain ⟨T', hT', htally⟩ := replay_tally (playedMatches s) [] (clearStandings s.standings) (by
    intro m hm
    obtain ⟨a1, a2, a3⟩ := hp m hm
    rw [get_clearStandings, get_clearStandings, Option.isSome_map', Option.isSome_map']
    exact ⟨a1, a2, a3⟩)
  refine ⟨{ s with standings := T' }, by rw [h1, hT']; rfl, rfl, rfl, ?_⟩
  intro k st hst
  obtain ⟨x', hx', ht'⟩ := htally k st.Team (clearStanding st)
    (by rw [get_clearStandings, hst]; rfl) (tally_clear k st)
  have ht : Tally (playedMatches s) k st.Team x' := by simpa using ht'
  have hf := ht.2.2.2.2.2.1
  have ha := ht.2.2.2.2.2.2.1
  refine ⟨x', hx', ht, hf, ha, ?_, ?_⟩
  · intro hr
    rw [hf, wrapInt64_of_isInt64 _ hr]
  · intro hr
    rw [ha, wrapInt64_of_isInt64 _ hr]

theorem RecalculateStandings_replays_witness :
    (∀ m ∈ playedMatches demoReedited, (demoReedited.standings.get m.Home.ID).isSome = true ∧
        (demoReedited.standings.get m.Away.ID).isSome = true ∧ m.Home.ID ≠ m.Away.ID) ∧
      ∃ s', RecalculateStandings demoReedited = some s' ∧
        s'.fixtures = demoReedited.fixtures ∧ s'.currentWeek = demoReedited.currentWeek ∧
        ∀ (k : Int) (st : Standing), demoReedited.standings.get k = some st →
          ∃ st', s'.standings.get k = some st' ∧
            Tally (playedMatches demoReedited) k st.Team st' ∧
            st'.GoalsFor = wrapInt64 ((playedMatches demoReedited).map (scored k)).sum ∧
            st'.GoalsAgainst = wrapInt64 ((playedMatches demoReedited).map (conceded k)).sum ∧
            (IsInt64 ((playedMatches demoReedited).map (scored k)).sum →
              st'.GoalsFor = ((playedMatches demoReedited).map (scored k)).sum) ∧
            (IsInt64 ((playedMatches demoReedited).map (conceded k)).sum →
              st'.GoalsAgainst = ((playedMatches demoReedited).map (conceded k)).sum) :=
  ⟨by decide, (RecalculateStandings_replays demoReedited (by decide)).2⟩

theorem fixtures_of_reset (s s' : SimulatorImpl) (h : Reset s' = Reset s) :
    ∀ week' ∈ s'.fixtures, ∀ m' ∈ week', ∃ week ∈ s.fixtures, ∃ m ∈ week,
      m'.ID = m.ID ∧ m'.Home = m.Home ∧ m'.Away = m.Away ∧ m'.Week = m.Week := by
  have hf : s'.fixtures.map (fun week => week.map clearMatch) =
      s.fixtures.map (fun week => week.map clearMatch) := by
    have := congrArg SimulatorImpl.fixtures h
    simpa [Reset] using this
  intro week' hweek' m' hm'
  have h1 : week'.map clearMatch ∈ s'.fixtures.map (fun week => week.map clearMatch) :=
    List.mem_map.mpr ⟨week', hweek', rfl⟩
  rw [hf] at h1
  obtain ⟨week, hweek, hwk⟩ := List.mem_map.mp h1
  have h2 : clearMatch m' ∈ week.map clearMatch := by
    rw [hwk]; exact List.mem_map.mpr ⟨m', hm', rfl⟩
  obtain ⟨m, hm, hmm⟩ := List.mem_map.mp h2
  exact ⟨week, hweek, m, hm, (congrArg Match.ID hmm).symm, (congrArg Match.Home hmm).symm,
    (congrArg Match.Away hmm).symm, (congrArg Match.Week hmm).symm⟩

theorem generateFixtures_sides_distinct (teams : List Team)
    (hid : (teams.map (fun t => t.ID)).Nodup) (heven : teams.length % 2 = 0) :
    ∀ week ∈ firstLegWeeks teams ++ secondLegWeeks teams, ∀ m ∈ week,
      m.Home.ID ≠ m.Away.ID := by
  have hnd : teams.Nodup := List.Nodup.of_map _ hid
  have hinj : ∀ a ∈ teams, ∀ b ∈ teams, a.ID = b.ID → a = b :=
    fun a ha b hb hab => List.inj_on_of_nodup_map hid ha hb hab
  intro week hweek m hm
  rcases List.mem_append.mp hweek with hw | hw
  · obtain ⟨v, hv, rfl⟩ := List.mem_map.mp hw
    obtain ⟨i, hi, rfl⟩ := List.mem_map.mp hm
    obtain ⟨a1, a2, a3⟩ := slotSides_offDiag teams hnd heven (v, i)
      ((mem_slots teams (v, i)).mpr ⟨List.mem_range.mp hv, List.mem_range.mp hi⟩)
    exact fun h => a3 (hinj _ a1 _ a2 h)
  · obtain ⟨v, hv, rfl⟩ := List.mem_map.mp hw
    obtain ⟨i, hi, rfl⟩ := List.mem_map.mp hm
    obtain ⟨a1, a2, a3⟩ := slotSides_offDiag teams hnd heven (v, i)
      ((mem_slots teams (v, i)).mpr ⟨List.mem_range.mp hv, List.mem_range.mp hi⟩)
    exact fun h => a3 (hinj _ a1 _ a2 h.symm)

/-- In every state reachable from `NewSimulator teams`, for an even number of
teams with pairwise distinct IDs, the two sides of every match have different IDs. -/
theorem Reachable_sides_distinct (teams : List Team) (s0 s : SimulatorImpl)
    (hid : (teams.map (fun t => t.ID)).Nodup) (heven : teams.length % 2 = 0)
    (hN : 2 ≤ teams.length) (h0 : NewSimulator teams = some s0) (hr : Reachable s0 s) :
    ∀ week ∈ s.fixtures, ∀ m ∈ week, m.Home.ID ≠ m.Away.ID := by
  intro week' hweek' m' hm'
  obtain ⟨week, hweek, m, hm, _, e1, e2, _⟩ :=
    fixtures_of_reset s0 s (Reachable_reset s0 s hr) week' hweek' m' hm'
  rw [e1, e2]
  have hfix : s0.fixtures = firstLegWeeks teams ++ secondLegWeeks teams := by
    unfold NewSimulator at h0
    simp only [generateFixtures_eq teams hN] at h0
    rw [← Option.some.inj h0]
  rw [hfix] at hweek
  exact generateFixtures_sides_distinct teams hid heven week hweek m hm

theorem maxPointsLoop_ge : ∀ (T : StandingsMap) (acc : Int),
    acc ≤ maxPointsLoop T acc ∧ ∀ e ∈ T, e.2.Points ≤ maxPointsLoop T acc := by
  intro T
  induction T with
  | nil => intro acc; exact ⟨le_refl _, fun e he => absurd he (List.not_mem_nil e)⟩
  | cons e rest ih =>
    intro acc
    rw [maxPointsLoop]
    split_ifs with h
    · obtain ⟨h1, h2⟩ := ih e.2.Points
      refine ⟨by omega, ?_⟩
      intro e' he'
      rcases List.mem_cons.mp he' with rfl | he'
      · exact h1
      · exact h2 e' he'
    · obtain ⟨h1, h2⟩ := ih acc
      refine ⟨h1, ?_⟩
      intro e' he'
      rcases List.mem_cons.mp he' with rfl | he'
      · omega
      · exact h2 e' he'

theorem randomGoals_le (draw : Int) : randomGoals draw ≤ 5 := by
  unfold randomGoals
  split_ifs <;> omega

theorem simulateWeekLoop_spec :
    ∀ (rest done : List Match) (T : StandingsMap) (allPlayed : Bool) (draws : Draws),
      (∀ m ∈ rest, (T.get m.Home.ID).isSome = true ∧ (T.get m.Away.ID).isSome = true) →
      ∃ new T' draws',
        simulateWeekLoop rest done T allPlayed draws =
          some (done ++ new, T', (allPlayed && rest.all (fun m => m.Played)), draws') ∧
        List.Forall₂ Simulated rest new ∧
        replay (newlyPlayed rest new) T = some T' := by
  intro rest
  induction rest with
  | nil =>
    intro done T allPlayed draws _
    exact ⟨[], T, draws, by simp [simulateWeekLoop], List.Forall₂.nil, rfl⟩
  | cons m rest ih =>
    intro done T allPlayed draws h
    have hm := h m (List.mem_cons_self _ _)
    rw [simulateWeekLoop]
    by_cases hp : m.Played = true
    · simp only [hp, Bool.not_true, Bool.false_eq_true, if_false]
      obtain ⟨new, T', d', hrun, hrel, hrep⟩ := ih (done ++ [m]) T allPlayed draws
        (fun m' hm' => h m' (List.mem_cons_of_mem _ hm'))
      refine ⟨m :: new, T', d', ?_, ?_, ?_⟩
      · rw [hrun]; simp [hp]
      · exact List.Forall₂.cons (by simp [Simulated, hp]) hrel
      · simpa [newlyPlayed, hp] using hrep
    · have hp' : m.Played = false := by simpa using hp
      simp only [hp', Bool.not_false, if_true, simulateMatch]
      have hu := updateStandings_eq_some T
        { m with HomeGoals := randomGoals (draws 0), AwayGoals := randomGoals (draws 1),
                 Played := true } hm.1 hm.2
      rw [hu]
      simp only []
      obtain ⟨new, T', d', hrun, hrel, hrep⟩ := ih
        (done ++ [{ m with HomeGoals := randomGoals (draws 0),
                           AwayGoals := randomGoals (draws 1), Played := true }])
        (applyMatch T { m with HomeGoals := randomGoals (draws 0),
                               AwayGoals := randomGoals (draws 1), Played := true })
        false (fun n => draws (n + 2))
        (by
          intro m' hm'
          rw [get_applyMatch_isSome, get_applyMatch_isSome]
          exact h m' (List.mem_cons_of_mem _ hm'))
      refine ⟨{ m with HomeGoals := randomGoals (draws 0),
                       AwayGoals := randomGoals (draws 1), Played := true } :: new, T', d',
        ?_, ?_, ?_⟩
      · rw [hrun]; simp [hp']
      · refine List.Forall₂.cons ?_ hrel
        simp only [Simulated, hp', Bool.false_eq_true, if_false]
        exact ⟨_, _, randomGoals_le _, randomGoals_le _, rfl⟩
      · simp only [newlyPlayed, List.zip_cons_cons, hp', Bool.not_false, List.filter_cons_of_pos,
          List.map_cons, replay]
        rw [hu]
        exact hrep

theorem simulated_played : ∀ (week week' : List Match), List.Forall₂ Simulated week week' →
    ∀ m' ∈ week', m'.Played = true := by
  intro week week' h
  induction h with
  | nil => intro m' hm'; simp at hm'
  | cons hab _ ih =>
    rename_i a b l l'
    intro m' hm'
    rcases List.mem_cons.mp hm' with rfl | hm'
    · unfold Simulated at hab
      split_ifs at hab with hp
      · rw [hab]; exact hp
      · obtain ⟨hg, ag, _, _, rfl⟩ := hab
        rfl
    · exact ih m' hm'

/-- The full description of a call of `SimulateWeek` on a week that exists. -/
theorem SimulateWeek_spec (s : SimulatorImpl) (draws : Draws)
    (hc : s.currentWeek < s.fixtures.length) (hp : TeamsPresent s) :
    ∃ (s' : SimulatorImpl) (draws' : Draws) (week week' : List Match),
      SimulateWeek s draws = some (!(week.all (fun m => m.Played)), s', draws') ∧
      s'.currentWeek = s.currentWeek + 1 ∧ s'.teams = s.teams ∧
      s.fixtures[s.currentWeek]? = some week ∧
      s'.fixtures = s.fixtures.set s.currentWeek week' ∧
      List.Forall₂ Simulated week week' ∧
      replay (newlyPlayed week week') s.standings = some s'.standings := by
  unfold SimulateWeek
  rw [if_neg (by omega), List.getElem?_eq_getElem hc]
  simp only []
  obtain ⟨new, T', d', hrun, hrel, hrep⟩ :=
    simulateWeekLoop_spec (s.fixtures[s.currentWeek]) [] s.standings true draws
      (hp _ (List.getElem_mem hc))
  rw [hrun]
  simp only [List.nil_append, Bool.true_and]
  exact ⟨_, d', s.fixtures[s.currentWeek], new, rfl, rfl, rfl, rfl, rfl, hrel, hrep⟩

/-- C13: when the cursor equals the number of weeks, `SimulateWeek` returns
false and the state afterwards, matches, standings and cursor, is the state
before; no draw is consumed. -/
theorem SimulateWeek_exhausted (s : SimulatorImpl) (draws : Draws)
    (h : s.currentWeek = s.fixtures.length) :
    SimulateWeek s draws = some (false, s, draws) := by
  unfold SimulateWeek
  rw [if_pos (by omega)]

theorem SimulateWeek_exhausted_witness :
    demoFinished.currentWeek = demoFinished.fixtures.length ∧
      demoFinished.currentWeek = 6 ∧
      SimulateWeek demoFinished (fun _ => 2) = some (false, demoFinished, fun _ => 2) :=
  ⟨by decide, by decide, SimulateWeek_exhausted demoFinished (fun _ => 2) (by decide)⟩

/-- C14: when the cursor `c` is below the number of weeks (and the table holds
the teams of the schedule) `SimulateWeek` returns and leaves the cursor at
`c + 1`; only week `c` of the schedule changes; in it every match is played
afterwards, a match that was played before is unchanged, a match that was
unplayed has new goals and `Played = true`; and the standings afterwards are
the standings before with `updateStandings` applied once to each of those newly
played matches, in order, and to nothing else. -/
theorem SimulateWeek_plays_week (s : SimulatorImpl) (draws : Draws)
    (hc : s.currentWeek < s.fixtures.length) (hp : TeamsPresent s) :
    ∃ (played : Bool) (s' : SimulatorImpl) (draws' : Draws) (week week' : List Match),
      SimulateWeek s draws = some (played, s', draws') ∧
      s'.currentWeek = s.currentWeek + 1 ∧
      s.fixtures[s.currentWeek]? = some week ∧
      s'.fixtures = s.fixtures.set s.currentWeek week' ∧
      (∀ j, j ≠ s.currentWeek → s'.fixtures[j]? = s.fixtures[j]?) ∧
      s'.fixtures[s.currentWeek]? = some week' ∧
      (∀ m' ∈ week', m'.Played = true) ∧
      List.Forall₂ Simulated week week' ∧
      replay (newlyPlayed week week') s.standings = some s'.standings := by
  obtain ⟨s', d', week, week', hrun, h1, _, h3, h4, h5, h6⟩ := SimulateWeek_spec s draws hc hp
  refine ⟨_, s', d', week, week', hrun, h1, h3, h4, ?_, ?_,
    simulated_played week week' h5, h5, h6⟩
  · intro j hj
    rw [h4, List.getElem?_set_ne (Ne.symm hj)]
  · rw [h4, List.getElem?_set_self hc]

theorem SimulateWeek_plays_week_witness :
    demoEdited.currentWeek < demoEdited.fixtures.length ∧ TeamsPresent demoEdited ∧
      ∃ (played : Bool) (s' : SimulatorImpl) (draws' : Draws) (week week' : List Match),
        SimulateWeek demoEdited (fun _ => 2) = some (played, s', draws') ∧
        s'.currentWeek = demoEdited.currentWeek + 1 ∧
        demoEdited.fixtures[demoEdited.currentWeek]? = some week ∧
        s'.fixtures = demoEdited.fixtures.set demoEdited.currentWeek week' ∧
        (∀ j, j ≠ demoEdited.currentWeek → s'.fixtures[j]? = demoEdited.fixtures[j]?) ∧
        s'.fixtures[demoEdited.currentWeek]? = some week' ∧
        (∀ m' ∈ week', m'.Played = true) ∧
        List.Forall₂ Simulated week week' ∧
        replay (newlyPlayed week week') demoEdited.standings = some s'.standings :=
  ⟨by decide, by unfold TeamsPresent; decide,
   SimulateWeek_plays_week demoEdited (fun _ => 2) (by decide) (by unfold TeamsPresent; decide)⟩

/-- C17: `SimulateWeek` (on a table that holds the teams of the schedule)
returns true exactly when the cursor is below the number of weeks and some match
of the current week was unplayed before the call; whenever the cursor is below
the number of weeks it advances by one, also when every match of the week was
already played and the call returns false. -/
theorem SimulateWeek_flag (s : SimulatorImpl) (draws : Draws) (hp : TeamsPresent s) :
    ∃ (played : Bool) (s' : SimulatorImpl) (draws' : Draws),
      SimulateWeek s draws = some (played, s', draws') ∧
      (played = true ↔ s.currentWeek < s.fixtures.length ∧
        ∃ week, s.fixtures[s.currentWeek]? = some week ∧ ∃ m ∈ week, m.Played = false) ∧
      (s.currentWeek < s.fixtures.length → s'.currentWeek = s.currentWeek + 1) ∧
      (s.currentWeek < s.fixtures.length →
        (∀ week, s.fixtures[s.currentWeek]? = some week → ∀ m ∈ week, m.Played = true) →
        played = false ∧ s'.currentWeek = s.currentWeek + 1) := by
  by_cases hc : s.currentWeek < s.fixtures.length
  · obtain ⟨s', d', week, week', hrun, h1, _, h3, _, _, _⟩ := SimulateWeek_spec s draws hc hp
    refine ⟨_, s', d', hrun, ?_, fun _ => h1, ?_⟩
    · constructor
      · intro h
        refine ⟨hc, week, h3, ?_⟩
        simpa using h
      · rintro ⟨_, week0, hweek0, m, hm, hmp⟩
        rw [h3] at hweek0
        cases Option.some.inj hweek0
        simp only [Bool.not_eq_true', List.all_eq_false]
        exact ⟨m, hm, by simp [hmp]⟩
    · intro _ hall
      refine ⟨?_, h1⟩
      simp only [Bool.not_eq_false', List.all_eq_true]
      exact fun m hm => hall week h3 m hm
  · refine ⟨false, s, draws, ?_, ?_, fun h => absurd h hc, fun h => absurd h hc⟩
    · unfold SimulateWeek
      rw [if_pos (by omega)]
    · constructor
      · intro h; exact absurd h (by simp)
      · rintro ⟨h, _⟩; exact absurd h hc

theorem SimulateWeek_flag_witness :
    TeamsPresent demoWeekOneEntered ∧
      ∃ (played : Bool) (s' : SimulatorImpl) (draws' : Draws),
        SimulateWeek demoWeekOneEntered (fun _ => 2) = some (played, s', draws') ∧
        (played = true ↔ demoWeekOneEntered.currentWeek < demoWeekOneEntered.fixtures.length ∧
          ∃ week, demoWeekOneEntered.fixtures[demoWeekOneEntered.currentWeek]? = some week ∧
            ∃ m ∈ week, m.Played = false) ∧
        (demoWeekOneEntered.currentWeek < demoWeekOneEntered.fixtures.length →
          s'.currentWeek = demoWeekOneEntered.currentWeek + 1) ∧
        (demoWeekOneEntered.currentWeek < demoWeekOneEntered.fixtures.length →
          (∀ week, demoWeekOneEntered.fixtures[demoWeekOneEntered.currentWeek]? = some week →
            ∀ m ∈ week, m.Played = true) →
          played = false ∧ s'.currentWeek = demoWeekOneEntered.currentWeek + 1) :=
  ⟨by unfold TeamsPresent; decide,
   SimulateWeek_flag demoWeekOneEntered (fun _ => 2) (by unfold TeamsPresent; decide)⟩

theorem schedule_eq_grid (teams : List Team) :
    firstLegWeeks teams ++ secondLegWeeks teams =
      (List.range ((teams.length - 1) + (teams.length - 1))).map (fun w =>
        (List.range (teams.length / 2)).map (scheduleMatch teams w)) := by
  rw [List.range_add, List.map_append, List.map_map]
  congr 1
  · unfold firstLegWeeks
    apply List.map_congr_left
    intro w hw
    have hw' := List.mem_range.mp hw
    apply List.map_congr_left
    intro i _
    simp only [scheduleMatch, if_pos hw']
  · unfold secondLegWeeks
    apply List.map_congr_left
    intro w _
    simp only [Function.comp]
    apply List.map_congr_left
    intro i _
    have h1 : ¬ (teams.length - 1 + w < teams.length - 1) := by omega
    have h2 : teams.length - 1 + w - (teams.length - 1) = w := by omega
    simp only [scheduleMatch, if_neg h1, h2]

theorem scheduleMatch_id (teams : List Team) (hN : 1 ≤ teams.length) (w i : Nat) :
    (scheduleMatch teams w i).ID = (w : Int) * ((teams.length / 2 : Nat) : Int) + (i : Int) + 1 ∧
      (scheduleMatch teams w i).Week = (w : Int) + 1 := by
  unfold scheduleMatch
  split_ifs with h
  · simp only [firstLegMatch]
    exact ⟨by ring, trivial⟩
  · simp only [secondLegMatch]
    have e : ((w - (teams.length - 1) : Nat) : Int) = (w : Int) - ((teams.length - 1 : Nat) : Int) := by
      omega
    have e2 : ((teams.length : Nat) : Int) = ((teams.length - 1 : Nat) : Int) + 1 := by omega
    rw [e]
    constructor
    · ring
    · rw [e2]; ring

theorem flatten_grid (k : Nat) : ∀ (W : Nat),
    ((List.range W).map (fun (w : Nat) => (List.range k).map (fun (i : Nat) =>
        (w : Int) * (k : Int) + (i : Int) + 1))).flatten =
      (List.range (W * k)).map (fun (n : Nat) => (n : Int) + 1) := by
  intro W
  induction W with
  | zero => simp
  | succ W ih =>
    rw [List.range_succ, List.map_append, List.flatten_append, ih, Nat.succ_mul, List.range_add,
      List.map_append]
    congr 1
    simp only [List.map_cons, List.map_nil, List.flatten_cons, List.flatten_nil, List.append_nil,
      List.map_map]
    apply List.map_congr_left
    intro i _
    simp only [Function.comp]
    push_cast
    rfl

theorem schedule_ids (teams : List Team) (heven : teams.length % 2 = 0)
    (hN : 2 ≤ teams.length) :
    (firstLegWeeks teams ++ secondLegWeeks teams).flatten.map (fun m => m.ID) =
      (List.range (teams.length * (teams.length - 1))).map
        (fun (n : Nat) => (n : Int) + 1) := by
  rw [schedule_eq_grid, List.map_flatten, List.map_map]
  have hgrid := flatten_grid (teams.length / 2) (teams.length - 1 + (teams.length - 1))
  have hsize : (teams.length - 1 + (teams.length - 1)) * (teams.length / 2) =
      teams.length * (teams.length - 1) := by
    obtain ⟨j, hj⟩ : ∃ j, teams.length = 2 * j + 2 := ⟨teams.length / 2 - 1, by omega⟩
    have h2 : teams.length / 2 = j + 1 := by omega
    have h3 : teams.length - 1 = 2 * j + 1 := by omega
    rw [h2, h3, hj]
    ring
  rw [hsize] at hgrid
  rw [← hgrid]
  congr 1
  apply List.map_congr_left
  intro w _
  simp only [Function.comp, List.map_map]
  apply List.map_congr_left
  intro i _
  exact (scheduleMatch_id teams (by omega) w i).1

theorem schedule_id_mem (teams : List Team) (heven : teams.length % 2 = 0)
    (hN : 2 ≤ teams.length) (id : Int) :
    (∃ m ∈ (firstLegWeeks teams ++ secondLegWeeks teams).flatten, m.ID = id) ↔
      1 ≤ id ∧ id ≤ ((teams.length * (teams.length - 1) : Nat) : Int) := by
  have hids := schedule_ids teams heven hN
  constructor
  · rintro ⟨m, hm, rfl⟩
    have : m.ID ∈ (firstLegWeeks teams ++ secondLegWeeks teams).flatten.map (fun m => m.ID) :=
      List.mem_map.mpr ⟨m, hm, rfl⟩
    rw [hids] at this
    obtain ⟨n, hn, hid⟩ := List.mem_map.mp this
    have := List.mem_range.mp hn
    omega
  · intro ⟨h1, h2⟩
    have : id ∈ (List.range (teams.length * (teams.length - 1))).map
        (fun (n : Nat) => (n : Int) + 1) := by
      refine List.mem_map.mpr ⟨(id - 1).toNat, List.mem_range.mpr ?_, ?_⟩
      · omega
      · show ((id - 1).toNat : Int) + 1 = id
        omega
    rw [← hids] at this
    obtain ⟨m, hm, hid⟩ := List.mem_map.mp this
    exact ⟨m, hm, hid⟩

theorem schedule_index (teams : List Team) (hN : 2 ≤ teams.length) (w i : Nat)
    (week : List Match) (m : Match)
    (hweek : (firstLegWeeks teams ++ secondLegWeeks teams)[w]? = some week)
    (hm : week[i]? = some m) :
    m.ID = (w : Int) * ((teams.length / 2 : Nat) : Int) + (i : Int) + 1 ∧
      m.Week = (w : Int) + 1 := by
  rw [schedule_eq_grid, List.getElem?_map] at hweek
  cases hr : (List.range (teams.length - 1 + (teams.length - 1)))[w]? with
  | none => rw [hr] at hweek; exact absurd hweek (by simp)
  | some w' =>
    rw [hr] at hweek
    have hw' : w' = w := by
      obtain ⟨hlt, hval⟩ := List.getElem?_eq_some_iff.mp hr
      rw [List.getElem_range] at hval
      exact hval.symm
    subst hw'
    simp only [Option.map_some', Option.some.injEq] at hweek
    rw [← hweek, List.getElem?_map] at hm
    cases hi : (List.range (teams.length / 2))[i]? with
    | none => rw [hi] at hm; exact absurd hm (by simp)
    | some i' =>
      rw [hi] at hm
      have hi' : i' = i := by
        obtain ⟨hlt, hval⟩ := List.getElem?_eq_some_iff.mp hi
        rw [List.getElem_range] at hval
        exact hval.symm
      subst hi'
      simp only [Option.map_some', Option.some.injEq] at hm
      rw [← hm]
      exact scheduleMatch_id teams (by omega) w' i'

/-- C16: for an even number `N ≥ 2` of teams the match at position `i` of week
index `w` of the schedule has `ID = w * (N / 2) + i + 1` and `Week = w + 1`;
read week by week the IDs are `1, 2, ..., N (N - 1)`, so they are pairwise
distinct, start at one and cover exactly that range. -/
theorem generateFixtures_ids (teams : List Team) (heven : teams.length % 2 = 0)
    (hN : 2 ≤ teams.length) :
    ∃ fixtures, generateFixtures teams = some fixtures ∧
      (∀ (w i : Nat) (week : List Match) (m : Match),
        fixtures[w]? = some week → week[i]? = some m →
        m.ID = (w : Int) * ((teams.length / 2 : Nat) : Int) + (i : Int) + 1 ∧
          m.Week = (w : Int) + 1) ∧
      fixtures.flatten.map (fun m => m.ID) =
        (List.range (teams.length * (teams.length - 1))).map (fun (n : Nat) => (n : Int) + 1) ∧
      (fixtures.flatten.map (fun m => m.ID)).Nodup ∧
      ∀ id : Int, (∃ m ∈ fixtures.flatten, m.ID = id) ↔
        1 ≤ id ∧ id ≤ ((teams.length * (teams.length - 1) : Nat) : Int) := by
  refine ⟨_, generateFixtures_eq teams hN, ?_, schedule_ids teams heven hN, ?_,
    schedule_id_mem teams heven hN⟩
  · intro w i week m hweek hm
    exact schedule_index teams hN w i week m hweek hm
  · rw [schedule_ids teams heven hN]
    refine List.Nodup.map ?_ (List.nodup_range _)
    intro a b hab
    simp only at hab
    omega

theorem generateFixtures_ids_witness :
    ∃ fixtures, generateFixtures demoTeams = some fixtures ∧
      (∀ (w i : Nat) (week : List Match) (m : Match),
        fixtures[w]? = some week → week[i]? = some m →
        m.ID = (w : Int) * ((demoTeams.length / 2 : Nat) : Int) + (i : Int) + 1 ∧
          m.Week = (w : Int) + 1) ∧
      fixtures.flatten.map (fun m => m.ID) =
        (List.range (demoTeams.length * (demoTeams.length - 1))).map
          (fun (n : Nat) => (n : Int) + 1) ∧
      (fixtures.flatten.map (fun m => m.ID)).Nodup ∧
      ∀ id : Int, (∃ m ∈ fixtures.flatten, m.ID = id) ↔
        1 ≤ id ∧ id ≤ ((demoTeams.length * (demoTeams.length - 1) : Nat) : Int) :=
  generateFixtures_ids demoTeams (by decide) (by decide)

theorem editWeek_none_iff : ∀ (week : List Match) (matchID homeGoals awayGoals : Int),
    editWeek week matchID homeGoals awayGoals = none ↔ ∀ m ∈ week, m.ID ≠ matchID := by
  intro week
  induction week with
  | nil => intro matchID homeGoals awayGoals; simp [editWeek]
  | cons m rest ih =>
    intro matchID homeGoals awayGoals
    rw [editWeek]
    by_cases hid : m.ID = matchID
    · simp [hid]
    · rw [if_neg hid]
      have := ih matchID homeGoals awayGoals
      cases hrest : editWeek rest matchID homeGoals awayGoals with
      | none =>
        rw [hrest] at this
        simp only [true_iff] at this
        simp only [true_iff]
        intro m' hm'
        rcases List.mem_cons.mp hm' with rfl | hm'
        · exact hid
        · exact this m' hm'
      | some r =>
        rw [hrest] at this
        simp only [reduceCtorEq, false_iff] at this ⊢
        intro hall
        exact this (fun m' hm' => hall m' (List.mem_cons_of_mem _ hm'))

theorem editWeeks_none_iff : ∀ (weeks : List (List Match)) (matchID homeGoals awayGoals : Int),
    editWeeks weeks matchID homeGoals awayGoals = none ↔
      ∀ week ∈ weeks, ∀ m ∈ week, m.ID ≠ matchID := by
  intro weeks
  induction weeks with
  | nil => intro matchID homeGoals awayGoals; simp [editWeeks]
  | cons week rest ih =>
    intro matchID homeGoals awayGoals
    rw [editWeeks]
    have hw := editWeek_none_iff week matchID homeGoals awayGoals
    have hr := ih matchID homeGoals awayGoals
    cases hweek : editWeek week matchID homeGoals awayGoals with
    | some r =>
      rw [hweek] at hw
      simp only [reduceCtorEq, false_iff] at hw ⊢
      intro hall
      exact hw (hall week (List.mem_cons_self _ _))
    | none =>
      rw [hweek] at hw
      simp only [true_iff] at hw
      simp only []
      cases hrest : editWeeks rest matchID homeGoals awayGoals with
      | none =>
        rw [hrest] at hr
        simp only [true_iff] at hr ⊢
        intro week' hweek'
        rcases List.mem_cons.mp hweek' with rfl | hweek'
        · exact hw
        · exact hr week' hweek'
      | some r =>
        rw [hrest] at hr
        simp only [reduceCtorEq, false_iff] at hr ⊢
        intro hall
        exact hr (fun week' hweek' => hall week' (List.mem_cons_of_mem _ hweek'))

theorem editWeek_old : ∀ (week week' : List Match) (matchID homeGoals awayGoals : Int)
    (old : Match), editWeek week matchID homeGoals awayGoals = some (week', old) →
    old ∈ week ∧ old.ID = matchID := by
  intro week
  induction week with
  | nil => intro week' matchID homeGoals awayGoals old h; simp [editWeek] at h
  | cons m rest ih =>
    intro week' matchID homeGoals awayGoals old h
    rw [editWeek] at h
    split_ifs at h with hid
    · simp only [Option.some.injEq, Prod.mk.injEq] at h
      rw [← h.2]
      exact ⟨List.mem_cons_self _ _, hid⟩
    · split at h
      · exact absurd h (by simp)
      · rename_i rest' old' hrest
        simp only [Option.some.injEq, Prod.mk.injEq] at h
        rw [← h.2]
        obtain ⟨h1, h2⟩ := ih _ _ _ _ _ hrest
        exact ⟨List.mem_cons_of_mem _ h1, h2⟩

theorem editWeeks_old : ∀ (weeks weeks' : List (List Match)) (matchID homeGoals awayGoals : Int)
    (old : Match), editWeeks weeks matchID homeGoals awayGoals = some (weeks', old) →
    (∃ week ∈ weeks, old ∈ week) ∧ old.ID = matchID := by
  intro weeks
  induction weeks with
  | nil => intro weeks' matchID homeGoals awayGoals old h; simp [editWeeks] at h
  | cons week rest ih =>
    intro weeks' matchID homeGoals awayGoals old h
    rw [editWeeks] at h
    split at h
    · rename_i week' old' hweek
      simp only [Option.some.injEq, Prod.mk.injEq] at h
      rw [← h.2]
      obtain ⟨h1, h2⟩ := editWeek_old _ _ _ _ _ _ hweek
      exact ⟨⟨week, List.mem_cons_self _ _, h1⟩, h2⟩
    · split at h
      · exact absurd h (by simp)
      · rename_i rest' old' hrest
        simp only [Option.some.injEq, Prod.mk.injEq] at h
        rw [← h.2]
        obtain ⟨⟨wk, hwk, h1⟩, h2⟩ := ih _ _ _ _ _ hrest
        exact ⟨⟨wk, List.mem_cons_of_mem _ hwk, h1⟩, h2⟩

/-- With no match of the given ID the edit reports the error and returns the state it was given. -/
theorem EditMatchResult_notFound (s : SimulatorImpl) (matchID homeGoals awayGoals : Int)
    (h : ∀ week ∈ s.fixtures, ∀ m ∈ week, m.ID ≠ matchID) :
    EditMatchResult s matchID homeGoals awayGoals =
      some (some (EditError.notFound matchID), s) := by
  unfold EditMatchResult
  rw [(editWeeks_none_iff s.fixtures matchID homeGoals awayGoals).mpr h]

/-- With a match of the given ID, on a table that holds the teams of the
schedule, the edit returns without an error. -/
theorem EditMatchResult_found (s : SimulatorImpl) (matchID homeGoals awayGoals : Int)
    (hp : TeamsPresent s) (h : ∃ week ∈ s.fixtures, ∃ m ∈ week, m.ID = matchID) :
    ∃ (fixtures : List (List Match)) (old : Match) (s' : SimulatorImpl),
      editWeeks s.fixtures matchID homeGoals awayGoals = some (fixtures, old) ∧
      EditMatchResult s matchID homeGoals awayGoals = some (none, s') ∧
      s'.fixtures = fixtures ∧ s'.currentWeek = s.currentWeek ∧ s'.teams = s.teams := by
  cases hedit : editWeeks s.fixtures matchID homeGoals awayGoals with
  | none =>
    obtain ⟨week, hweek, m, hm, hid⟩ := h
    exact absurd hid ((editWeeks_none_iff _ _ _ _).mp hedit week hweek m hm)
  | some r =>
    obtain ⟨fixtures, old⟩ := r
    obtain ⟨⟨week, hweek, hold⟩, _⟩ := editWeeks_old _ _ _ _ _ _ hedit
    obtain ⟨p1, p2⟩ := hp week hweek old hold
    unfold EditMatchResult
    rw [hedit]
    simp only []
    by_cases hz : old.HomeGoals ≠ 0 ∨ old.AwayGoals ≠ 0
    · rw [if_pos hz]
      have hrev := reverseStandings_eq_some s.standings
        { ID := old.ID, Home := old.Home, Away := old.Away, HomeGoals := old.HomeGoals,
          AwayGoals := old.AwayGoals, Week := old.Week, Played := true } p1 p2
      rw [hrev]
      simp only []
      have hupd := updateStandings_eq_some
        (unapplyMatch s.standings
          { ID := old.ID, Home := old.Home, Away := old.Away, HomeGoals := old.HomeGoals,
            AwayGoals := old.AwayGoals, Week := old.Week, Played := true })
        { old with HomeGoals := homeGoals, AwayGoals := awayGoals, Played := true }
        (by rw [get_unapplyMatch_isSome]; exact p1)
        (by rw [get_unapplyMatch_isSome]; exact p2)
      rw [hupd]
      exact ⟨fixtures, old, _, rfl, rfl, rfl, rfl, rfl⟩
    · rw [if_neg hz]
      simp only []
      have hupd := updateStandings_eq_some s.standings
        { old with HomeGoals := homeGoals, AwayGoals := awayGoals, Played := true } p1 p2
      rw [hupd]
      exact ⟨fixtures, old, _, rfl, rfl, rfl, rfl, rfl⟩

theorem Reachable_ids (teams : List Team) (s0 s : SimulatorImpl)
    (heven : teams.length % 2 = 0) (hN : 2 ≤ teams.length)
    (h0 : NewSimulator teams = some s0) (hr : Reachable s0 s) (id : Int) :
    (∃ week ∈ s.fixtures, ∃ m ∈ week, m.ID = id) ↔
      1 ≤ id ∧ id ≤ ((teams.length * (teams.length - 1) : Nat) : Int) := by
  have hfix : s0.fixtures = firstLegWeeks teams ++ secondLegWeeks teams := by
    unfold NewSimulator at h0
    simp only [generateFixtures_eq teams hN] at h0
    rw [← Option.some.inj h0]
  have hreset := Reachable_reset s0 s hr
  rw [← schedule_id_mem teams heven hN id, ← hfix]
  constructor
  · rintro ⟨week', hweek', m', hm', hid⟩
    obtain ⟨week, hweek, m, hm, e, _⟩ := fixtures_of_reset s0 s hreset week' hweek' m' hm'
    exact ⟨m, List.mem_flatten.mpr ⟨week, hweek, hm⟩, by rw [← e]; exact hid⟩
  · rintro ⟨m, hm, hid⟩
    obtain ⟨week, hweek, hmw⟩ := List.mem_flatten.mp hm
    obtain ⟨week', hweek', m', hm', e, _⟩ := fixtures_of_reset s s0 hreset.symm week hweek m hmw
    exact ⟨week', hweek', m', hm', by rw [← e]; exact hid⟩

theorem EditMatchResult_error_unchanged (s s' : SimulatorImpl)
    (matchID homeGoals awayGoals : Int) (err : EditError)
    (h : EditMatchResult s matchID homeGoals awayGoals = some (some err, s')) :
    (∀ week ∈ s.fixtures, ∀ m ∈ week, m.ID ≠ matchID) ∧
      err = EditError.notFound matchID ∧ s' = s := by
  unfold EditMatchResult at h
  split at h
  · rename_i hedit
    simp only [Option.some.injEq, Prod.mk.injEq] at h
    exact ⟨(editWeeks_none_iff _ _ _ _).mp hedit, h.1.symm, h.2.symm⟩
  · simp only at h
    split at h
    · exact absurd h (by simp)
    · split at h
      · exact absurd h (by simp)
      · simp at h

/-- C12: in every state `EditMatchResult` returns an error exactly when no match
of any week has the given ID, and whenever it returns an error the state
afterwards, matches, standings and cursor, is the state before.  In a state
reachable from `NewSimulator` on an even number `N ≥ 2` of teams a match with
the ID exists exactly when `1 ≤ matchID ≤ N (N - 1)`, so the error is returned
exactly for the IDs outside that range, and the call always returns. -/
theorem EditMatchResult_error_iff (s : SimulatorImpl) (matchID homeGoals awayGoals : Int) :
    ((∃ err s', EditMatchResult s matchID homeGoals awayGoals = some (some err, s')) ↔
        ¬ ∃ week ∈ s.fixtures, ∃ m ∈ week, m.ID = matchID) ∧
      (∀ err s', EditMatchResult s matchID homeGoals awayGoals = some (some err, s') →
        s' = s ∧ s'.fixtures = s.fixtures ∧ s'.standings = s.standings ∧
          s'.currentWeek = s.currentWeek) ∧
      (∀ (teams : List Team) (s0 : SimulatorImpl), teams.length % 2 = 0 → 2 ≤ teams.length →
        NewSimulator teams = some s0 → Reachable s0 s →
        ((∃ week ∈ s.fixtures, ∃ m ∈ week, m.ID = matchID) ↔
          1 ≤ matchID ∧ matchID ≤ ((teams.length * (teams.length - 1) : Nat) : Int)) ∧
        ((∃ err s', EditMatchResult s matchID homeGoals awayGoals = some (some err, s')) ↔
          ¬ (1 ≤ matchID ∧ matchID ≤ ((teams.length * (teams.length - 1) : Nat) : Int))) ∧
        ∃ r, EditMatchResult s matchID homeGoals awayGoals = some r) := by
  have hiff : (∃ err s', EditMatchResult s matchID homeGoals awayGoals = some (some err, s')) ↔
      ¬ ∃ week ∈ s.fixtures, ∃ m ∈ week, m.ID = matchID := by
    constructor
    · rintro ⟨err, s', h⟩ ⟨week, hweek, m, hm, hid⟩
      exact (EditMatchResult_error_unchanged s s' matchID homeGoals awayGoals err h).1
        week hweek m hm hid
    · intro hno
      refine ⟨EditError.notFound matchID, s, EditMatchResult_notFound s matchID homeGoals awayGoals ?_⟩
      intro week hweek m hm hid
      exact hno ⟨week, hweek, m, hm, hid⟩
  refine ⟨hiff, ?_, ?_⟩
  · intro err s' h
    have e := (EditMatchResult_error_unchanged s s' matchID homeGoals awayGoals err h).2.2
    subst e
    exact ⟨rfl, rfl, rfl, rfl⟩
  · intro teams s0 heven hN h0 hr
    have hids := Reachable_ids teams s0 s heven hN h0 hr matchID
    refine ⟨hids, ?_, ?_⟩
    · rw [hiff, hids]
    · by_cases hex : ∃ week ∈ s.fixtures, ∃ m ∈ week, m.ID = matchID
      · obtain ⟨_, _, s', _, hrun, _⟩ := EditMatchResult_found s matchID homeGoals awayGoals
          (Reachable_present teams s0 s h0 hr) hex
        exact ⟨_, hrun⟩
      · obtain ⟨err, s', h⟩ := hiff.mpr hex
        exact ⟨_, h⟩

theorem EditMatchResult_error_iff_witness :
    demoTeams.length % 2 = 0 ∧ 2 ≤ demoTeams.length ∧
      NewSimulator demoTeams = some demoStart ∧
      ((∃ week ∈ demoEdited.fixtures, ∃ m ∈ week, m.ID = 13) ↔
        1 ≤ (13 : Int) ∧ (13 : Int) ≤ ((demoTeams.length * (demoTeams.length - 1) : Nat) : Int)) ∧
      ((∃ err s', EditMatchResult demoEdited 13 2 2 = some (some err, s')) ↔
        ¬ (1 ≤ (13 : Int) ∧
          (13 : Int) ≤ ((demoTeams.length * (demoTeams.length - 1) : Nat) : Int))) ∧
      ∃ r, EditMatchResult demoEdited 13 2 2 = some r :=
  ⟨by decide, by decide, by decide,
   (EditMatchResult_error_iff demoEdited 13 2 2).2.2 demoTeams demoStart (by decide) (by decide)
     (by decide)
     (Reachable.editMatchResult Reachable.init
       (by decide : EditMatchResult demoStart 1 2 1 = some (none, demoEdited)))⟩

theorem applyMatch_consistent (T : StandingsMap) (m : Match) (h : TableConsistent T) :
    TableConsistent (applyMatch T m) := by
  intro e' he'
  unfold applyMatch at he'
  simp only [StandingsMap.modify, List.map_map] at he'
  rcases lt_trichotomy m.HomeGoals m.AwayGoals with hlt | heq | hgt
  · have hn : ¬ (m.HomeGoals > m.AwayGoals) := by omega
    simp only [hn, hlt, if_true, if_false, List.map_map] at he'
    obtain ⟨e, he, rfl⟩ := List.mem_map.mp he'
    obtain ⟨k, t, p, w, d, l, gf, ga, gd, pts⟩ := e
    have hc : p = w + d + l ∧ gd = wrapInt64 (gf - ga) ∧ pts = 3 * w + d ∧
        IsInt64 gf ∧ IsInt64 ga ∧ IsInt64 gd := h _ he
    unfold IsInt64 at hc
    clear he'
    unfold Standing.Consistent IsInt64
    simp only [Function.comp]
    by_cases h1 : k = m.Home.ID
    · by_cases h2 : k = m.Away.ID
      · simp only [eq_true h1, eq_true h2, if_true]
        refine ⟨?_, ?_, ?_, ?_, ?_, ?_⟩ <;>
          first | trivial | omega | (simp only [wrapInt64]; omega)
      · simp only [eq_true h1, eq_false h2, if_true, if_false]
        refine ⟨?_, ?_, ?_, ?_, ?_, ?_⟩ <;>
          first | trivial | omega | (simp only [wrapInt64]; omega)
    · by_cases h2 : k = m.Away.ID
      · simp only [eq_false h1, eq_true h2, if_true, if_false]
        refine ⟨?_, ?_, ?_, ?_, ?_, ?_⟩ <;>
          first | trivial | omega | (simp only [wrapInt64]; omega)
      · simp only [eq_false h1, eq_false h2, if_false]
        refine ⟨?_, ?_, ?_, ?_, ?_, ?_⟩ <;> first | trivial | omega
  · have hn : ¬ (m.HomeGoals > m.AwayGoals) := by omega
    have hn2 : ¬ (m.HomeGoals < m.AwayGoals) := by omega
    simp only [hn, hn2, if_false, List.map_map] at he'
    obtain ⟨e, he, rfl⟩ := List.mem_map.mp he'
    obtain ⟨k, t, p, w, d, l, gf, ga, gd, pts⟩ := e
    have hc : p = w + d + l ∧ gd = wrapInt64 (gf - ga) ∧ pts = 3 * w + d ∧
        IsInt64 gf ∧ IsInt64 ga ∧ IsInt64 gd := h _ he
    unfold IsInt64 at hc
    clear he'
    unfold Standing.Consistent IsInt64
    simp only [Function.comp]
    by_cases h1 : k = m.Home.ID
    · by_cases h2 : k = m.Away.ID
      · simp only [eq_true h1, eq_true h2, if_true]
        refine ⟨?_, ?_, ?_, ?_, ?_, ?_⟩ <;>
          first | trivial | omega | (simp only [wrapInt64]; omega)
      · simp only [eq_true h1, eq_false h2, if_true, if_false]
        refine ⟨?_, ?_, ?_, ?_, ?_, ?_⟩ <;>
          first | trivial | omega | (simp only [wrapInt64]; omega)
    · by_cases h2 : k = m.Away.ID
      · simp only [eq_false h1, eq_true h2, if_true, if_false]
        refine ⟨?_, ?_, ?_, ?_, ?_, ?_⟩ <;>
          first | trivial | omega | (simp only [wrapInt64]; omega)
      · simp only [eq_false h1, eq_false h2, if_false]
        refine ⟨?_, ?_, ?_, ?_, ?_, ?_⟩ <;> first | trivial | omega
  · simp only [hgt, if_true, List.map_map] at he'
    obtain ⟨e, he, rfl⟩ := List.mem_map.mp he'
    obtain ⟨k, t, p, w, d, l, gf, ga, gd, pts⟩ := e
    have hc : p = w + d + l ∧ gd = wrapInt64 (gf - ga) ∧ pts = 3 * w + d ∧
        IsInt64 gf ∧ IsInt64 ga ∧ IsInt64 gd := h _ he
    unfold IsInt64 at hc
    clear he'
    unfold Standing.Consistent IsInt64
    simp only [Function.comp]
    by_cases h1 : k = m.Home.ID
    · by_cases h2 : k = m.Away.ID
      · simp only [eq_true h1, eq_true h2, if_true]
        refine ⟨?_, ?_, ?_, ?_, ?_, ?_⟩ <;>
          first | trivial | omega | (simp only [wrapInt64]; omega)
      · simp only [eq_true h1, eq_false h2, if_true, if_false]
        refine ⟨?_, ?_, ?_, ?_, ?_, ?_⟩ <;>
          first | trivial | omega | (simp only [wrapInt64]; omega)
    · by_cases h2 : k = m.Away.ID
      · simp only [eq_false h1, eq_true h2, if_true, if_false]
        refine ⟨?_, ?_, ?_, ?_, ?_, ?_⟩ <;>
          first | trivial | omega | (simp only [wrapInt64]; omega)
      · simp only [eq_false h1, eq_false h2, if_false]
        refine ⟨?_, ?_, ?_, ?_, ?_, ?_⟩ <;> first | trivial | omega

theorem unapplyMatch_consistent (T : StandingsMap) (m : Match) (h : TableConsistent T) :
    TableConsistent (unapplyMatch T m) := by
  intro e' he'
  unfold unapplyMatch at he'
  simp only [StandingsMap.modify, List.map_map] at he'
  rcases lt_trichotomy m.HomeGoals m.AwayGoals with hlt | heq | hgt
  · have hn : ¬ (m.HomeGoals > m.AwayGoals) := by omega
    simp only [hn, hlt, if_true, if_false, List.map_map] at he'
    obtain ⟨e, he, rfl⟩ := List.mem_map.mp he'
    obtain ⟨k, t, p, w, d, l, gf, ga, gd, pts⟩ := e
    have hc : p = w + d + l ∧ gd = wrapInt64 (gf - ga) ∧ pts = 3 * w + d ∧
        IsInt64 gf ∧ IsInt64 ga ∧ IsInt64 gd := h _ he
    unfold IsInt64 at hc
    clear he'
    unfold Standing.Consistent IsInt64
    simp only [Function.comp]
    by_cases h1 : k = m.Home.ID
    · by_cases h2 : k = m.Away.ID
      · simp only [eq_true h1, eq_true h2, if_true]
        refine ⟨?_, ?_, ?_, ?_, ?_, ?_⟩ <;>
          first | trivial | omega | (simp only [wrapInt64]; omega)
      · simp only [eq_true h1, eq_false h2, if_true, if_false]
        refine ⟨?_, ?_, ?_, ?_, ?_, ?_⟩ <;>
          first | trivial | omega | (simp only [wrapInt64]; omega)
    · by_cases h2 : k = m.Away.ID
      · simp only [eq_false h1, eq_true h2, if_true, if_false]
        refine ⟨?_, ?_, ?_, ?_, ?_, ?_⟩ <;>
          first | trivial | omega | (simp only [wrapInt64]; omega)
      · simp only [eq_false h1, eq_false h2, if_false]
        refine ⟨?_, ?_, ?_, ?_, ?_, ?_⟩ <;> first | trivial | omega
  · have hn : ¬ (m.HomeGoals > m.AwayGoals) := by omega
    have hn2 : ¬ (m.HomeGoals < m.AwayGoals) := by omega
    simp only [hn, hn2, if_false, List.map_map] at he'
    obtain ⟨e, he, rfl⟩ := List.mem_map.mp he'
    obtain ⟨k, t, p, w, d, l, gf, ga, gd, pts⟩ := e
    have hc : p = w + d + l ∧ gd = wrapInt64 (gf - ga) ∧ pts = 3 * w + d ∧
        IsInt64 gf ∧ IsInt64 ga ∧ IsInt64 gd := h _ he
    unfold IsInt64 at hc
    clear he'
    unfold Standing.Consistent IsInt64
    simp only [Function.comp]
    by_cases h1 : k = m.Home.ID
    · by_cases h2 : k = m.Away.ID
      · simp only [eq_true h1, eq_true h2, if_true]
        refine ⟨?_, ?_, ?_, ?_, ?_, ?_⟩ <;>
          first | trivial | omega | (simp only [wrapInt64]; omega)
      · simp only [eq_true h1, eq_false h2, if_true, if_false]
        refine ⟨?_, ?_, ?_, ?_, ?_, ?_⟩ <;>
          first | trivial | omega | (simp only [wrapInt64]; omega)
    · by_cases h2 : k = m.Away.ID
      · simp only [eq_false h1, eq_true h2, if_true, if_false]
        refine ⟨?_, ?_, ?_, ?_, ?_, ?_⟩ <;>
          first | trivial | omega | (simp only [wrapInt64]; omega)
      · simp only [eq_false h1, eq_false h2, if_false]
        refine ⟨?_, ?_, ?_, ?_, ?_, ?_⟩ <;> first | trivial | omega
  · simp only [hgt, if_true, List.map_map] at he'
    obtain ⟨e, he, rfl⟩ := List.mem_map.mp he'
    obtain ⟨k, t, p, w, d, l, gf, ga, gd, pts⟩ := e
    have hc : p = w + d + l ∧ gd = wrapInt64 (gf - ga) ∧ pts = 3 * w + d ∧
        IsInt64 gf ∧ IsInt64 ga ∧ IsInt64 gd := h _ he
    unfold IsInt64 at hc
    clear he'
    unfold Standing.Consistent IsInt64
    simp only [Function.comp]
    by_cases h1 : k = m.Home.ID
    · by_cases h2 : k = m.Away.ID
      · simp only [eq_true h1, eq_true h2, if_true]
        refine ⟨?_, ?_, ?_, ?_, ?_, ?_⟩ <;>
          first | trivial | omega | (simp only [wrapInt64]; omega)
      · simp only [eq_true h1, eq_false h2, if_true, if_false]
        refine ⟨?_, ?_, ?_, ?_, ?_, ?_⟩ <;>
          first | trivial | omega | (simp only [wrapInt64]; omega)
    · by_cases h2 : k = m.Away.ID
      · simp only [eq_false h1, eq_true h2, if_true, if_false]
        refine ⟨?_, ?_, ?_, ?_, ?_, ?_⟩ <;>
          first | trivial | omega | (simp only [wrapInt64]; omega)
      · simp only [eq_false h1, eq_false h2, if_false]
        refine ⟨?_, ?_, ?_, ?_, ?_, ?_⟩ <;> first | trivial | omega

theorem updateStandings_consistent (T T' : StandingsMap) (m : Match)
    (hu : updateStandings T m = some T') (h : TableConsistent T) : TableConsistent T' := by
  unfold updateStandings at hu
  split at hu
  · rw [← Option.some.inj hu]; exact applyMatch_consistent T m h
  · exact absurd hu (by simp)

theorem reverseStandings_consistent (T T' : StandingsMap) (m : Match)
    (hu : reverseStandings T m = some T') (h : TableConsistent T) : TableConsistent T' := by
  unfold reverseStandings at hu
  split at hu
  · rw [← Option.some.inj hu]; exact unapplyMatch_consistent T m h
  · exact absurd hu (by simp)

theorem clearStandings_consistent (T : StandingsMap) : TableConsistent (clearStandings T) := by
  intro e he
  unfold clearStandings at he
  obtain ⟨e0, _, rfl⟩ := List.mem_map.mp he
  unfold Standing.Consistent IsInt64 clearStanding
  simp only [sub_self, wrapInt64_zero]
  decide

theorem simulateWeekLoop_consistent :
    ∀ (rest done : List Match) (T : StandingsMap) (allPlayed : Bool) (draws : Draws)
      (week : List Match) (T' : StandingsMap) (allPlayed' : Bool) (draws' : Draws),
      simulateWeekLoop rest done T allPlayed draws = some (week, T', allPlayed', draws') →
      TableConsistent T → TableConsistent T' := by
  intro rest
  induction rest with
  | nil =>
    intro done T allPlayed draws week T' allPlayed' draws' h hT
    simp only [simulateWeekLoop, Option.some.injEq, Prod.mk.injEq] at h
    rw [← h.2.1]; exact hT
  | cons m rest ih =>
    intro done T allPlayed draws week T' allPlayed' draws' h hT
    rw [simulateWeekLoop] at h
    split_ifs at h with hp
    · simp only [simulateMatch] at h
      split at h
      · exact absurd h (by simp)
      · rename_i T1 hT1
        exact ih _ _ _ _ _ _ _ _ h (updateStandings_consistent _ _ _ hT1 hT)
    · exact ih _ _ _ _ _ _ _ _ h hT

theorem SimulateWeek_consistent (s s' : SimulatorImpl) (draws draws' : Draws) (played : Bool)
    (h : SimulateWeek s draws = some (played, s', draws'))
    (hT : TableConsistent s.standings) : TableConsistent s'.standings := by
  unfold SimulateWeek at h
  split_ifs at h with hc
  · simp only [Option.some.injEq, Prod.mk.injEq] at h
    rw [← h.2.1]; exact hT
  · split at h
    · exact absurd h (by simp)
    · split at h
      · exact absurd h (by simp)
      · rename_i week' T' allPlayed' d' hloop
        simp only [Option.some.injEq, Prod.mk.injEq] at h
        rw [← h.2.1]
        exact simulateWeekLoop_consistent _ _ _ _ _ _ _ _ _ hloop hT

theorem SimulateAllLoop_consistent :
    ∀ (fuel : Nat) (s s' : SimulatorImpl) (draws : Draws) (calls calls' : Nat),
      SimulateAllLoop fuel s draws calls = LoopResult.returned s' calls' →
      TableConsistent s.standings → TableConsistent s'.standings := by
  intro fuel
  induction fuel with
  | zero => intro s s' draws calls calls' h; simp [SimulateAllLoop] at h
  | succ fuel ih =>
    intro s s' draws calls calls' h hT
    rw [SimulateAllLoop] at h
    split at h
    · exact absurd h (by simp)
    · rename_i s1 d1 hw
      exact ih _ _ _ _ _ h (SimulateWeek_consistent _ _ _ _ _ hw hT)
    · rename_i s1 d1 hw
      simp only [LoopResult.returned.injEq] at h
      rw [← h.1]
      exact SimulateWeek_consistent _ _ _ _ _ hw hT

theorem EditMatchResult_consistent (s s' : SimulatorImpl) (matchID homeGoals awayGoals : Int)
    (err : Option EditError)
    (h : EditMatchResult s matchID homeGoals awayGoals = some (err, s'))
    (hT : TableConsistent s.standings) : TableConsistent s'.standings := by
  unfold EditMatchResult at h
  split at h
  · simp only [Option.some.injEq, Prod.mk.injEq] at h
    rw [← h.2]; exact hT
  · simp only at h
    split at h
    · exact absurd h (by simp)
    · rename_i T1 hT1
      split at h
      · exact absurd h (by simp)
      · rename_i T2 hT2
        simp only [Option.some.injEq, Prod.mk.injEq] at h
        rw [← h.2]
        have e1 : TableConsistent T1 := by
          split_ifs at hT1
          · exact reverseStandings_consistent _ _ _ hT1 hT
          · rw [← Option.some.inj hT1]; exact hT
        exact updateStandings_consistent _ _ _ hT2 e1

theorem replay_consistent : ∀ (ms : List Match) (T T' : StandingsMap),
    replay ms T = some T' → TableConsistent T → TableConsistent T' := by
  intro ms
  induction ms with
  | nil => intro T T' h hT; rw [← Option.some.inj h]; exact hT
  | cons m rest ih =>
    intro T T' h hT
    rw [replay] at h
    split at h
    · exact absurd h (by simp)
    · rename_i T1 hT1
      exact ih _ _ h (updateStandings_consistent _ _ _ hT1 hT)

theorem RecalculateStandings_consistent (s s' : SimulatorImpl)
    (h : RecalculateStandings s = some s') : TableConsistent s'.standings := by
  unfold RecalculateStandings at h
  split at h
  · exact absurd h (by simp)
  · rename_i T hT
    rw [← Option.some.inj h]
    rw [recalcWeeks_eq_replay] at hT
    exact replay_consistent _ _ _ hT (clearStandings_consistent _)

theorem NewSimulator_consistent (teams : List Team) (s0 : SimulatorImpl)
    (h : NewSimulator teams = some s0) : TableConsistent s0.standings := by
  have h1 := NewSimulator_reset teams s0 h
  have h2 : clearStandings s0.standings = s0.standings := by
    have := congrArg SimulatorImpl.standings h1
    simpa [Reset] using this
  rw [← h2]
  exact clearStandings_consistent _

/-- C15, the claim fails: `EditMatchResult(1, 9223372036854775807, -1)` on the
fresh league leaves team 1 with `GoalsFor = 9223372036854775807`,
`GoalsAgainst = -1` and `GoalDiff = -9223372036854775808`, while
`GoalsFor - GoalsAgainst` is `9223372036854775808`: the difference wraps around
in Go's `int`. -/
theorem goal_difference_wraps :
    Reachable demoStart demoHugeScore ∧
      (demoHugeScore.standings.get 1).map
          (fun st => (st.GoalsFor, st.GoalsAgainst, st.GoalDiff)) =
        some (9223372036854775807, -1, -9223372036854775808) ∧
      (demoHugeScore.standings.get 1).map (fun st => st.GoalsFor - st.GoalsAgainst) =
        some 9223372036854775808 ∧
      ¬ ∀ e ∈ demoHugeScore.standings, e.2.GoalDiff = e.2.GoalsFor - e.2.GoalsAgainst := by
  refine ⟨?_, by decide, by decide, by decide⟩
  exact Reachable.editMatchResult Reachable.init
    (by decide : EditMatchResult demoStart 1 9223372036854775807 (-1) =
      some (none, demoHugeScore))

/-- C15, amended: in every state reachable from a state that `NewSimulator`
constructs, by `SimulateWeek`, `SimulateAll`, `EditMatchResult`,
`RecalculateStandings` and `Reset`, every standing satisfies
`Played = Won + Drawn + Lost` and `Points = 3 * Won + Drawn`; its three goal
counters are values of `int`, and `GoalDiff` is `GoalsFor - GoalsAgainst` as
Go's `int` stores it, reduced modulo `2 ^ 64` into the range of `int`: it is the
exact difference whenever that is a value of `int`. -/
theorem Reachable_standings_consistent (teams : List Team) (s0 s : SimulatorImpl)
    (h0 : NewSimulator teams = some s0) (hr : Reachable s0 s) :
    ∀ e ∈ s.standings,
      e.2.Played = e.2.Won + e.2.Drawn + e.2.Lost ∧
        e.2.Points = 3 * e.2.Won + e.2.Drawn ∧
        IsInt64 e.2.GoalsFor ∧ IsInt64 e.2.GoalsAgainst ∧ IsInt64 e.2.GoalDiff ∧
        e.2.GoalDiff = wrapInt64 (e.2.GoalsFor - e.2.GoalsAgainst) ∧
        (IsInt64 (e.2.GoalsFor - e.2.GoalsAgainst) →
          e.2.GoalDiff = e.2.GoalsFor - e.2.GoalsAgainst) := by
  have key : TableConsistent s.standings := by
    induction hr with
    | init => exact NewSimulator_consistent teams s0 h0
    | simulateWeek _ hstep ih => exact SimulateWeek_consistent _ _ _ _ _ hstep ih
    | simulateAll _ hstep ih => exact SimulateAllLoop_consistent _ _ _ _ _ _ hstep ih
    | editMatchResult _ hstep ih => exact EditMatchResult_consistent _ _ _ _ _ _ hstep ih
    | recalculateStandings _ hstep _ => exact RecalculateStandings_consistent _ _ hstep
    | reset _ _ => exact clearStandings_consistent _
  intro e he
  obtain ⟨c1, c2, c3, c4, c5, c6⟩ := key e he
  refine ⟨c1, c3, c4, c5, c6, c2, ?_⟩
  intro hrange
  rw [c2, wrapInt64_of_isInt64 _ hrange]

theorem Reachable_standings_consistent_witness :
    NewSimulator demoTeams = some demoStart ∧
      ∀ e ∈ demoHugeScore.standings,
        e.2.Played = e.2.Won + e.2.Drawn + e.2.Lost ∧
          e.2.Points = 3 * e.2.Won + e.2.Drawn ∧
          IsInt64 e.2.GoalsFor ∧ IsInt64 e.2.GoalsAgainst ∧ IsInt64 e.2.GoalDiff ∧
          e.2.GoalDiff = wrapInt64 (e.2.GoalsFor - e.2.GoalsAgainst) ∧
          (IsInt64 (e.2.GoalsFor - e.2.GoalsAgainst) →
            e.2.GoalDiff = e.2.GoalsFor - e.2.GoalsAgainst) :=
  ⟨by decide,
   Reachable_standings_consistent demoTeams demoStart demoHugeScore (by decide)
     (Reachable.editMatchResult Reachable.init
       (by decide : EditMatchResult demoStart 1 9223372036854775807 (-1) =
         some (none, demoHugeScore)))⟩

/-- C11, the code at the failing input: in `demoGoalless` match 1 is played with
the score 0-0 and both of its teams stand at one game played.
`EditMatchResult(1, 1, 0)` finds both old goal counts zero, reverses nothing and
applies the new result, so both teams stand at two games played afterwards. -/
theorem edit_goalless_match_raises_played :
    Reachable demoStart demoGoalless ∧
      (demoGoalless.fixtures.flatten.filter (fun m => decide (m.ID = 1))).map
          (fun m => (m.Home.ID, m.Away.ID, m.HomeGoals, m.AwayGoals, m.Played)) =
        [(1, 4, 0, 0, true)] ∧
      EditMatchResult demoGoalless 1 1 0 = some (none, demoReedited) ∧
      (demoGoalless.standings.get 1).map (fun st => st.Played) = some 1 ∧
      (demoReedited.standings.get 1).map (fun st => st.Played) = some 2 ∧
      (demoGoalless.standings.get 4).map (fun st => st.Played) = some 1 ∧
      (demoReedited.standings.get 4).map (fun st => st.Played) = some 2 := by
  refine ⟨?_, by decide, by decide, by decide, by decide, by decide, by decide⟩
  exact Reachable.editMatchResult Reachable.init
    (by decide : EditMatchResult demoStart 1 0 0 = some (none, demoGoalless))

theorem truncToInt_nonneg (x : ℚ) (hx : 0 ≤ x) :
    (truncToInt x : ℚ) ≤ x ∧ x < truncToInt x + 1 := by
  unfold truncToInt
  rw [if_pos hx]
  exact ⟨Int.floor_le x, Int.lt_floor_add_one x⟩

theorem truncToInt_neg (x : ℚ) (hx : x < 0) :
    x ≤ truncToInt x ∧ (truncToInt x : ℚ) < x + 1 := by
  unfold truncToInt
  rw [if_neg (not_le.mpr hx)]
  exact ⟨Int.le_ceil x, Int.ceil_lt_add_one x⟩

theorem randomGoals_eq_min (draw : Int) : randomGoals draw = min 5 draw := by
  unfold randomGoals
  split_ifs with h
  · rw [min_eq_left (le_of_lt h)]
  · rw [min_eq_right (not_lt.mp h)]

theorem pow2_eq_zpow (e : Int) : pow2 e = (2 : ℚ) ^ e := by
  unfold pow2
  split_ifs with h
  · obtain ⟨n, rfl⟩ := Int.eq_ofNat_of_zero_le h
    simp
  · obtain ⟨n, hn⟩ := Int.eq_ofNat_of_zero_le (by omega : 0 ≤ -e)
    have e1 : e = -(n : Int) := by omega
    subst e1
    simp

theorem pow2_pos (e : Int) : 0 < pow2 e := by
  rw [pow2_eq_zpow]
  exact zpow_pos (by norm_num) e

theorem pow2_add_one (e : Int) : pow2 (e + 1) = 2 * pow2 e := by
  rw [pow2_eq_zpow, pow2_eq_zpow, zpow_add_one₀ (by norm_num : (2 : ℚ) ≠ 0)]
  ring

theorem pow2_sub_natCast (a b : Nat) : pow2 ((a : Int) - (b : Int)) = (2 : ℚ) ^ a / (2 : ℚ) ^ b := by
  rw [pow2_eq_zpow, zpow_sub₀ (by norm_num : (2 : ℚ) ≠ 0), zpow_natCast, zpow_natCast]

theorem bitLengthLoop_zero (fuel : Nat) : bitLengthLoop fuel 0 = 0 := by
  cases fuel <;> simp [bitLengthLoop]

theorem bitLengthLoop_spec : ∀ (fuel n : Nat), n ≤ fuel →
    n < 2 ^ bitLengthLoop fuel n ∧ (0 < n → 2 ^ bitLengthLoop fuel n ≤ 2 * n) := by
  intro fuel
  induction fuel with
  | zero =>
    intro n h
    have h0 : n = 0 := by omega
    subst h0
    simp [bitLengthLoop]
  | succ fuel ih =>
    intro n h
    by_cases h0 : n = 0
    · subst h0
      simp [bitLengthLoop]
    · rw [bitLengthLoop, if_neg h0]
      obtain ⟨a, b⟩ := ih (n / 2) (by omega)
      rw [pow_succ]
      constructor
      · omega
      · intro _
        by_cases h1 : 0 < n / 2
        · have := b h1
          omega
        · have e : n / 2 = 0 := by omega
          rw [e, bitLengthLoop_zero]
          simp
          omega

/-- The number of binary digits: `2 ^ (bitLength n - 1) ≤ n < 2 ^ bitLength n`
for `n > 0`, stated without subtraction. -/
theorem bitLength_spec (n : Nat) (h : 0 < n) :
    n < 2 ^ bitLength n ∧ 2 ^ bitLength n ≤ 2 * n :=
  ⟨(bitLengthLoop_spec n n (le_refl n)).1, (bitLengthLoop_spec n n (le_refl n)).2 h⟩

/-- The binary exponent `e` of `x ≠ 0` satisfies `2 ^ e ≤ |x| < 2 ^ (e + 1)`. -/
theorem binaryExponent_spec (x : ℚ) (h0 : x ≠ 0) :
    pow2 (binaryExponent x) ≤ |x| ∧ |x| < pow2 (binaryExponent x + 1) := by
  have hnum : x.num ≠ 0 := Rat.num_ne_zero.mpr h0
  have hp : 0 < x.num.natAbs := Int.natAbs_pos.mpr hnum
  have hq : 0 < x.den := x.den_pos
  obtain ⟨p1, p2⟩ := bitLength_spec x.num.natAbs hp
  obtain ⟨q1, q2⟩ := bitLength_spec x.den hq
  have habs : |x| = (x.num.natAbs : ℚ) / (x.den : ℚ) := by
    conv_lhs => rw [← Rat.num_div_den x]
    rw [abs_div, Nat.cast_natAbs, abs_of_pos (by exact_mod_cast hq : (0 : ℚ) < (x.den : ℚ))]
    simp
  have hqpos : (0 : ℚ) < (x.den : ℚ) := by exact_mod_cast hq
  have hppos : (0 : ℚ) < (x.num.natAbs : ℚ) := by exact_mod_cast hp
  have P1 : (x.num.natAbs : ℚ) < (2 : ℚ) ^ bitLength x.num.natAbs := by exact_mod_cast p1
  have P2 : (2 : ℚ) ^ bitLength x.num.natAbs ≤ 2 * (x.num.natAbs : ℚ) := by exact_mod_cast p2
  have Q1 : (x.den : ℚ) < (2 : ℚ) ^ bitLength x.den := by exact_mod_cast q1
  have Q2 : (2 : ℚ) ^ bitLength x.den ≤ 2 * (x.den : ℚ) := by exact_mod_cast q2
  have hA : (0 : ℚ) < (2 : ℚ) ^ bitLength x.num.natAbs := by positivity
  have hB : (0 : ℚ) < (2 : ℚ) ^ bitLength x.den := by positivity
  have hE : pow2 ((bitLength x.num.natAbs : Int) - (bitLength x.den : Int)) =
      (2 : ℚ) ^ bitLength x.num.natAbs / (2 : ℚ) ^ bitLength x.den := pow2_sub_natCast _ _
  have lower : (2 : ℚ) ^ bitLength x.num.natAbs / (2 : ℚ) ^ bitLength x.den / 2 ≤
      (x.num.natAbs : ℚ) / (x.den : ℚ) := by
    rw [div_div, div_le_div_iff₀ (by positivity) hqpos]
    nlinarith
  have upper : (x.num.natAbs : ℚ) / (x.den : ℚ) <
      2 * ((2 : ℚ) ^ bitLength x.num.natAbs / (2 : ℚ) ^ bitLength x.den) := by
    rw [← mul_div_assoc, div_lt_div_iff₀ hqpos hB]
    nlinarith
  unfold binaryExponent
  simp only []
  split_ifs with hc
  · refine ⟨hc, ?_⟩
    rw [pow2_add_one, hE, habs]
    exact upper
  · have hc' := not_le.mp hc
    have e1 : (bitLength x.num.natAbs : Int) - (bitLength x.den : Int) - 1 + 1 =
        (bitLength x.num.natAbs : Int) - (bitLength x.den : Int) := by ring
    constructor
    · have e2 := pow2_add_one ((bitLength x.num.natAbs : Int) - (bitLength x.den : Int) - 1)
      rw [e1, hE] at e2
      have e3 : pow2 ((bitLength x.num.natAbs : Int) - (bitLength x.den : Int) - 1) =
          (2 : ℚ) ^ bitLength x.num.natAbs / (2 : ℚ) ^ bitLength x.den / 2 := by
        linarith
      rw [e3, habs]
      exact lower
    · rw [e1]
      exact hc'

theorem roundHalfEven_near (x : ℚ) : |(roundHalfEven x : ℚ) - x| ≤ 1 / 2 := by
  unfold roundHalfEven
  have h1 := Int.floor_le x
  have h2 := Int.lt_floor_add_one x
  simp only []
  split_ifs with a b c
  · rw [abs_le]; constructor <;> linarith
  · push_cast; rw [abs_le]; constructor <;> linarith
  · rw [abs_le]; constructor <;> linarith
  · push_cast; rw [abs_le]; constructor <;> linarith

theorem roundHalfEven_neg (x : ℚ) : roundHalfEven (-x) = -roundHalfEven x := by
  have h1 := Int.floor_le x
  have h2 := Int.lt_floor_add_one x
  by_cases hint : x = (⌊x⌋ : ℚ)
  · have hf : ⌊-x⌋ = -⌊x⌋ := by
      rw [Int.floor_eq_iff]
      push_cast
      constructor <;> linarith
    unfold roundHalfEven
    simp only [hf]
    have e1 : -x - ((-⌊x⌋ : Int) : ℚ) < 1 / 2 := by push_cast; linarith
    have e2 : x - (⌊x⌋ : ℚ) < 1 / 2 := by linarith
    rw [if_pos e1, if_pos e2]
  · have hlt : (⌊x⌋ : ℚ) < x := lt_of_le_of_ne h1 (fun h => hint h.symm)
    have hf : ⌊-x⌋ = -⌊x⌋ - 1 := by
      rw [Int.floor_eq_iff]
      push_cast
      constructor <;> linarith
    unfold roundHalfEven
    simp only [hf]
    have e0 : -x - ((-⌊x⌋ - 1 : Int) : ℚ) = 1 - (x - (⌊x⌋ : ℚ)) := by push_cast; ring
    rw [e0]
    by_cases c1 : x - (⌊x⌋ : ℚ) < 1 / 2
    · have d1 : ¬ (1 - (x - (⌊x⌋ : ℚ)) < 1 / 2) := by linarith
      have d2 : 1 - (x - (⌊x⌋ : ℚ)) > 1 / 2 := by linarith
      rw [if_pos c1, if_neg d1, if_pos d2]
      omega
    · by_cases c2 : x - (⌊x⌋ : ℚ) > 1 / 2
      · have d1 : 1 - (x - (⌊x⌋ : ℚ)) < 1 / 2 := by linarith
        rw [if_neg c1, if_pos c2, if_pos d1]
        omega
      · have d1 : ¬ (1 - (x - (⌊x⌋ : ℚ)) < 1 / 2) := by linarith
        have d2 : ¬ (1 - (x - (⌊x⌋ : ℚ)) > 1 / 2) := by linarith
        rw [if_neg c1, if_neg c2, if_neg d1, if_neg d2]
        split_ifs <;> omega

theorem binaryExponent_neg (x : ℚ) : binaryExponent (-x) = binaryExponent x := by
  unfold binaryExponent
  simp only [Rat.neg_num, Rat.neg_den, Int.natAbs_neg, abs_neg]

/-- Rounding to `float64` commutes with the change of sign. -/
theorem toFloat64_neg (x : ℚ) : toFloat64 (-x) = -toFloat64 x := by
  unfold toFloat64
  by_cases h0 : x = 0
  · simp [h0]
  · have h0' : ¬ (-x = 0) := by simpa using h0
    rw [if_neg h0, if_neg h0']
    simp only [binaryExponent_neg, neg_div, roundHalfEven_neg]
    push_cast
    ring

/-- The rounded value lies within half a spacing of the exact one. -/
theorem toFloat64_near (x : ℚ) (h0 : x ≠ 0) :
    |toFloat64 x - x| ≤ pow2 (max (binaryExponent x) (-1022) - 52) / 2 := by
  unfold toFloat64
  rw [if_neg h0]
  simp only []
  have hu := pow2_pos (max (binaryExponent x) (-1022) - 52)
  have hr := roundHalfEven_near (x / pow2 (max (binaryExponent x) (-1022) - 52))
  have e : (roundHalfEven (x / pow2 (max (binaryExponent x) (-1022) - 52)) : ℚ) *
      pow2 (max (binaryExponent x) (-1022) - 52) - x =
      ((roundHalfEven (x / pow2 (max (binaryExponent x) (-1022) - 52)) : ℚ) -
        x / pow2 (max (binaryExponent x) (-1022) - 52)) *
        pow2 (max (binaryExponent x) (-1022) - 52) := by
    field_simp
  rw [e, abs_mul, abs_of_pos hu]
  calc |(roundHalfEven (x / pow2 (max (binaryExponent x) (-1022) - 52)) : ℚ) -
        x / pow2 (max (binaryExponent x) (-1022) - 52)| *
        pow2 (max (binaryExponent x) (-1022) - 52)
      ≤ 1 / 2 * pow2 (max (binaryExponent x) (-1022) - 52) :=
        mul_le_mul_of_nonneg_right hr (le_of_lt hu)
    _ = pow2 (max (binaryExponent x) (-1022) - 52) / 2 := by ring

/-- The rounding at the values the projection meets for 7 points from 6 games
against 4 points from 6 games: the exact difference of the quotients is `1/2`,
the `float64` difference is `1/2 + 2 ^ -53`. -/
theorem toFloat64_examples :
    toFloat64 (1 / 10) = 3602879701896397 / 36028797018963968 ∧
      toFloat64 (toFloat64 7 / toFloat64 6) = 5254199565265579 / 4503599627370496 ∧
      toFloat64 (toFloat64 4 / toFloat64 6) = 6004799503160661 / 9007199254740992 ∧
      toFloat64 (toFloat64 (toFloat64 7 / toFloat64 6) - toFloat64 (toFloat64 4 / toFloat64 6)) =
        1 / 2 + 1 / 9007199254740992 ∧
      (7 : ℚ) / 6 - 4 / 6 = 1 / 2 ∧
      toFloat64 9007199254740993 = 9007199254740992 ∧
      toFloat64 9007199254740995 = 9007199254740996 := by
  refine ⟨?_, ?_, ?_, ?_, ?_, ?_, ?_⟩ <;> decide!

theorem roundHalfEven_le (y : ℚ) (n : Int) (h : y ≤ n) : roundHalfEven y ≤ n := by
  have hr := roundHalfEven_near y
  rw [abs_le] at hr
  have h1 : (roundHalfEven y : ℚ) < ((n + 1 : Int) : ℚ) := by push_cast; linarith [hr.2]
  have h2 : roundHalfEven y < n + 1 := by exact_mod_cast h1
  omega

theorem roundHalfEven_ge (y : ℚ) (n : Int) (h : (n : ℚ) ≤ y) : n ≤ roundHalfEven y := by
  have hr := roundHalfEven_near y
  rw [abs_le] at hr
  have h1 : ((n - 1 : Int) : ℚ) < (roundHalfEven y : ℚ) := by push_cast; linarith [hr.1]
  have h2 : n - 1 < roundHalfEven y := by exact_mod_cast h1
  omega

/-- Rounding to `float64` does not move a number across a multiple of the
spacing around it. -/
theorem toFloat64_le (x : ℚ) (n : Int)
    (h : x ≤ n * pow2 (max (binaryExponent x) (-1022) - 52)) :
    toFloat64 x ≤ n * pow2 (max (binaryExponent x) (-1022) - 52) := by
  have hu := pow2_pos (max (binaryExponent x) (-1022) - 52)
  unfold toFloat64
  split_ifs with h0
  · exact le_trans (le_of_eq h0.symm) h
  · simp only []
    have h1 : x / pow2 (max (binaryExponent x) (-1022) - 52) ≤ n := by
      rw [div_le_iff₀ hu]
      exact h
    have h2 := roundHalfEven_le _ n h1
    have h3 : (roundHalfEven (x / pow2 (max (binaryExponent x) (-1022) - 52)) : ℚ) ≤ n := by
      exact_mod_cast h2
    exact mul_le_mul_of_nonneg_right h3 (le_of_lt hu)

theorem toFloat64_ge (x : ℚ) (n : Int)
    (h : n * pow2 (max (binaryExponent x) (-1022) - 52) ≤ x) :
    n * pow2 (max (binaryExponent x) (-1022) - 52) ≤ toFloat64 x := by
  have hu := pow2_pos (max (binaryExponent x) (-1022) - 52)
  unfold toFloat64
  split_ifs with h0
  · exact le_trans h (le_of_eq h0)
  · simp only []
    have h1 : (n : ℚ) ≤ x / pow2 (max (binaryExponent x) (-1022) - 52) := by
      rw [le_div_iff₀ hu]
      exact h
    have h2 := roundHalfEven_ge _ n h1
    have h3 : (n : ℚ) ≤ (roundHalfEven (x / pow2 (max (binaryExponent x) (-1022) - 52)) : ℚ) := by
      exact_mod_cast h2
    exact mul_le_mul_of_nonneg_right h3 (le_of_lt hu)

theorem binaryExponent_le (x : ℚ) (k : Int) (h0 : x ≠ 0) (h : |x| < pow2 (k + 1)) :
    binaryExponent x ≤ k := by
  have hs := (binaryExponent_spec x h0).1
  have hlt : pow2 (binaryExponent x) < pow2 (k + 1) := lt_of_le_of_lt hs h
  rw [pow2_eq_zpow, pow2_eq_zpow] at hlt
  have := (zpow_lt_zpow_iff_right₀ (by norm_num : (1 : ℚ) < 2)).mp hlt
  omega

theorem pow2_multiple (e k : Int) (h : e ≤ k) :
    pow2 k = (((2 : Int) ^ (k - e).toNat : Int) : ℚ) * pow2 e := by
  obtain ⟨n, hn⟩ := Int.eq_ofNat_of_zero_le (by omega : 0 ≤ k - e)
  have hk : k = e + n := by omega
  subst hk
  rw [hn]
  simp only [Int.toNat_ofNat]
  rw [pow2_eq_zpow, pow2_eq_zpow, zpow_add₀ (by norm_num : (2 : ℚ) ≠ 0), zpow_natCast]
  push_cast
  ring

/-- A bound that is a multiple of `2 ^ k` is kept by the rounding of a number
below `2 ^ (k + 53)`: the spacing around the number divides `2 ^ k`. -/
theorem toFloat64_abs_le (x : ℚ) (m k : Int) (hk : -1074 ≤ k)
    (h : |x| ≤ m * pow2 k) (hlt : |x| < pow2 (k + 53)) :
    |toFloat64 x| ≤ m * pow2 k := by
  by_cases h0 : x = 0
  · subst h0
    have : toFloat64 0 = 0 := by simp [toFloat64]
    rw [this]
    simpa using h
  · have he : max (binaryExponent x) (-1022) - 52 ≤ k := by
      have := binaryExponent_le x (k + 52) h0 (by rw [show k + 52 + 1 = k + 53 by ring]; exact hlt)
      rcases max_cases (binaryExponent x) (-1022) with ⟨e1, _⟩ | ⟨e1, _⟩ <;> rw [e1] <;> omega
    have hm : pow2 k = (2 : ℚ) ^ (k - (max (binaryExponent x) (-1022) - 52)).toNat *
        pow2 (max (binaryExponent x) (-1022) - 52) := by
      rw [pow2_multiple _ k he]
      push_cast
      rfl
    rw [abs_le] at h ⊢
    constructor
    · have := toFloat64_ge x (-(m * (2 : Int) ^ (k - (max (binaryExponent x) (-1022) - 52)).toNat))
        (by push_cast; rw [neg_mul, mul_assoc, ← hm]; linarith [h.1])
      push_cast at this
      rw [neg_mul, mul_assoc, ← hm] at this
      linarith
    · have := toFloat64_le x (m * (2 : Int) ^ (k - (max (binaryExponent x) (-1022) - 52)).toNat)
        (by push_cast; rw [mul_assoc, ← hm]; linarith [h.2])
      push_cast at this
      rw [mul_assoc, ← hm] at this
      linarith

theorem truncToInt_abs_le (x : ℚ) (n : Int) (h : |x| ≤ n) : |truncToInt x| ≤ n := by
  rw [abs_le] at h
  rw [abs_le]
  by_cases hx : 0 ≤ x
  · have ht := truncToInt_nonneg x hx
    have h1 : (0 : ℚ) < ((truncToInt x + 1 : Int) : ℚ) := by push_cast; linarith [ht.2]
    have h2 : (truncToInt x : ℚ) ≤ (n : ℚ) := by linarith [ht.1, h.2]
    have h3 : 0 < truncToInt x + 1 := by exact_mod_cast h1
    have h4 : truncToInt x ≤ n := by exact_mod_cast h2
    constructor <;> omega
  · have ht := truncToInt_neg x (not_le.mp hx)
    have h1 : ((truncToInt x : Int) : ℚ) < ((1 : Int) : ℚ) := by push_cast; linarith [ht.2]
    have h2 : ((-n : Int) : ℚ) ≤ (truncToInt x : ℚ) := by push_cast; linarith [ht.1, h.1]
    have h3 : truncToInt x < 1 := by exact_mod_cast h1
    have h4 : -n ≤ truncToInt x := by exact_mod_cast h2
    constructor <;> omega

/-- The conversion in `randomGoals` is defined for every strength that is a
value of `int` and every noise of magnitude up to `2 ^ 61`: the `float64` sum
stays within `3 * 2 ^ 61` and its integer part is a value of `int`. -/
theorem goalsSum_isInt64 (s : Int) (z : ℚ) (hs : IsInt64 s)
    (hz : |z| ≤ 2 ^ 61) :
    |goalsSum s z| ≤ 6917529027641081856 ∧ IsInt64 (truncToInt (goalsSum s z)) := by
  have p61 : pow2 61 = 2305843009213693952 := by decide!
  have p62 : pow2 62 = 4611686018427387904 := by decide!
  have p63 : pow2 63 = 9223372036854775808 := by decide!
  have p114 : pow2 (61 + 53) = 20769187434139310514121985316880384 := by decide!
  have p115 : pow2 (62 + 53) = 41538374868278621028243970633760768 := by decide!
  have p116 : pow2 (63 + 53) = 83076749736557242056487941267521536 := by decide!
  have hz : |z| ≤ 2305843009213693952 := le_trans hz (by norm_num)
  unfold IsInt64 at hs
  have hs1 : |((s : Int) : ℚ)| ≤ 9223372036854775808 := by
    rw [abs_le]
    constructor
    · have : ((-9223372036854775808 : Int) : ℚ) ≤ (s : ℚ) := by exact_mod_cast hs.1
      push_cast at this
      linarith
    · have : ((s : Int) : ℚ) ≤ ((9223372036854775807 : Int) : ℚ) := by exact_mod_cast hs.2
      push_cast at this
      linarith
  have ha : |toFloat64 (s : ℚ)| ≤ 9223372036854775808 := by
    have := toFloat64_abs_le (s : ℚ) 1 63 (by norm_num)
      (by rw [p63]; push_cast; linarith) (by rw [p116]; linarith)
    rw [p63] at this
    push_cast at this
    linarith
  have hb0 : |toFloat64 (s : ℚ) / 5| ≤ 2305843009213693952 := by
    rw [abs_div, abs_of_pos (by norm_num : (0 : ℚ) < 5), div_le_iff₀ (by norm_num)]
    linarith
  have hb : |toFloat64 (toFloat64 (s : ℚ) / 5)| ≤ 2305843009213693952 := by
    have := toFloat64_abs_le (toFloat64 (s : ℚ) / 5) 1 61 (by norm_num)
      (by rw [p61]; push_cast; linarith) (by rw [p114]; linarith)
    rw [p61] at this
    push_cast at this
    linarith
  have hc0 : |toFloat64 (toFloat64 (s : ℚ) / 5) + z| ≤ 4611686018427387904 := by
    have := abs_add (toFloat64 (toFloat64 (s : ℚ) / 5)) z
    linarith
  have hc : |toFloat64 (toFloat64 (toFloat64 (s : ℚ) / 5) + z)| ≤ 4611686018427387904 := by
    have := toFloat64_abs_le (toFloat64 (toFloat64 (s : ℚ) / 5) + z) 1 62 (by norm_num)
      (by rw [p62]; push_cast; linarith) (by rw [p115]; linarith)
    rw [p62] at this
    push_cast at this
    linarith
  have hd0 : |toFloat64 (toFloat64 (toFloat64 (s : ℚ) / 5) + z) + 3 / 2| ≤
      6917529027641081856 := by
    have := abs_add (toFloat64 (toFloat64 (toFloat64 (s : ℚ) / 5) + z)) (3 / 2)
    rw [abs_of_pos (by norm_num : (0 : ℚ) < 3 / 2)] at this
    linarith
  have hd : |goalsSum s z| ≤ 6917529027641081856 := by
    unfold goalsSum
    have := toFloat64_abs_le (toFloat64 (toFloat64 (toFloat64 (s : ℚ) / 5) + z) + 3 / 2) 3 61
      (by norm_num) (by rw [p61]; push_cast; linarith) (by rw [p114]; linarith)
    rw [p61] at this
    push_cast at this
    linarith
  refine ⟨hd, ?_⟩
  have ht := truncToInt_abs_le (goalsSum s z) 6917529027641081856 (by push_cast; exact hd)
  rw [abs_le] at ht
  unfold IsInt64
  constructor <;> omega

/-- C18, the claim fails: for strength 5 and noise 0.25 every step of the sum is
exact, the sum is 2.75, its nearest integer is 3, and `randomGoals` returns 2. -/
theorem randomGoals_not_rounded :
    goalsSum 5 (1 / 4) = 11 / 4 ∧ (5 : ℚ) / 5 + 1 / 4 + 3 / 2 = 11 / 4 ∧
      randomGoalsFrom 5 (1 / 4) = some 2 ∧ roundedGoals 5 (1 / 4) = 3 ∧
      |(11 / 4 : ℚ) - 3| < 1 / 2 := by
  refine ⟨?_, ?_, ?_, ?_, ?_⟩ <;> decide!

/-- The sum of `randomGoals` is a `float64` sum and not the exact one.  For
strength 6 and the noise `float64(0.3)` the exact sum lies below 3 and has the
integer part 2, the `float64` sum is 3 and `randomGoals` returns 3.  For
strength `-2 ^ 62` and no noise the quotient is rounded to a multiple of 128. -/
theorem randomGoalsFrom_float_examples :
    toFloat64 (3 / 10) = 5404319552844595 / 18014398509481984 ∧
      goalsSum 6 (5404319552844595 / 18014398509481984) = 3 ∧
      randomGoalsFrom 6 (5404319552844595 / 18014398509481984) = some 3 ∧
      truncToInt ((6 : ℚ) / 5 + 5404319552844595 / 18014398509481984 + 3 / 2) = 2 ∧
      randomGoalsFrom (-4611686018427387904) 0 = some (-922337203685477632) ∧
      truncToInt ((-4611686018427387904 : ℚ) / 5 + 0 + 3 / 2) = -922337203685477579 := by
  refine ⟨?_, ?_, ?_, ?_, ?_, ?_⟩ <;> decide!

/-- When the integer part of the `float64` sum is a value of `int`, the
conversion is defined and `randomGoals` returns the smaller of five and the sum
with its fraction discarded. -/
theorem randomGoalsFrom_truncates (s : Int) (z : ℚ)
    (hr : IsInt64 (truncToInt (goalsSum s z))) :
    ∃ g, randomGoalsFrom s z = some g ∧
      g = min 5 (truncToInt (goalsSum s z)) ∧
      g ≤ 5 ∧
      (0 ≤ goalsSum s z → goalsSum s z < 6 →
        (g : ℚ) ≤ goalsSum s z ∧ goalsSum s z < g + 1) ∧
      (6 ≤ goalsSum s z → g = 5) ∧
      (goalsSum s z < 0 → goalsSum s z ≤ g ∧ (g : ℚ) < goalsSum s z + 1) := by
  have hrun : randomGoalsFrom s z = some (min 5 (truncToInt (goalsSum s z))) := by
    unfold randomGoalsFrom floatToInt
    unfold IsInt64 at hr
    rw [if_pos hr, Option.map_some', randomGoals_eq_min]
  refine ⟨_, hrun, rfl, min_le_left _ _, ?_, ?_, ?_⟩
  · intro h0 h6
    have ht := truncToInt_nonneg _ h0
    have h5 : truncToInt (goalsSum s z) ≤ 5 := by
      have h1 : (truncToInt (goalsSum s z) : ℚ) < 6 := lt_of_le_of_lt ht.1 h6
      have h2 : truncToInt (goalsSum s z) < 6 := by exact_mod_cast h1
      omega
    rw [min_eq_right h5]
    exact ht
  · intro h6
    have h0 : 0 ≤ goalsSum s z := le_trans (by norm_num) h6
    have ht := truncToInt_nonneg _ h0
    have h5 : 5 ≤ truncToInt (goalsSum s z) := by
      have h1 : (5 : ℚ) < truncToInt (goalsSum s z) + 1 := by linarith [ht.2]
      have h2 : (5 : Int) < truncToInt (goalsSum s z) + 1 := by exact_mod_cast h1
      omega
    rw [min_eq_left h5]
  · intro hneg
    have ht := truncToInt_neg _ hneg
    have h5 : truncToInt (goalsSum s z) ≤ 5 := by
      have h1 : (truncToInt (goalsSum s z) : ℚ) < 1 := by linarith [ht.2]
      have h2 : truncToInt (goalsSum s z) < 1 := by exact_mod_cast h1
      omega
    rw [min_eq_right h5]
    exact ht

/-- C18, amended: let `S` be the `float64` sum that `randomGoals` forms from the
strength `s` and the noise `z`: `float64(s) / 5`, plus `z`, plus `1.5`, each
step rounded.  For every strength that is a value of `int` and every noise of
magnitude at most `2 ^ 61` the integer part of `S` is a value of `int`, and
`randomGoals` returns the smaller of five and `S` with its fraction discarded.
The result is the largest integer not above `S` when `S` lies in `[0, 6)`, it is
five from six on, and it is the smallest integer not below `S` when `S` is
negative. -/
theorem randomGoals_truncates (s : Int) (z : ℚ) (hs : IsInt64 s) (hz : |z| ≤ 2 ^ 61) :
    IsInt64 (truncToInt (goalsSum s z)) ∧
      ∃ g, randomGoalsFrom s z = some g ∧
        g = min 5 (truncToInt (goalsSum s z)) ∧
        g ≤ 5 ∧
        (0 ≤ goalsSum s z → goalsSum s z < 6 →
          (g : ℚ) ≤ goalsSum s z ∧ goalsSum s z < g + 1) ∧
        (6 ≤ goalsSum s z → g = 5) ∧
        (goalsSum s z < 0 → goalsSum s z ≤ g ∧ (g : ℚ) < goalsSum s z + 1) :=
  ⟨(goalsSum_isInt64 s z hs hz).2,
   randomGoalsFrom_truncates s z (goalsSum_isInt64 s z hs hz).2⟩

theorem randomGoals_truncates_witness :
    IsInt64 6 ∧ |(5404319552844595 / 18014398509481984 : ℚ)| ≤ 2 ^ 61 ∧
      IsInt64 (truncToInt (goalsSum 6 (5404319552844595 / 18014398509481984))) ∧
      ∃ g, randomGoalsFrom 6 (5404319552844595 / 18014398509481984) = some g ∧
        g = min 5 (truncToInt (goalsSum 6 (5404319552844595 / 18014398509481984))) ∧
        g ≤ 5 ∧
        (0 ≤ goalsSum 6 (5404319552844595 / 18014398509481984) →
          goalsSum 6 (5404319552844595 / 18014398509481984) < 6 →
          (g : ℚ) ≤ goalsSum 6 (5404319552844595 / 18014398509481984) ∧
            goalsSum 6 (5404319552844595 / 18014398509481984) < g + 1) ∧
        (6 ≤ goalsSum 6 (5404319552844595 / 18014398509481984) → g = 5) ∧
        (goalsSum 6 (5404319552844595 / 18014398509481984) < 0 →
          goalsSum 6 (5404319552844595 / 18014398509481984) ≤ g ∧
            (g : ℚ) < goalsSum 6 (5404319552844595 / 18014398509481984) + 1) :=
  ⟨by unfold IsInt64; decide, by rw [abs_of_pos (by norm_num)]; norm_num,
   randomGoals_truncates 6 (5404319552844595 / 18014398509481984)
     (by unfold IsInt64; decide) (by rw [abs_of_pos (by norm_num)]; norm_num)⟩

theorem weekLoop_ge : ∀ (T : StandingsMap) (acc : Int),
    acc ≤ weekLoop T acc ∧ ∀ e ∈ T, e.2.Played ≤ weekLoop T acc := by
  intro T
  induction T with
  | nil => intro acc; exact ⟨le_refl _, fun e he => absurd he (List.not_mem_nil e)⟩
  | cons e rest ih =>
    intro acc
    rw [weekLoop]
    split_ifs with h
    · refine ⟨le_trans (le_of_lt h) (ih _).1, ?_⟩
      intro e' he'
      rcases List.mem_cons.mp he' with rfl | hr
      · exact (ih _).1
      · exact (ih _).2 e' hr
    · refine ⟨(ih _).1, ?_⟩
      intro e' he'
      rcases List.mem_cons.mp he' with rfl | hr
      · exact le_trans (not_lt.mp h) (ih _).1
      · exact (ih _).2 e' hr

theorem weekLoop_attained : ∀ (T : StandingsMap) (acc : Int),
    weekLoop T acc = acc ∨ ∃ e ∈ T, e.2.Played = weekLoop T acc := by
  intro T
  induction T with
  | nil => intro acc; exact Or.inl rfl
  | cons e rest ih =>
    intro acc
    rw [weekLoop]
    split_ifs with h
    · rcases ih e.2.Played with h1 | ⟨e', he', h1⟩
      · exact Or.inr ⟨e, List.mem_cons_self _ _, h1.symm⟩
      · exact Or.inr ⟨e', List.mem_cons_of_mem _ he', h1⟩
    · rcases ih acc with h1 | ⟨e', he', h1⟩
      · exact Or.inl h1
      · exact Or.inr ⟨e', List.mem_cons_of_mem _ he', h1⟩

/-- The arguments at which `calculateChampionshipProbabilities` evaluates the
`switch`: the week is the largest `Played` of the input table (zero when no
record has played), and the points difference is never negative. -/
theorem rawProbabilities_arguments (allMatches : List Match) (standings : StandingsMap)
    (probabilities : List (String × ℚ))
    (h : rawProbabilities allMatches standings = some probabilities) :
    ∃ predicted, projectMatches allMatches standings = some predicted ∧
      probabilities = predicted.map (fun e => (e.2.Team.Name,
        rawScore (weekLoop standings 0) (maxPointsLoop predicted 0 - e.2.Points))) ∧
      (∀ e ∈ predicted, 0 ≤ maxPointsLoop predicted 0 - e.2.Points) ∧
      (∀ e ∈ standings, e.2.Played ≤ weekLoop standings 0) ∧
      (weekLoop standings 0 = 0 ∨ ∃ e ∈ standings, e.2.Played = weekLoop standings 0) := by
  unfold rawProbabilities at h
  split at h
  · exact absurd h (by simp)
  · rename_i predicted hp
    have hd : ∀ e ∈ predicted, 0 ≤ maxPointsLoop predicted 0 - e.2.Points := by
      intro e he
      have := (maxPointsLoop_ge predicted 0).2 e he
      omega
    refine ⟨predicted, hp, ?_, hd, (weekLoop_ge standings 0).2, weekLoop_attained standings 0⟩
    rw [← Option.some.inj h]

/-- C20: for every week value `w` and every points difference `d ≥ 0` the raw
score that `calculateChampionshipProbabilities` assigns before normalisation is
the entry of the banding table of the specification: for `w ≥ 6` it is 100 if
`d = 0` and 0 otherwise; for `w = 5` it is 50, 30 for `1 ≤ d ≤ 3`, and 0
otherwise; for `w = 4` it is 50, 30, 15 for `4 ≤ d ≤ 6`, and 0 otherwise; for
`w < 4` it is 50, 30, 15, 4 for `7 ≤ d ≤ 9`, and 1 for `d > 9`. -/
theorem rawScore_eq_bandingTable (w d : Int) (hd : 0 ≤ d) :
    rawScore w d = bandingTable w d := by
  unfold rawScore bandingTable
  by_cases h6 : w ≥ 6
  · simp only [h6, if_true]
  · by_cases h5 : w ≥ 5
    · have e5 : w = 5 := by omega
      simp only [h6, h5, e5, if_true, if_false]
      split_ifs <;> first | rfl | omega
    · by_cases h4 : w ≥ 4
      · have e4 : w = 4 := by omega
        have n5 : ¬ ((4 : Int) = 5) := by decide
        have n5' : ¬ ((4 : Int) ≥ 5) := by decide
        have n6' : ¬ ((4 : Int) ≥ 6) := by decide
        simp only [e4, n5, n5', n6', if_true, if_false, ge_iff_le, le_refl]
        split_ifs <;> first | rfl | omega
      · have n5 : ¬ (w = 5) := by omega
        have n4 : ¬ (w = 4) := by omega
        simp only [h6, h5, h4, n5, n4, if_false]
        split_ifs <;> first | rfl | omega

theorem rawScore_eq_bandingTable_witness :
    (0 : Int) ≤ 5 ∧ rawScore 4 5 = bandingTable 4 5 ∧ bandingTable 4 5 = 15 :=
  ⟨by decide, rawScore_eq_bandingTable 4 5 (by decide), by decide!⟩

theorem projectMatch_verdict (T : StandingsMap) (m : Match) :
    projectMatch T m = (verdictIn T m).map (recordVerdict T m) := by
  unfold projectMatch verdictIn
  cases hh : T.get m.Home.ID with
  | none => simp only [hh, Option.map_none']
  | some x =>
    cases ha : T.get m.Away.ID with
    | none => simp only [hh, ha, Option.map_none']
    | some y =>
      simp only [hh, ha, Option.map_some', verdict, recordVerdict]
      split_ifs <;> rfl

theorem projectMatches_append : ∀ (xs ys : List Match) (T : StandingsMap),
    projectMatches (xs ++ ys) T = (projectMatches xs T).bind (projectMatches ys) := by
  intro xs
  induction xs with
  | nil => intro ys T; rfl
  | cons m rest ih =>
    intro ys T
    rw [List.cons_append, projectMatches, projectMatches]
    split_ifs
    · cases projectMatch T m with
      | none => rfl
      | some T1 => exact ih ys T1
    · exact ih ys T

theorem get_recordVerdict (T : StandingsMap) (m : Match) (v : Verdict) (k : Int)
    (hh : k ≠ m.Home.ID) (ha : k ≠ m.Away.ID) : (recordVerdict T m v).get k = T.get k := by
  unfold recordVerdict
  cases v <;> simp only [get_modify, if_neg hh, if_neg ha]

theorem projectMatches_frame : ∀ (ms : List Match) (T T' : StandingsMap) (k : Int),
    projectMatches ms T = some T' →
    (∀ m ∈ ms, m.Played = false → k ≠ m.Home.ID ∧ k ≠ m.Away.ID) →
    T'.get k = T.get k := by
  intro ms
  induction ms with
  | nil =>
    intro T T' k h _
    rw [← Option.some.inj h]
  | cons m rest ih =>
    intro T T' k h hk
    rw [projectMatches] at h
    have hrest : ∀ m' ∈ rest, m'.Played = false → k ≠ m'.Home.ID ∧ k ≠ m'.Away.ID :=
      fun m' hm' => hk m' (List.mem_cons_of_mem _ hm')
    split_ifs at h with hp
    · have hpf : m.Played = false := by simpa using hp
      rw [projectMatch_verdict] at h
      cases hv : verdictIn T m with
      | none => rw [hv] at h; exact absurd h (by simp)
      | some v =>
        rw [hv] at h
        simp only [Option.map_some'] at h
        rw [ih _ _ k h hrest]
        exact get_recordVerdict T m v k (hk m (List.mem_cons_self _ _) hpf).1
          (hk m (List.mem_cons_self _ _) hpf).2
    · exact ih _ _ k h hrest

theorem take_succ_of_getElem (ms : List Match) (i : Nat) (m : Match) (hm : ms[i]? = some m) :
    ms.take (i + 1) = ms.take i ++ [m] := by
  rw [List.take_succ, hm]
  rfl

theorem split_at_of_getElem (ms : List Match) (i : Nat) (m : Match) (hm : ms[i]? = some m) :
    ms = ms.take i ++ m :: ms.drop (i + 1) := by
  have h1 : ms = ms.take (i + 1) ++ ms.drop (i + 1) := (List.take_append_drop _ _).symm
  rw [take_succ_of_getElem ms i m hm, List.append_assoc] at h1
  exact h1

/-- C19, the claim fails: in `demoDrawAndWin` the input table gives team 3 no
points from one game and team 4 one point from one game, so the input standings
make match 6 (team 3 at home to team 4) an away win.  When the loop reaches
match 6 it has projected a defeat for each of the two teams, the predicted table
holds 0 points from two games against 1 point from two games, the difference is
`-0.5` and the loop records a draw.  The final table differs from the one that
results when every match is decided by the input standings. -/
theorem projection_not_from_input :
    (demoDrawAndWin.fixtures.flatten.take 6).map
        (fun m => (m.ID, m.Home.ID, m.Away.ID, m.Played)) =
      [(1, 1, 4, true), (2, 2, 3, true), (3, 1, 3, false), (4, 4, 2, false),
       (5, 1, 2, false), (6, 3, 4, false)] ∧
      demoDrawAndWin.standings.map (fun e => (e.1, e.2.Played, e.2.Points)) =
        [(1, 1, 1), (2, 1, 3), (3, 1, 0), (4, 1, 1)] ∧
      (demoDrawAndWin.fixtures.flatten[5]?).bind (verdictIn demoDrawAndWin.standings) =
        some Verdict.awayWin ∧
      (PredictFinalStandings (demoDrawAndWin.fixtures.flatten.take 5)
          demoDrawAndWin.standings).map (fun T => T.map (fun e => (e.1, e.2.Played, e.2.Points))) =
        some [(1, 3, 4), (2, 3, 9), (3, 2, 0), (4, 2, 1)] ∧
      (PredictFinalStandings (demoDrawAndWin.fixtures.flatten.take 5)
          demoDrawAndWin.standings).bind
          (fun T => (demoDrawAndWin.fixtures.flatten[5]?).bind (verdictIn T)) =
        some Verdict.draw ∧
      (PredictFinalStandings demoDrawAndWin.fixtures.flatten demoDrawAndWin.standings).map
          (fun T => T.map (fun e => (e.1, e.2.Won, e.2.Drawn, e.2.Lost, e.2.Points))) =
        some [(1, 3, 1, 2, 10), (2, 6, 0, 0, 18), (3, 0, 2, 4, 2), (4, 0, 3, 3, 3)] ∧
      (projectFromInput demoDrawAndWin.standings demoDrawAndWin.fixtures.flatten
          demoDrawAndWin.standings).map
          (fun T => T.map (fun e => (e.1, e.2.Won, e.2.Drawn, e.2.Lost, e.2.Points))) =
        some [(1, 2, 2, 2, 8), (2, 6, 0, 0, 18), (3, 0, 0, 6, 0), (4, 2, 2, 2, 8)] := by
  refine ⟨?_, ?_, ?_, ?_, ?_, ?_, ?_⟩ <;> decide!

/-- The comparison of the projection is made on `float64` values: for 7 points
from 6 games against 4 points from 6 games the exact difference of the
quotients is `1/2`, which would be a draw, and the loop records a home win. -/
theorem verdict_float_example :
    verdict { newStanding ⟨1, "A", 5⟩ with Played := 6, Points := 7 }
        { newStanding ⟨2, "B", 5⟩ with Played := 6, Points := 4 } = Verdict.homeWin ∧
      (7 : ℚ) / 6 - 4 / 6 = 1 / 2 := by
  refine ⟨?_, ?_⟩ <;> decide!

/-- C19, amended: let `m` be the unplayed match at index `i` of the list and let
`Ti` be the predicted table when the loop of `PredictFinalStandings` (the same
loop runs inside `calculateChampionshipProbabilities`) reaches it, that is the
result of the loop over the first `i` matches.  The whole run records for `m` the
result read off `Ti` and goes on with the rest of the list.  With the points
per game of `Ti` and their difference computed in `float64`, that result is a
home win if home PPG - away PPG > 0.5, an away win if
away PPG - home PPG > 0.5, and a draw otherwise.  It is the result read off the
input standings whenever neither team of `m` takes part in an earlier unplayed
match of the list. -/
theorem projection_reads_predicted_table (ms : List Match) (T Ti : StandingsMap) (i : Nat)
    (m : Match) (hm : ms[i]? = some m) (hp : m.Played = false)
    (hT : PredictFinalStandings (ms.take i) T = some Ti) :
    PredictFinalStandings ms T =
        ((verdictIn Ti m).map (recordVerdict Ti m)).bind
          (PredictFinalStandings (ms.drop (i + 1))) ∧
      (∀ homeStanding awayStanding, Ti.get m.Home.ID = some homeStanding →
        Ti.get m.Away.ID = some awayStanding →
        verdictIn Ti m = some
          (if toFloat64 (pointsPerGame homeStanding - pointsPerGame awayStanding) > 1 / 2 then
            Verdict.homeWin
          else if toFloat64 (pointsPerGame awayStanding - pointsPerGame homeStanding) > 1 / 2
          then Verdict.awayWin
          else Verdict.draw)) ∧
      ((∀ m' ∈ ms.take i, m'.Played = false →
          m'.Home.ID ≠ m.Home.ID ∧ m'.Home.ID ≠ m.Away.ID ∧
            m'.Away.ID ≠ m.Home.ID ∧ m'.Away.ID ≠ m.Away.ID) →
        verdictIn Ti m = verdictIn T m) := by
  unfold PredictFinalStandings at hT ⊢
  refine ⟨?_, ?_, ?_⟩
  · have hsplit := split_at_of_getElem ms i m hm
    have e1 : projectMatches ms T =
        (projectMatches (ms.take i) T).bind (projectMatches (m :: ms.drop (i + 1))) := by
      rw [← projectMatches_append, ← hsplit]
    rw [e1, hT, Option.some_bind, projectMatches]
    have hnp : (!m.Played) = true := by rw [hp]; rfl
    rw [if_pos hnp, projectMatch_verdict]
    cases verdictIn Ti m with
    | none => rfl
    | some v => rfl
  · intro homeStanding awayStanding hh ha
    unfold verdictIn verdict
    simp only [hh, ha]
    congr 1
    have hneg : toFloat64 (pointsPerGame awayStanding - pointsPerGame homeStanding) =
        -toFloat64 (pointsPerGame homeStanding - pointsPerGame awayStanding) := by
      rw [← toFloat64_neg, neg_sub]
    rw [hneg]
    by_cases h1 : toFloat64 (pointsPerGame homeStanding - pointsPerGame awayStanding) > 1 / 2
    · rw [if_pos h1, if_pos h1]
    · rw [if_neg h1, if_neg h1]
      by_cases h2 :
          toFloat64 (pointsPerGame homeStanding - pointsPerGame awayStanding) < -(1 / 2)
      · have h3 :
            -toFloat64 (pointsPerGame homeStanding - pointsPerGame awayStanding) > 1 / 2 := by
          linarith
        rw [if_pos h2, if_pos h3]
      · have h3 : ¬ (-toFloat64 (pointsPerGame homeStanding - pointsPerGame awayStanding)
            > 1 / 2) := by
          intro h; apply h2; linarith
        rw [if_neg h2, if_neg h3]
  · intro hfree
    have hhome : Ti.get m.Home.ID = T.get m.Home.ID :=
      projectMatches_frame _ _ _ _ hT (fun m' hm' hp' =>
        ⟨fun h => (hfree m' hm' hp').1 h.symm, fun h => (hfree m' hm' hp').2.2.1 h.symm⟩)
    have haway : Ti.get m.Away.ID = T.get m.Away.ID :=
      projectMatches_frame _ _ _ _ hT (fun m' hm' hp' =>
        ⟨fun h => (hfree m' hm' hp').2.1 h.symm, fun h => (hfree m' hm' hp').2.2.2 h.symm⟩)
    unfold verdictIn
    rw [hhome, haway]

theorem projection_reads_predicted_table_witness :
    demoDrawAndWin.fixtures.flatten[5]? = some demoMatchSix ∧
      demoMatchSix.Played = false ∧
      PredictFinalStandings (demoDrawAndWin.fixtures.flatten.take 5) demoDrawAndWin.standings =
        some demoPredictedAtSix ∧
      verdictIn demoPredictedAtSix demoMatchSix = some Verdict.draw ∧
      PredictFinalStandings demoDrawAndWin.fixtures.flatten demoDrawAndWin.standings =
        ((verdictIn demoPredictedAtSix demoMatchSix).map
          (recordVerdict demoPredictedAtSix demoMatchSix)).bind
          (PredictFinalStandings (demoDrawAndWin.fixtures.flatten.drop (5 + 1))) :=
  ⟨by decide, by decide, by decide!, by decide!,
   (projection_reads_predicted_table demoDrawAndWin.fixtures.flatten demoDrawAndWin.standings
     demoPredictedAtSix 5 demoMatchSix (by decide) (by decide) (by decide!)).1⟩

theorem mem_of_getElem_some {α : Type} (l : List α) (i : Nat) (x : α) (h : l[i]? = some x) :
    x ∈ l := by
  obtain ⟨hlt, heq⟩ := List.getElem?_eq_some_iff.mp h
  rw [← heq]
  exact List.getElem_mem hlt

theorem get_applyMatch_other (T : StandingsMap) (m : Match) (k : Int)
    (hh : k ≠ m.Home.ID) (ha : k ≠ m.Away.ID) : (applyMatch T m).get k = T.get k := by
  unfold applyMatch
  simp only []
  split_ifs <;> simp only [get_modify, if_neg hh, if_neg ha]

theorem get_unapplyMatch_other (T : StandingsMap) (m : Match) (k : Int)
    (hh : k ≠ m.Home.ID) (ha : k ≠ m.Away.ID) : (unapplyMatch T m).get k = T.get k := by
  unfold unapplyMatch
  simp only []
  split_ifs <;> simp only [get_modify, if_neg hh, if_neg ha]

/-- In a week without repeated IDs the search loop stops at the match that
carries the ID and replaces it where it stands. -/
theorem editWeek_at : ∀ (week : List Match) (i : Nat) (old : Match) (homeGoals awayGoals : Int),
    (week.map (fun m => m.ID)).Nodup → week[i]? = some old →
    editWeek week old.ID homeGoals awayGoals =
      some (week.set i { old with HomeGoals := homeGoals, AwayGoals := awayGoals,
                                  Played := true }, old) := by
  intro week
  induction week with
  | nil => intro i old homeGoals awayGoals _ h; simp at h
  | cons m rest ih =>
    intro i old homeGoals awayGoals hnd h
    rw [List.map_cons, List.nodup_cons] at hnd
    cases i with
    | zero =>
      simp only [List.getElem?_cons_zero, Option.some.injEq] at h
      subst h
      rw [editWeek, if_pos rfl]
      rfl
    | succ j =>
      simp only [List.getElem?_cons_succ] at h
      have hmem : old ∈ rest := mem_of_getElem_some _ _ _ h
      have hne : m.ID ≠ old.ID := by
        intro e
        exact hnd.1 (List.mem_map.mpr ⟨old, hmem, e.symm⟩)
      rw [editWeek, if_neg hne, ih j old homeGoals awayGoals hnd.2 h]
      rfl

/-- In a schedule without repeated IDs the search of `EditMatchResult` replaces
the match that carries the ID where it stands and changes nothing else. -/
theorem editWeeks_at : ∀ (weeks : List (List Match)) (w i : Nat) (week : List Match)
    (old : Match) (homeGoals awayGoals : Int),
    (weeks.flatten.map (fun m => m.ID)).Nodup → weeks[w]? = some week → week[i]? = some old →
    editWeeks weeks old.ID homeGoals awayGoals =
      some (weeks.set w (week.set i { old with HomeGoals := homeGoals, AwayGoals := awayGoals,
                                               Played := true }), old) := by
  intro weeks
  induction weeks with
  | nil => intro w i week old homeGoals awayGoals _ h; simp at h
  | cons week0 rest ih =>
    intro w i week old homeGoals awayGoals hnd hweek hold
    rw [List.flatten_cons, List.map_append, List.nodup_append] at hnd
    obtain ⟨hnd0, hndrest, hdisj⟩ := hnd
    cases w with
    | zero =>
      simp only [List.getElem?_cons_zero, Option.some.injEq] at hweek
      subst hweek
      rw [editWeeks, editWeek_at week0 i old homeGoals awayGoals hnd0 hold]
      rfl
    | succ v =>
      simp only [List.getElem?_cons_succ] at hweek
      have hmem : old ∈ rest.flatten :=
        List.mem_flatten.mpr ⟨week, mem_of_getElem_some _ _ _ hweek, mem_of_getElem_some _ _ _ hold⟩
      have hnone : editWeek week0 old.ID homeGoals awayGoals = none := by
        rw [editWeek_none_iff]
        intro m hm e
        exact hdisj (List.mem_map.mpr ⟨m, hm, e⟩) (List.mem_map.mpr ⟨old, hmem, rfl⟩)
      rw [editWeeks, hnone]
      simp only []
      rw [ih v i week old homeGoals awayGoals hndrest hweek hold]
      rfl

/-- No method assigns to the ID of a match: an equal `Reset` means equal IDs. -/
theorem ids_of_reset (s s' : SimulatorImpl) (h : Reset s' = Reset s) :
    s'.fixtures.flatten.map (fun m => m.ID) = s.fixtures.flatten.map (fun m => m.ID) := by
  have hf : s'.fixtures.map (fun week => week.map clearMatch) =
      s.fixtures.map (fun week => week.map clearMatch) := by
    have := congrArg SimulatorImpl.fixtures h
    simpa [Reset] using this
  have key : ∀ (weeks : List (List Match)),
      weeks.flatten.map (fun m => m.ID) =
        (weeks.map (fun week => week.map clearMatch)).flatten.map (fun m => m.ID) := by
    intro weeks
    rw [← List.map_flatten, List.map_map]
    rfl
  rw [key s'.fixtures, key s.fixtures, hf]

/-- In every state reachable from `NewSimulator` on an even number `N ≥ 2` of
teams no two matches of the schedule carry the same ID. -/
theorem Reachable_ids_nodup (teams : List Team) (s0 s : SimulatorImpl)
    (heven : teams.length % 2 = 0) (hN : 2 ≤ teams.length)
    (h0 : NewSimulator teams = some s0) (hr : Reachable s0 s) :
    (s.fixtures.flatten.map (fun m => m.ID)).Nodup := by
  have hfix : s0.fixtures = firstLegWeeks teams ++ secondLegWeeks teams := by
    unfold NewSimulator at h0
    simp only [generateFixtures_eq teams hN] at h0
    rw [← Option.some.inj h0]
  rw [ids_of_reset s0 s (Reachable_reset s0 s hr), hfix, schedule_ids teams heven hN]
  refine List.Nodup.map ?_ (List.nodup_range _)
  intro a b hab
  simp only at hab
  omega

/-- What `EditMatchResult` does once its search has found the match `old`: it
returns no error, stores the schedule the search built, leaves the cursor alone
and writes only to the records of the two teams of `old`. -/
theorem EditMatchResult_of_editWeeks (s : SimulatorImpl) (matchID homeGoals awayGoals : Int)
    (fixtures : List (List Match)) (old : Match) (hp : TeamsPresent s)
    (hedit : editWeeks s.fixtures matchID homeGoals awayGoals = some (fixtures, old)) :
    ∃ s', EditMatchResult s matchID homeGoals awayGoals = some (none, s') ∧
      s'.fixtures = fixtures ∧ s'.currentWeek = s.currentWeek ∧ s'.teams = s.teams ∧
      ∀ k, k ≠ old.Home.ID → k ≠ old.Away.ID → s'.standings.get k = s.standings.get k := by
  obtain ⟨⟨week, hweek, hold⟩, _⟩ := editWeeks_old _ _ _ _ _ _ hedit
  obtain ⟨p1, p2⟩ := hp week hweek old hold
  unfold EditMatchResult
  rw [hedit]
  simp only []
  by_cases hz : old.HomeGoals ≠ 0 ∨ old.AwayGoals ≠ 0
  · rw [if_pos hz]
    have hrev := reverseStandings_eq_some s.standings
      { ID := old.ID, Home := old.Home, Away := old.Away, HomeGoals := old.HomeGoals,
        AwayGoals := old.AwayGoals, Week := old.Week, Played := true } p1 p2
    rw [hrev]
    simp only []
    have hupd := updateStandings_eq_some
      (unapplyMatch s.standings
        { ID := old.ID, Home := old.Home, Away := old.Away, HomeGoals := old.HomeGoals,
          AwayGoals := old.AwayGoals, Week := old.Week, Played := true })
      { old with HomeGoals := homeGoals, AwayGoals := awayGoals, Played := true }
      (by rw [get_unapplyMatch_isSome]; exact p1)
      (by rw [get_unapplyMatch_isSome]; exact p2)
    rw [hupd]
    refine ⟨_, rfl, rfl, rfl, rfl, ?_⟩
    intro k hh ha
    have e1 := get_applyMatch_other
      (unapplyMatch s.standings
        { ID := old.ID, Home := old.Home, Away := old.Away, HomeGoals := old.HomeGoals,
          AwayGoals := old.AwayGoals, Week := old.Week, Played := true })
      { old with HomeGoals := homeGoals, AwayGoals := awayGoals, Played := true } k hh ha
    have e2 := get_unapplyMatch_other s.standings
      { ID := old.ID, Home := old.Home, Away := old.Away, HomeGoals := old.HomeGoals,
        AwayGoals := old.AwayGoals, Week := old.Week, Played := true } k hh ha
    exact e1.trans e2
  · rw [if_neg hz]
    simp only []
    have hupd := updateStandings_eq_some s.standings
      { old with HomeGoals := homeGoals, AwayGoals := awayGoals, Played := true } p1 p2
    rw [hupd]
    refine ⟨_, rfl, rfl, rfl, rfl, ?_⟩
    intro k hh ha
    exact get_applyMatch_other s.standings
      { old with HomeGoals := homeGoals, AwayGoals := awayGoals, Played := true } k hh ha

/-- C21: in every state reachable from `NewSimulator` on an even number `N ≥ 2`
of teams, and for every match `old` of the schedule, at index `i` of week index
`w`, `EditMatchResult(old.ID, h, a)` returns no error; afterwards the match at
that place is `old` with `HomeGoals = h`, `AwayGoals = a` and `Played = true`
(ID, Home, Away and Week as before), every other match of the week and every
other week is as before, the cursor is as before, and the table reads as before
under every key other than the IDs of the two teams of the match. -/
theorem EditMatchResult_frame (teams : List Team) (s0 s : SimulatorImpl)
    (homeGoals awayGoals : Int) (w i : Nat) (week : List Match) (old : Match)
    (heven : teams.length % 2 = 0) (hN : 2 ≤ teams.length)
    (h0 : NewSimulator teams = some s0) (hr : Reachable s0 s)
    (hweek : s.fixtures[w]? = some week) (hold : week[i]? = some old) :
    ∃ (s' : SimulatorImpl) (week' : List Match),
      EditMatchResult s old.ID homeGoals awayGoals = some (none, s') ∧
      s'.currentWeek = s.currentWeek ∧
      s'.fixtures.length = s.fixtures.length ∧
      s'.fixtures[w]? = some week' ∧
      week'.length = week.length ∧
      week'[i]? = some { ID := old.ID, Home := old.Home, Away := old.Away,
                         HomeGoals := homeGoals, AwayGoals := awayGoals, Played := true,
                         Week := old.Week } ∧
      (∀ j, j ≠ i → week'[j]? = week[j]?) ∧
      (∀ v, v ≠ w → s'.fixtures[v]? = s.fixtures[v]?) ∧
      (∀ k, k ≠ old.Home.ID → k ≠ old.Away.ID →
        s'.standings.get k = s.standings.get k) := by
  have hnd := Reachable_ids_nodup teams s0 s heven hN h0 hr
  have hedit := editWeeks_at s.fixtures w i week old homeGoals awayGoals hnd hweek hold
  obtain ⟨s', hrun, hfix, hcur, _, hframe⟩ :=
    EditMatchResult_of_editWeeks s old.ID homeGoals awayGoals _ old
      (Reachable_present teams s0 s h0 hr) hedit
  have hw : w < s.fixtures.length := (List.getElem?_eq_some_iff.mp hweek).1
  have hi : i < week.length := (List.getElem?_eq_some_iff.mp hold).1
  refine ⟨s', week.set i ⟨old.ID, old.Home, old.Away, homeGoals, awayGoals, true, old.Week⟩,
    hrun, hcur, ?_, ?_, ?_, ?_, ?_, ?_, hframe⟩
  · rw [hfix, List.length_set]
  · rw [hfix, List.getElem?_set_self hw]
  · rw [List.length_set]
  · rw [List.getElem?_set_self hi]
  · intro j hj
    rw [List.getElem?_set_ne (Ne.symm hj)]
  · intro v hv
    rw [hfix, List.getElem?_set_ne (Ne.symm hv)]

theorem EditMatchResult_frame_witness :
    demoTeams.length % 2 = 0 ∧ 2 ≤ demoTeams.length ∧
      NewSimulator demoTeams = some demoStart ∧
      demoEdited.fixtures[0]? = some [demoEditedOne, demoMatchTwo] ∧
      [demoEditedOne, demoMatchTwo][1]? = some demoMatchTwo ∧
      ∃ (s' : SimulatorImpl) (week' : List Match),
        EditMatchResult demoEdited demoMatchTwo.ID 3 1 = some (none, s') ∧
        s'.currentWeek = demoEdited.currentWeek ∧
        s'.fixtures.length = demoEdited.fixtures.length ∧
        s'.fixtures[0]? = some week' ∧
        week'.length = [demoEditedOne, demoMatchTwo].length ∧
        week'[1]? = some { ID := demoMatchTwo.ID, Home := demoMatchTwo.Home,
                           Away := demoMatchTwo.Away, HomeGoals := 3, AwayGoals := 1,
                           Played := true, Week := demoMatchTwo.Week } ∧
        (∀ j, j ≠ 1 → week'[j]? = [demoEditedOne, demoMatchTwo][j]?) ∧
        (∀ v, v ≠ 0 → s'.fixtures[v]? = demoEdited.fixtures[v]?) ∧
        (∀ k, k ≠ demoMatchTwo.Home.ID → k ≠ demoMatchTwo.Away.ID →
          s'.standings.get k = demoEdited.standings.get k) :=
  ⟨by decide, by decide, by decide, by decide, by decide,
   EditMatchResult_frame demoTeams demoStart demoEdited 3 1 0 1 [demoEditedOne, demoMatchTwo]
     demoMatchTwo (by decide) (by decide) (by decide)
     (Reachable.editMatchResult Reachable.init
       (by decide : EditMatchResult demoStart 1 2 1 = some (none, demoEdited)))
     (by decide) (by decide)⟩

theorem fresh_week (teams : List Team) (hN : 2 ≤ teams.length) :
    ∀ week ∈ firstLegWeeks teams ++ secondLegWeeks teams,
      week ≠ [] ∧ ∀ m ∈ week, m.Played = false := by
  intro week hweek
  rcases List.mem_append.mp hweek with h | h
  · obtain ⟨v, _, rfl⟩ := List.mem_map.mp h
    constructor
    · intro e
      have := congrArg List.length e
      simp at this
      omega
    · intro m hm
      obtain ⟨i, _, rfl⟩ := List.mem_map.mp hm
      rfl
  · obtain ⟨v, _, rfl⟩ := List.mem_map.mp h
    constructor
    · intro e
      have := congrArg List.length e
      simp at this
      omega
    · intro m hm
      obtain ⟨i, _, rfl⟩ := List.mem_map.mp hm
      rfl

/-- In every week of the schedule a team with a record of its own takes part in
exactly one match, counted by team ID. -/
theorem week_takesPart_count (teams : List Team) (hid : (teams.map (fun t => t.ID)).Nodup)
    (heven : teams.length % 2 = 0) (hN : 2 ≤ teams.length) (t : Team) (ht : t ∈ teams) :
    ∀ week ∈ firstLegWeeks teams ++ secondLegWeeks teams,
      week.countP (takesPart t.ID) = 1 := by
  have hnd : teams.Nodup := List.Nodup.of_map _ hid
  have hinj : ∀ a ∈ teams, ∀ b ∈ teams, a.ID = b.ID → a = b :=
    fun a ha b hb hab => List.inj_on_of_nodup_map hid ha hb hab
  have hmem := generateFixtures_sides_mem teams _ (generateFixtures_eq teams hN)
  intro week hweek
  have hcongr : week.countP (takesPart t.ID) =
      week.countP (fun m => decide (m.Home = t ∨ m.Away = t)) := by
    apply List.countP_congr
    intro m hm
    obtain ⟨h1, h2⟩ := hmem week hweek m hm
    simp only [takesPart, decide_eq_true_iff]
    constructor
    · rintro (h | h)
      · exact Or.inl (hinj _ h1 _ ht h)
      · exact Or.inr (hinj _ h2 _ ht h)
    · rintro (h | h)
      · exact Or.inl (by rw [h])
      · exact Or.inr (by rw [h])
  rw [hcongr]
  rcases List.mem_append.mp hweek with h | h
  · obtain ⟨v, hv, rfl⟩ := List.mem_map.mp h
    exact firstWeek_count teams hnd heven hN v _ (List.mem_range.mp hv) t ht
  · obtain ⟨v, hv, rfl⟩ := List.mem_map.mp h
    exact secondWeek_count teams hnd heven hN v _ (List.mem_range.mp hv) t ht

theorem flatten_countP_one (p : Match → Bool) : ∀ (weeks : List (List Match)),
    (∀ week ∈ weeks, week.countP p = 1) → weeks.flatten.countP p = weeks.length := by
  intro weeks
  induction weeks with
  | nil => intro _; rfl
  | cons week rest ih =>
    intro h
    rw [List.flatten_cons, List.countP_append, h week (List.mem_cons_self _ _),
      ih (fun w hw => h w (List.mem_cons_of_mem _ hw)), List.length_cons]
    omega

/-- No method assigns to the sides of a match: an equal `Reset` means that every
team takes part in equally many matches. -/
theorem takesPart_of_reset (s s' : SimulatorImpl) (h : Reset s' = Reset s) (k : Int) :
    s'.fixtures.flatten.countP (takesPart k) = s.fixtures.flatten.countP (takesPart k) := by
  have hf : s'.fixtures.map (fun week => week.map clearMatch) =
      s.fixtures.map (fun week => week.map clearMatch) := by
    have := congrArg SimulatorImpl.fixtures h
    simpa [Reset] using this
  have key : ∀ (weeks : List (List Match)),
      weeks.flatten.countP (takesPart k) =
        (weeks.map (fun week => week.map clearMatch)).flatten.countP (takesPart k) := by
    intro weeks
    rw [← List.map_flatten, List.countP_map]
    rfl
  rw [key s'.fixtures, key s.fixtures, hf]

theorem simulated_sides : ∀ (week week' : List Match), List.Forall₂ Simulated week week' →
    ∀ m' ∈ week', ∃ m ∈ week, m'.Home = m.Home ∧ m'.Away = m.Away := by
  intro week week' h
  induction h with
  | nil => intro m' hm'; simp at hm'
  | cons hab htail ih =>
    rename_i a b l l'
    intro m' hm'
    rcases List.mem_cons.mp hm' with rfl | hm'
    · refine ⟨a, List.mem_cons_self _ _, ?_⟩
      unfold Simulated at hab
      split_ifs at hab with hp
      · rw [hab]; exact ⟨rfl, rfl⟩
      · obtain ⟨hg, ag, _, _, rfl⟩ := hab
        exact ⟨rfl, rfl⟩
    · obtain ⟨m, hm, e⟩ := ih m' hm'
      exact ⟨m, List.mem_cons_of_mem _ hm, e⟩

theorem newlyPlayed_fresh : ∀ (week week' : List Match), List.Forall₂ Simulated week week' →
    (∀ m ∈ week, m.Played = false) → newlyPlayed week week' = week' := by
  intro week week' h
  induction h with
  | nil => intro _; rfl
  | cons hab htail ih =>
    rename_i a b l l'
    intro hall
    have ha : a.Played = false := hall a (List.mem_cons_self _ _)
    have hrest := ih (fun m hm => hall m (List.mem_cons_of_mem _ hm))
    unfold newlyPlayed at hrest ⊢
    simp only [List.zip_cons_cons, List.filter_cons, ha, Bool.not_false, if_true, List.map_cons]
    rw [hrest]

theorem take_succ_set {α : Type} : ∀ (l : List α) (c : Nat) (x : α), c < l.length →
    (l.set c x).take (c + 1) = l.take c ++ [x] := by
  intro l
  induction l with
  | nil => intro c x h; simp at h
  | cons a rest ih =>
    intro c x h
    cases c with
    | zero => rfl
    | succ c =>
      simp only [List.set_cons_succ, List.take_succ_cons, List.cons_append, List.cons.injEq,
        true_and]
      exact ih c x (by simpa using h)

theorem drop_succ_set {α : Type} : ∀ (l : List α) (c : Nat) (x : α),
    (l.set c x).drop (c + 1) = l.drop (c + 1) := by
  intro l
  induction l with
  | nil => intro c x; rfl
  | cons a rest ih =>
    intro c x
    cases c with
    | zero => rfl
    | succ c =>
      simp only [List.set_cons_succ, List.drop_succ_cons]
      exact ih c x

/-- The loop of `SimulateAll` from a state in which the weeks before the cursor
are played and counted in the table and the weeks from the cursor on are as
`NewSimulator` created them: every call but the last plays a whole week. -/
theorem SimulateAllLoop_fresh (teams : List Team) (s0 : SimulatorImpl)
    (hid : (teams.map (fun t => t.ID)).Nodup) (heven : teams.length % 2 = 0)
    (hN : 2 ≤ teams.length) (h0 : NewSimulator teams = some s0) :
    ∀ (n : Nat) (s : SimulatorImpl) (draws : Draws) (calls fuel : Nat),
      Reachable s0 s → s.currentWeek + n = s0.fixtures.length → n + 1 ≤ fuel →
      s.fixtures.length = s0.fixtures.length →
      s.fixtures.drop s.currentWeek = s0.fixtures.drop s.currentWeek →
      (∀ week ∈ s.fixtures.take s.currentWeek, ∀ m ∈ week, m.Played = true) →
      (∀ k x0, s0.standings.get k = some x0 →
        ∃ x, s.standings.get k = some x ∧
          Tally (s.fixtures.take s.currentWeek).flatten k x0.Team x) →
      ∃ s', SimulateAllLoop fuel s draws calls = LoopResult.returned s' (calls + n + 1) ∧
        Reachable s0 s' ∧ s'.currentWeek = s0.fixtures.length ∧
        (∀ week ∈ s'.fixtures, ∀ m ∈ week, m.Played = true) ∧
        (∀ k x0, s0.standings.get k = some x0 →
          ∃ x, s'.standings.get k = some x ∧ Tally s'.fixtures.flatten k x0.Team x) := by
  have hfix : s0.fixtures = firstLegWeeks teams ++ secondLegWeeks teams := by
    unfold NewSimulator at h0
    simp only [generateFixtures_eq teams hN] at h0
    rw [← Option.some.inj h0]
  intro n
  induction n with
  | zero =>
    intro s draws calls fuel hr hc hfuel hlen _ hplayed htally
    obtain ⟨f, rfl⟩ : ∃ f, fuel = f + 1 := ⟨fuel - 1, by omega⟩
    have hge : s.currentWeek ≥ s.fixtures.length := by omega
    have hw : SimulateWeek s draws = some (false, s, draws) := by
      unfold SimulateWeek
      rw [if_pos hge]
    have htake : s.fixtures.take s.currentWeek = s.fixtures := List.take_of_length_le hge
    rw [htake] at hplayed htally
    refine ⟨s, ?_, hr, by omega, hplayed, htally⟩
    rw [SimulateAllLoop, hw]
  | succ n ih =>
    intro s draws calls fuel hr hc hfuel hlen hdrop hplayed htally
    obtain ⟨f, rfl⟩ : ∃ f, fuel = f + 1 := ⟨fuel - 1, by omega⟩
    have hlt : s.currentWeek < s.fixtures.length := by omega
    have hp : TeamsPresent s := Reachable_present teams s0 s h0 hr
    obtain ⟨s1, d1, week, week', hrun, hcur, _, hweek, hset, hsim, hrep⟩ :=
      SimulateWeek_spec s draws hlt hp
    have hr1 : Reachable s0 s1 := Reachable.simulateWeek hr hrun
    have hweek0 : s0.fixtures[s.currentWeek]? = some week := by
      have e := congrArg (fun l => l[0]?) hdrop
      simp only [List.getElem?_drop, Nat.add_zero] at e
      rw [← e]; exact hweek
    have hmem0 : week ∈ firstLegWeeks teams ++ secondLegWeeks teams := by
      rw [← hfix]; exact mem_of_getElem_some _ _ _ hweek0
    obtain ⟨hne, hunplayed⟩ := fresh_week teams hN week hmem0
    have hflag : (!(week.all (fun m => m.Played))) = true := by
      obtain ⟨m, hm⟩ := List.exists_mem_of_ne_nil week hne
      simp only [Bool.not_eq_true', List.all_eq_false]
      exact ⟨m, hm, by simp [hunplayed m hm]⟩
    rw [hflag] at hrun
    have hnew : newlyPlayed week week' = week' := newlyPlayed_fresh week week' hsim hunplayed
    rw [hnew] at hrep
    have hsides := simulated_sides week week' hsim
    have hdist := Reachable_sides_distinct teams s0 s hid heven hN h0 hr
    have hweekmem : week ∈ s.fixtures := mem_of_getElem_some _ _ _ hweek
    have hreq : ∀ m ∈ week', (s.standings.get m.Home.ID).isSome = true ∧
        (s.standings.get m.Away.ID).isSome = true ∧ m.Home.ID ≠ m.Away.ID := by
      intro m' hm'
      obtain ⟨m, hm, e1, e2⟩ := hsides m' hm'
      rw [e1, e2]
      exact ⟨(hp week hweekmem m hm).1, (hp week hweekmem m hm).2, hdist week hweekmem m hm⟩
    obtain ⟨T', hT', htally'⟩ :=
      replay_tally week' (s.fixtures.take s.currentWeek).flatten s.standings hreq
    rw [hrep] at hT'
    have hT1 : s1.standings = T' := Option.some.inj hT'
    have htake1 : s1.fixtures.take s1.currentWeek = s.fixtures.take s.currentWeek ++ [week'] := by
      rw [hset, hcur]
      exact take_succ_set s.fixtures s.currentWeek week' hlt
    have hdrop1 : s1.fixtures.drop s1.currentWeek = s0.fixtures.drop s1.currentWeek := by
      rw [hset, hcur, drop_succ_set]
      have e := congrArg List.tail hdrop
      simpa [List.tail_drop] using e
    obtain ⟨s', hloop, hr', hc', hall', htal'⟩ := ih s1 d1 (calls + 1) f hr1 (by omega) (by omega)
      (by rw [hset, List.length_set]; exact hlen) hdrop1
      (by
        rw [htake1]
        intro wk hwk m hm
        rcases List.mem_append.mp hwk with h | h
        · exact hplayed wk h m hm
        · rw [List.mem_singleton] at h
          subst h
          exact simulated_played week wk hsim m hm)
      (by
        intro k x0 hx0
        obtain ⟨x, hx, ht⟩ := htally k x0 hx0
        obtain ⟨x', hx', ht'⟩ := htally' k x0.Team x hx ht
        refine ⟨x', by rw [hT1]; exact hx', ?_⟩
        rw [htake1, List.flatten_append, List.flatten_singleton]
        exact ht')
    refine ⟨s', ?_, hr', hc', hall', htal'⟩
    rw [SimulateAllLoop, hrun]
    simp only []
    rw [hloop]
    congr 1
    omega

/-- C23: for every list of `N` teams with pairwise distinct IDs, `N` even and
`N ≥ 2`, and for every stream of simulated scorelines, `NewSimulator` returns a
state and `SimulateAll` on it (and equally on `Reset` of any state reachable
from it) returns after `2 (N - 1) + 1` calls of `SimulateWeek`; afterwards every
match has `Played = true`, the cursor is `2 (N - 1)`, and the record of every
team has `Played = 2 (N - 1)`. -/
theorem SimulateAll_plays_whole_league (teams : List Team) (draws : Draws)
    (hid : (teams.map (fun t => t.ID)).Nodup) (heven : teams.length % 2 = 0)
    (hN : 2 ≤ teams.length) :
    ∃ (s0 s' : SimulatorImpl), NewSimulator teams = some s0 ∧
      SimulateAll s0 draws = LoopResult.returned s' (2 * (teams.length - 1) + 1) ∧
      (∀ s, Reachable s0 s →
        SimulateAll (Reset s) draws = LoopResult.returned s' (2 * (teams.length - 1) + 1)) ∧
      s'.currentWeek = 2 * (teams.length - 1) ∧
      s'.fixtures.length = 2 * (teams.length - 1) ∧
      (∀ week ∈ s'.fixtures, ∀ m ∈ week, m.Played = true) ∧
      (∀ t ∈ teams, ∃ st, s'.standings.get t.ID = some st ∧
        st.Played = ((2 * (teams.length - 1) : Nat) : Int)) := by
  have hgen := generateFixtures_eq teams hN
  have hex : ∃ s0, NewSimulator teams = some s0 ∧
      s0.fixtures = firstLegWeeks teams ++ secondLegWeeks teams ∧ s0.currentWeek = 0 ∧
      s0.standings = initStandings teams [] := by
    unfold NewSimulator
    simp only [hgen]
    exact ⟨_, rfl, rfl, rfl, rfl⟩
  obtain ⟨s0, h0, hfix, hcur0, hst0⟩ := hex
  have hL : s0.fixtures.length = 2 * (teams.length - 1) := by
    rw [hfix]
    simp [firstLegWeeks, secondLegWeeks]
    omega
  have hclear : clearStandings s0.standings = s0.standings := by
    rw [hst0]; exact initStandings_cleared teams [] rfl
  obtain ⟨s', hrun, hr', hc', hall', htal'⟩ :=
    SimulateAllLoop_fresh teams s0 hid heven hN h0 s0.fixtures.length s0 draws 0
      (s0.fixtures.length + 1) Reachable.init (by rw [hcur0]; omega) (le_refl _) rfl rfl
      (by
        rw [hcur0]
        intro week hweek
        simp at hweek)
      (by
        intro k x0 hx0
        refine ⟨x0, hx0, ?_⟩
        rw [hcur0, List.take_zero, List.flatten_nil]
        have e := get_clearStandings s0.standings k
        rw [hclear, hx0] at e
        have e' : x0 = clearStanding x0 := Option.some.inj e
        have ht := tally_clear k x0
        rw [← e'] at ht
        exact ht)
  have hrun' : SimulateAll s0 draws = LoopResult.returned s' (2 * (teams.length - 1) + 1) := by
    unfold SimulateAll
    rw [hrun, hL]
    congr 1
    omega
  have hreset' := Reachable_reset s0 s' hr'
  refine ⟨s0, s', h0, hrun', ?_, by rw [hc', hL], ?_, hall', ?_⟩
  · intro s hr
    rw [Reachable_reset s0 s hr, NewSimulator_reset teams s0 h0]
    exact hrun'
  · have e := congrArg (fun x => x.fixtures.length) hreset'
    simp only [Reset, List.length_map] at e
    rw [e, hL]
  · intro t ht
    have hpres : (s0.standings.get t.ID).isSome = true := by
      rw [hst0]
      exact initStandings_present teams [] _ (Or.inl ⟨t, ht, rfl⟩)
    obtain ⟨x0, hx0⟩ := Option.isSome_iff_exists.mp hpres
    obtain ⟨x, hx, htally⟩ := htal' t.ID x0 hx0
    refine ⟨x, hx, ?_⟩
    rw [htally.2.1, takesPart_of_reset s0 s' hreset' t.ID, hfix,
      flatten_countP_one _ _ (week_takesPart_count teams hid heven hN t ht), ← hfix, hL]

theorem SimulateAll_plays_whole_league_witness :
    (demoTeams.map (fun t => t.ID)).Nodup ∧ demoTeams.length % 2 = 0 ∧ 2 ≤ demoTeams.length ∧
      ∃ (s0 s' : SimulatorImpl), NewSimulator demoTeams = some s0 ∧
        SimulateAll s0 (fun _ => 1) =
          LoopResult.returned s' (2 * (demoTeams.length - 1) + 1) ∧
        (∀ s, Reachable s0 s →
          SimulateAll (Reset s) (fun _ => 1) =
            LoopResult.returned s' (2 * (demoTeams.length - 1) + 1)) ∧
        s'.currentWeek = 2 * (demoTeams.length - 1) ∧
        s'.fixtures.length = 2 * (demoTeams.length - 1) ∧
        (∀ week ∈ s'.fixtures, ∀ m ∈ week, m.Played = true) ∧
        (∀ t ∈ demoTeams, ∃ st, s'.standings.get t.ID = some st ∧
          st.Played = ((2 * (demoTeams.length - 1) : Nat) : Int)) :=
  ⟨by decide, by decide, by decide,
   SimulateAll_plays_whole_league demoTeams (fun _ => 1) (by decide) (by decide) (by decide)⟩

end LeagueSim
